import Mathlib

/-! # Hopsan: verification of component and loader behaviour

A shallow embedding of parts of the Hopsan simulation engine:

* the hydraulic shuttle valve (`HydraulicShuttleValve.hpp`),
* the square wave signal source (`SignalSquareWave.hpp`),
* further Q and C components and the HMF loader (below).

C++ `double` values are embedded as exact rationals (`ℚ`): every arithmetic
operation is the exact one, there is no rounding, no infinity and no NaN.
Where the source divides, the theorems carry the hypothesis that the divisor
is not zero.
-/

namespace Hopsan

/-! ## Node data -/

/-- The slots of a hydraulic node (`NodeHydraulic`), one field per data id. -/
structure NodeHydraulic where
  PRESSURE : ℚ
  FLOW : ℚ
  TEMPERATURE : ℚ
  HEATFLOW : ℚ
  WAVEVARIABLE : ℚ
  CHARIMP : ℚ
deriving DecidableEq, Repr

/-! ## HydraulicShuttleValve -/

/-- The storage the twelve `mpND_*` pointers of a `HydraulicShuttleValve`
point into after `initialize`: one node per port.  `P3` is `NOTREQUIRED`;
when it is not connected, `n3` stands for the dummy slots that
`getSafeNodeDataPtr` hands out, and `p3Connected` is what
`mpP3->isConnected()` returns. -/
structure HydraulicShuttleValve where
  n1 : NodeHydraulic
  n2 : NodeHydraulic
  n3 : NodeHydraulic
  p3Connected : Bool
deriving DecidableEq, Repr

namespace HydraulicShuttleValve

/-- The cavitation check `if (p < 0.0) p = 0.0`. -/
def cavitationCheck (p : ℚ) : ℚ := if p < 0 then 0 else p

/-- One step of the shuttle valve, `HydraulicShuttleValve::simulateOneTimestep`. -/
def simulateOneTimestep (s : HydraulicShuttleValve) : HydraulicShuttleValve :=
  -- Get variable values from nodes
  let p1 := s.n1.PRESSURE
  let p2 := s.n2.PRESSURE
  let c1 := s.n1.WAVEVARIABLE
  let c2 := s.n2.WAVEVARIABLE
  let c3 := s.n3.WAVEVARIABLE
  let Zc1 := s.n1.CHARIMP
  let Zc2 := s.n2.CHARIMP
  let Zc3 := s.n3.CHARIMP
  -- Shuttle valve equations
  let q3 : ℚ :=
    if p1 > p2 then
      (if s.p3Connected then (c1 - c3) / (Zc1 + Zc3) else 0)
    else
      (if s.p3Connected then (c2 - c3) / (Zc2 + Zc3) else 0)
  let q1 : ℚ := if p1 > p2 then -q3 else 0
  let q2 : ℚ := if p1 > p2 then 0 else -q3
  let p1 := cavitationCheck (c1 + q1 * Zc1)
  let p2 := cavitationCheck (c2 + q2 * Zc2)
  let p3 := cavitationCheck (c3 + q3 * Zc3)
  -- Write new variables to nodes
  { s with
    n1 := { s.n1 with PRESSURE := p1, FLOW := q1 }
    n2 := { s.n2 with PRESSURE := p2, FLOW := q2 }
    n3 := { s.n3 with PRESSURE := p3, FLOW := q3 } }

/-- Scenario "Shuttle valve": P1 held at 5 MPa and P2 at 3 MPa by pressure
sources (`Zc = 0`), P3 connected to a load line. -/
def scenarioP1High : HydraulicShuttleValve where
  n1 := ⟨5000000, 0, 0, 0, 5000000, 0⟩
  n2 := ⟨3000000, 0, 0, 0, 3000000, 0⟩
  n3 := ⟨100000, 0, 0, 0, 100000, 1000000⟩
  p3Connected := true

/-- The same valve right after the sources were swapped to P1 = 3 MPa and
P2 = 5 MPa: the wave variables are the new ones, the stored pressures and flows
are still those the valve wrote while it drew from P1. -/
def scenarioSwapped : HydraulicShuttleValve where
  n1 := ⟨5000000, -49/10, 0, 0, 3000000, 0⟩
  n2 := ⟨3000000, 0, 0, 0, 5000000, 0⟩
  n3 := ⟨5000000, 49/10, 0, 0, 100000, 1000000⟩
  p3Connected := true

/-- The scenario state before the valve has written anything: same wave
variables and impedances as `scenarioP1High`, stored pressures and flows all 0. -/
def scenarioP1HighUnwritten : HydraulicShuttleValve where
  n1 := ⟨0, 0, 0, 0, 5000000, 0⟩
  n2 := ⟨0, 0, 0, 0, 3000000, 0⟩
  n3 := ⟨0, 0, 0, 0, 100000, 1000000⟩
  p3Connected := true

/-- The scenario state with other stored pressures and flows that still
satisfy `p1 > p2`. -/
def scenarioP1HighOther : HydraulicShuttleValve where
  n1 := ⟨7, 3, 0, 0, 5000000, 0⟩
  n2 := ⟨1, 4, 0, 0, 3000000, 0⟩
  n3 := ⟨2, -5, 0, 0, 100000, 1000000⟩
  p3Connected := true

/-- Two valve states agree on what a Q component may read: the delayed wave
variables `c1, c2, c3`, the impedances `Zc1, Zc2, Zc3`, and whether P3 is
connected. -/
def agreeOnWaves (s t : HydraulicShuttleValve) : Prop :=
  s.n1.WAVEVARIABLE = t.n1.WAVEVARIABLE ∧ s.n2.WAVEVARIABLE = t.n2.WAVEVARIABLE
  ∧ s.n3.WAVEVARIABLE = t.n3.WAVEVARIABLE
  ∧ s.n1.CHARIMP = t.n1.CHARIMP ∧ s.n2.CHARIMP = t.n2.CHARIMP ∧ s.n3.CHARIMP = t.n3.CHARIMP
  ∧ s.p3Connected = t.p3Connected

instance (s t : HydraulicShuttleValve) : Decidable (agreeOnWaves s t) := by
  unfold agreeOnWaves; infer_instance

/-- Two valve states hold the same written values: the pressures and flows of
the three port nodes. -/
def sameWritten (s t : HydraulicShuttleValve) : Prop :=
  s.n1.PRESSURE = t.n1.PRESSURE ∧ s.n1.FLOW = t.n1.FLOW
  ∧ s.n2.PRESSURE = t.n2.PRESSURE ∧ s.n2.FLOW = t.n2.FLOW
  ∧ s.n3.PRESSURE = t.n3.PRESSURE ∧ s.n3.FLOW = t.n3.FLOW

instance (s t : HydraulicShuttleValve) : Decidable (sameWritten s t) := by
  unfold sameWritten; infer_instance

end HydraulicShuttleValve

/-! ## SignalSquareWave -/

/-- The members of a `SignalSquareWave` that its step reads, and the signal
node value behind the write port `out`. -/
structure SignalSquareWave where
  mStartTime : ℚ
  mFrequency : ℚ
  mAmplitude : ℚ
  mBaseValue : ℚ
  mTime : ℚ
  out : ℚ
deriving DecidableEq, Repr

namespace SignalSquareWave

/-- The value `output` that `SignalSquareWave::simulateOneTimestep` computes.
`(int)ceil(x)` is the integer ceiling (the conversion to `int` is exact as long
as the ceiling fits an `int`; outside that range the conversion is undefined in
C++), and `%` on `int` truncates towards zero. -/
def output (s : SignalSquareWave) : ℚ :=
  if s.mTime < s.mStartTime then
    0
  else
    let relTimeInt : Int := Int.ceil ((s.mTime - s.mStartTime) * s.mFrequency)
    s.mBaseValue + (s.mAmplitude * ((Int.tmod relTimeInt 2 : Int) : ℚ))

/-- One step of the square wave source: `output` is written to the node. -/
def simulateOneTimestep (s : SignalSquareWave) : SignalSquareWave :=
  { s with out := output s }

/-- Scenario "Square-wave signal source": start 0.1 s, 10 Hz, amplitude 1,
base value 0, evaluated at time `t`. -/
def scenario (t : ℚ) : SignalSquareWave where
  mStartTime := 1 / 10
  mFrequency := 10
  mAmplitude := 1
  mBaseValue := 0
  mTime := t
  out := 0

end SignalSquareWave

/-! ## Component utilities -/

/-- The helper functions of `ComponentUtilities.h` that the generated components
call, and `EquationSystemSolver::solve`.  Their code is not among the sources
at hand, so the embedding takes them as parameters.  `solve n jacobian equations
stateVark iter` is the content of `stateVark` after
`mpSolver->solve(jacobianMatrix, systemEquations, stateVark, iter)` for a solver
of size `n`. -/
structure ComponentUtilities where
  Sqrt : ℚ → ℚ
  Abs : ℚ → ℚ
  Cos : ℚ → ℚ
  Sin : ℚ → ℚ
  Sec : ℚ → ℚ
  Power : ℚ → ℚ → ℚ
  limit : ℚ → ℚ → ℚ → ℚ
  dxLimit : ℚ → ℚ → ℚ → ℚ
  lowLimit : ℚ → ℚ → ℚ
  dxLowLimit : ℚ → ℚ → ℚ
  onPositive : ℚ → ℚ
  signedSquareL : ℚ → ℚ → ℚ
  dxSignedSquareL : ℚ → ℚ → ℚ
  solve : (n : Nat) → (Fin n → Fin n → ℚ) → (Fin n → ℚ) → (Fin n → ℚ) → Nat → (Fin n → ℚ)

/-- The assignment `a[i] = x` on an array of doubles. -/
def setIdx (a : Nat → ℚ) (i : Nat) (x : ℚ) : Nat → ℚ :=
  fun k => if k = i then x else a k

/-- The assignment `m[i][j] = x` on a matrix of doubles. -/
def setIdx2 (m : Nat → Nat → ℚ) (i j : Nat) (x : ℚ) : Nat → Nat → ℚ :=
  fun a b => if a = i ∧ b = j then x else m a b

/-- Modelled from the spec: the `Delay` line of the numerical primitives, whose
code is not among the sources at hand: "a ring buffer of length N holding scalar
history; `update(x)` pushes and returns the oldest; `getIdx(k)` reads k-step-old
value".  The buffer is kept newest first. -/
structure Delay where
  buffer : List ℚ

/-- Reads the `k`-step-old value of a delay line. -/
def Delay.getIdx (d : Delay) (k : Nat) : ℚ := d.buffer.getD k 0

/-- Pushes `x` into a delay line and drops the oldest value. -/
def Delay.update (d : Delay) (x : ℚ) : Delay := ⟨(x :: d.buffer).dropLast⟩

/-! ## HydraulicValve43LS -/

/-- The members of a `HydraulicValve43LS` together with the storage its
pointers refer to: the five port nodes `Pp`, `Pt`, `Pa`, `Pb`, `Pls` (all
required power ports) and the value `in_xv` behind the input variable pointer
`mpxv`. -/
structure HydraulicValve43LS where
  rho : ℚ
  Cq : ℚ
  Sd : ℚ
  Frap : ℚ
  Frat : ℚ
  Frbp : ℚ
  Frbt : ℚ
  wls : ℚ
  Xap0 : ℚ
  Xat0 : ℚ
  Xbp0 : ℚ
  Xbt0 : ℚ
  Xlsa0 : ℚ
  Xlsb0 : ℚ
  Xls0 : ℚ
  Xvmax : ℚ
  Xvlsmax : ℚ
  plam : ℚ
  delayParts1 : Nat → ℚ
  delayParts2 : Nat → ℚ
  delayParts3 : Nat → ℚ
  delayParts4 : Nat → ℚ
  delayParts5 : Nat → ℚ
  delayParts6 : Nat → ℚ
  delayParts7 : Nat → ℚ
  delayParts8 : Nat → ℚ
  delayParts9 : Nat → ℚ
  delayParts10 : Nat → ℚ
  delayedPart : Nat → Nat → ℚ
  mNoiter : Nat
  pp : ℚ
  qp : ℚ
  Tp : ℚ
  dEp : ℚ
  cp : ℚ
  Zcp : ℚ
  pt : ℚ
  qt : ℚ
  Tt : ℚ
  dEt : ℚ
  ct : ℚ
  Zct : ℚ
  pa : ℚ
  qa : ℚ
  Ta : ℚ
  dEa : ℚ
  ca : ℚ
  Zca : ℚ
  pb : ℚ
  qb : ℚ
  Tb : ℚ
  dEb : ℚ
  cb : ℚ
  Zcb : ℚ
  pls : ℚ
  qls : ℚ
  Tls : ℚ
  dEls : ℚ
  cls : ℚ
  Zcls : ℚ
  xv : ℚ
  Ks : ℚ
  Kspa : ℚ
  Ksta : ℚ
  Kspb : ℚ
  Kstb : ℚ
  Kslsa : ℚ
  Kslsb : ℚ
  Kslst : ℚ
  Pp : NodeHydraulic
  Pt : NodeHydraulic
  Pa : NodeHydraulic
  Pb : NodeHydraulic
  Pls : NodeHydraulic
  in_xv : ℚ

namespace HydraulicValve43LS

/-- The sections "Read variables from nodes" and "Read inputVariables from nodes". -/
def readNodes (s : HydraulicValve43LS) : HydraulicValve43LS :=
  { s with
    Tp := s.Pp.TEMPERATURE, cp := s.Pp.WAVEVARIABLE, Zcp := s.Pp.CHARIMP,
    Tt := s.Pt.TEMPERATURE, ct := s.Pt.WAVEVARIABLE, Zct := s.Pt.CHARIMP,
    Ta := s.Pa.TEMPERATURE, ca := s.Pa.WAVEVARIABLE, Zca := s.Pa.CHARIMP,
    Tb := s.Pb.TEMPERATURE, cb := s.Pb.WAVEVARIABLE, Zcb := s.Pb.CHARIMP,
    Tls := s.Pls.TEMPERATURE, cls := s.Pls.WAVEVARIABLE, Zcls := s.Pls.CHARIMP,
    xv := s.in_xv }

/-- The section "LocalExpressions": the opening coefficients, computed one after the
other. -/
def localExpressions (U : ComponentUtilities) (s : HydraulicValve43LS) : HydraulicValve43LS :=
  let s := { s with Ks := ((14142135623730951 / 10000000000000000) * s.Cq) / (U.Sqrt s.rho) }
  let s := { s with Kspa := ((((314159 / 100000) * s.Frap) * s.Ks) * s.Sd) * (U.limit ((-s.Xap0) +
      s.xv) 0 ((-s.Xap0) + s.Xvmax)) }
  let s := { s with Ksta := ((((314159 / 100000) * s.Frat) * s.Ks) * s.Sd) * (U.limit ((-s.Xap0) -
      s.xv) 0 ((-s.Xat0) + s.Xvmax)) }
  let s := { s with Kspb := ((((314159 / 100000) * s.Frbp) * s.Ks) * s.Sd) * (U.limit ((-s.Xap0) -
      s.xv) 0 ((-s.Xbp0) + s.Xvmax)) }
  let s := { s with Kstb := ((((314159 / 100000) * s.Frbt) * s.Ks) * s.Sd) * (U.limit ((-s.Xap0) +
      s.xv) 0 ((-s.Xbt0) + s.Xvmax)) }
  let s := { s with Kslsa := (s.Ks * s.wls) * (U.limit ((-s.Xlsa0) + s.xv) 0 ((-s.Xlsa0) +
      s.Xvlsmax)) }
  let s := { s with Kslsb := (s.Ks * s.wls) * (U.limit ((-s.Xlsb0) - s.xv) 0 ((-s.Xlsb0) +
      s.Xvlsmax)) }
  { s with Kslst := (s.Ks * s.wls) * (U.limit (s.Xls0 - (U.Abs s.xv)) 0 s.Xls0) }

/-- The section "Initializing variable vector for Newton-Raphson". -/
def initialStateVark (s : HydraulicValve43LS) : Fin 10 → ℚ :=
  ![s.qp, s.qt, s.qa, s.qb, s.qls, s.pp, s.pt, s.pa, s.pb, s.pls]

/-- The residuals `systemEquations[0..9]` assembled in the Newton-Raphson loop. -/
def systemEquations (U : ComponentUtilities) (s : HydraulicValve43LS) : Fin 10 → ℚ :=
  ![(s.qp + (s.Kspa * (U.signedSquareL ((-s.pa) + s.pp) s.plam))) + (s.Kspb * (U.signedSquareL
      ((-s.pb) + s.pp) s.plam)),
    (s.qt + (s.Ksta * (U.signedSquareL ((-s.pa) + s.pt) s.plam))) + (s.Kstb * (U.signedSquareL
        ((-s.pb) + s.pt) s.plam)),
    (s.qa - (s.Kspa * (U.signedSquareL ((-s.pa) + s.pp) s.plam))) - (s.Ksta * (U.signedSquareL
        ((-s.pa) + s.pt) s.plam)),
    (s.qb - (s.Kspb * (U.signedSquareL ((-s.pb) + s.pp) s.plam))) - (s.Kstb * (U.signedSquareL
        ((-s.pb) + s.pt) s.plam)),
    ((s.qls + (s.Kslsa * (U.signedSquareL ((-s.pa) + s.pls) s.plam))) + (s.Kslsb *
        (U.signedSquareL ((-s.pb) + s.pls) s.plam))) + (s.Kslst * (U.signedSquareL (s.pls - s.pt)
        s.plam)),
    s.pp - (U.lowLimit (s.cp + ((s.qp * s.Zcp) * (U.onPositive s.pp))) 0),
    s.pt - (U.lowLimit (s.ct + ((s.qt * s.Zct) * (U.onPositive s.pt))) 0),
    s.pa - (U.lowLimit (s.ca + ((s.qa * s.Zca) * (U.onPositive s.pa))) 0),
    s.pb - (U.lowLimit (s.cb + ((s.qb * s.Zcb) * (U.onPositive s.pb))) 0),
    s.pls - (U.lowLimit (s.cls + ((s.qls * s.Zcls) * (U.onPositive s.pls))) 0)]

/-- The entries `jacobianMatrix[i][j]` assembled in the Newton-Raphson loop; row `i`
is the `i`-th vector. -/
def jacobianMatrix (U : ComponentUtilities) (s : HydraulicValve43LS) : Fin 10 → Fin 10 → ℚ :=
  ![![1, 0, 0, 0, 0,
      (s.Kspa * (U.dxSignedSquareL ((-s.pa) + s.pp) s.plam)) + (s.Kspb * (U.dxSignedSquareL
          ((-s.pb) + s.pp) s.plam)),
      0, -(s.Kspa * (U.dxSignedSquareL ((-s.pa) + s.pp) s.plam)),
      -(s.Kspb * (U.dxSignedSquareL ((-s.pb) + s.pp) s.plam)), 0],
    ![0, 1, 0, 0, 0, 0,
      (s.Ksta * (U.dxSignedSquareL ((-s.pa) + s.pt) s.plam)) + (s.Kstb * (U.dxSignedSquareL
          ((-s.pb) + s.pt) s.plam)),
      -(s.Ksta * (U.dxSignedSquareL ((-s.pa) + s.pt) s.plam)),
      -(s.Kstb * (U.dxSignedSquareL ((-s.pb) + s.pt) s.plam)), 0],
    ![0, 0, 1, 0, 0, -(s.Kspa * (U.dxSignedSquareL ((-s.pa) + s.pp) s.plam)),
      -(s.Ksta * (U.dxSignedSquareL ((-s.pa) + s.pt) s.plam)),
      (s.Kspa * (U.dxSignedSquareL ((-s.pa) + s.pp) s.plam)) + (s.Ksta * (U.dxSignedSquareL
          ((-s.pa) + s.pt) s.plam)),
      0, 0],
    ![0, 0, 0, 1, 0, -(s.Kspb * (U.dxSignedSquareL ((-s.pb) + s.pp) s.plam)),
      -(s.Kstb * (U.dxSignedSquareL ((-s.pb) + s.pt) s.plam)), 0,
      (s.Kspb * (U.dxSignedSquareL ((-s.pb) + s.pp) s.plam)) + (s.Kstb * (U.dxSignedSquareL
          ((-s.pb) + s.pt) s.plam)),
      0],
    ![0, 0, 0, 0, 1, 0, -(s.Kslst * (U.dxSignedSquareL (s.pls - s.pt) s.plam)),
      -(s.Kslsa * (U.dxSignedSquareL ((-s.pa) + s.pls) s.plam)),
      -(s.Kslsb * (U.dxSignedSquareL ((-s.pb) + s.pls) s.plam)),
      ((s.Kslsa * (U.dxSignedSquareL ((-s.pa) + s.pls) s.plam)) + (s.Kslsb * (U.dxSignedSquareL
          ((-s.pb) + s.pls) s.plam))) + (s.Kslst * (U.dxSignedSquareL (s.pls - s.pt) s.plam))],
    ![-((s.Zcp * (U.dxLowLimit (s.cp + ((s.qp * s.Zcp) * (U.onPositive s.pp))) 0)) * (U.onPositive
        s.pp)),
      0, 0, 0, 0, 1, 0, 0, 0, 0],
    ![0,
      -((s.Zct * (U.dxLowLimit (s.ct + ((s.qt * s.Zct) * (U.onPositive s.pt))) 0)) * (U.onPositive
          s.pt)),
      0, 0, 0, 0, 1, 0, 0, 0],
    ![0, 0,
      -((s.Zca * (U.dxLowLimit (s.ca + ((s.qa * s.Zca) * (U.onPositive s.pa))) 0)) * (U.onPositive
          s.pa)),
      0, 0, 0, 0, 1, 0, 0],
    ![0, 0, 0,
      -((s.Zcb * (U.dxLowLimit (s.cb + ((s.qb * s.Zcb) * (U.onPositive s.pb))) 0)) * (U.onPositive
          s.pb)),
      0, 0, 0, 0, 1, 0],
    ![0, 0, 0, 0,
      -((s.Zcls * (U.dxLowLimit (s.cls + ((s.qls * s.Zcls) * (U.onPositive s.pls))) 0)) *
          (U.onPositive s.pls)),
      0, 0, 0, 0, 1]]

/-- One pass of the body of the Newton-Raphson loop: the solver updates
`stateVark`, which is copied back into the flow and pressure members. -/
def newtonRaphsonIteration (U : ComponentUtilities)
    (sv : HydraulicValve43LS × (Fin 10 → ℚ)) (iter : Nat) :
    HydraulicValve43LS × (Fin 10 → ℚ) :=
  let stateVark := U.solve 10 (jacobianMatrix U sv.1) (systemEquations U sv.1) sv.2 iter
  ({ sv.1 with
      qp := stateVark 0, qt := stateVark 1, qa := stateVark 2, qb := stateVark 3,
      qls := stateVark 4, pp := stateVark 5, pt := stateVark 6, pa := stateVark 7,
      pb := stateVark 8, pls := stateVark 9 }, stateVark)

/-- The loop `for(iter=1;iter<=mNoiter;iter++)`. -/
def newtonRaphson (U : ComponentUtilities) (s : HydraulicValve43LS) : HydraulicValve43LS :=
  ((List.range' 1 s.mNoiter).foldl (newtonRaphsonIteration U) (s, initialStateVark s)).1

/-- The section "Calculate the delayed parts". -/
def calculateDelayedParts (s : HydraulicValve43LS) : HydraulicValve43LS :=
  let s := { s with delayedPart := setIdx2 s.delayedPart 1 1 (s.delayParts1 1) }
  let s := { s with delayedPart := setIdx2 s.delayedPart 2 1 (s.delayParts2 1) }
  let s := { s with delayedPart := setIdx2 s.delayedPart 3 1 (s.delayParts3 1) }
  let s := { s with delayedPart := setIdx2 s.delayedPart 4 1 (s.delayParts4 1) }
  let s := { s with delayedPart := setIdx2 s.delayedPart 5 1 (s.delayParts5 1) }
  let s := { s with delayedPart := setIdx2 s.delayedPart 6 1 (s.delayParts6 1) }
  let s := { s with delayedPart := setIdx2 s.delayedPart 7 1 (s.delayParts7 1) }
  let s := { s with delayedPart := setIdx2 s.delayedPart 8 1 (s.delayParts8 1) }
  let s := { s with delayedPart := setIdx2 s.delayedPart 9 1 (s.delayParts9 1) }
  { s with delayedPart := setIdx2 s.delayedPart 10 1 (s.delayParts10 1) }

/-- The section "Write new values to nodes". -/
def writeNodes (s : HydraulicValve43LS) : HydraulicValve43LS :=
  { s with
    Pp := { s.Pp with PRESSURE := s.pp, FLOW := s.qp, HEATFLOW := s.dEp },
    Pt := { s.Pt with PRESSURE := s.pt, FLOW := s.qt, HEATFLOW := s.dEt },
    Pa := { s.Pa with PRESSURE := s.pa, FLOW := s.qa, HEATFLOW := s.dEa },
    Pb := { s.Pb with PRESSURE := s.pb, FLOW := s.qb, HEATFLOW := s.dEb },
    Pls := { s.Pls with PRESSURE := s.pls, FLOW := s.qls, HEATFLOW := s.dEls } }

/-- One step of the valve, `HydraulicValve43LS::simulateOneTimestep`. -/
def simulateOneTimestep (U : ComponentUtilities) (s : HydraulicValve43LS) :
    HydraulicValve43LS :=
  writeNodes (calculateDelayedParts (newtonRaphson U (localExpressions U (readNodes s))))

end HydraulicValve43LS

/-! ## MechanicJLink -/

/-- The slots of a mechanic node (`NodeMechanic`). -/
structure NodeMechanic where
  Force : ℚ
  Position : ℚ
  Velocity : ℚ
  WaveVariable : ℚ
  CharImpedance : ℚ
  EquivalentMass : ℚ
deriving DecidableEq, Repr

/-- The slots of a rotational mechanic node (`NodeMechanicRotational`). -/
structure NodeMechanicRotational where
  Torque : ℚ
  Angle : ℚ
  AngularVelocity : ℚ
  WaveVariable : ℚ
  CharImpedance : ℚ
  EquivalentInertia : ℚ
deriving DecidableEq, Repr

/-- The members of a `MechanicJLink` together with the storage its pointers
refer to: the port nodes `Pm1` and `Pmr2` and the values `in_*` behind the
input variable pointers `mpJL`, ..., `mpthetamax`. -/
structure MechanicJLink where
  JL : ℚ
  BL : ℚ
  link : ℚ
  x0 : ℚ
  theta0 : ℚ
  thetamin : ℚ
  thetamax : ℚ
  delayParts1 : Nat → ℚ
  delayParts2 : Nat → ℚ
  delayParts3 : Nat → ℚ
  delayParts4 : Nat → ℚ
  delayedPart : Nat → Nat → ℚ
  mNoiter : Nat
  mTimestep : ℚ
  fm1 : ℚ
  xm1 : ℚ
  vm1 : ℚ
  cm1 : ℚ
  Zcm1 : ℚ
  eqMassm1 : ℚ
  tormr2 : ℚ
  thetamr2 : ℚ
  wmr2 : ℚ
  cmr2 : ℚ
  Zcmr2 : ℚ
  eqInertiamr2 : ℚ
  mDelayedPart11 : Delay
  mDelayedPart21 : Delay
  mDelayedPart22 : Delay
  Pm1 : NodeMechanic
  Pmr2 : NodeMechanicRotational
  in_JL : ℚ
  in_BL : ℚ
  in_link : ℚ
  in_x0 : ℚ
  in_theta0 : ℚ
  in_thetamin : ℚ
  in_thetamax : ℚ

namespace MechanicJLink

/-- The sections "Read variables from nodes" and "Read inputParameters from nodes". -/
def readNodes (s : MechanicJLink) : MechanicJLink :=
  { s with
    cm1 := s.Pm1.WaveVariable, Zcm1 := s.Pm1.CharImpedance,
    cmr2 := s.Pmr2.WaveVariable, Zcmr2 := s.Pmr2.CharImpedance,
    JL := s.in_JL, BL := s.in_BL, link := s.in_link, x0 := s.in_x0, theta0 := s.in_theta0,
    thetamin := s.in_thetamin, thetamax := s.in_thetamax }

/-- The section "Initializing variable vector for Newton-Raphson". -/
def initialStateVark (s : MechanicJLink) : Fin 4 → ℚ :=
  ![s.wmr2, s.thetamr2, s.fm1, s.tormr2]

/-- The residuals `systemEquations[0..3]` assembled in the Newton-Raphson loop. -/
def systemEquations (U : ComponentUtilities) (s : MechanicJLink) : Fin 4 → ℚ :=
  ![s.wmr2 - ((U.dxLimit (U.limit ((((-((U.Power s.mTimestep 2) * ((s.tormr2 + (s.BL * s.wmr2)) -
      ((s.fm1 * s.link) * (U.Cos s.thetamr2))))) / (4 * s.JL)) - (s.delayedPart 2 1)) -
      (s.delayedPart 2 2)) s.thetamin s.thetamax) s.thetamin s.thetamax) * ((-((s.mTimestep *
      (s.tormr2 - ((s.fm1 * s.link) * (U.Cos s.thetamr2)))) / ((2 * s.JL) + (s.BL *
      s.mTimestep)))) - (s.delayedPart 1 1))),
    s.thetamr2 - (U.limit ((((-((U.Power s.mTimestep 2) * ((s.tormr2 + (s.BL * s.wmr2)) - ((s.fm1
        * s.link) * (U.Cos s.thetamr2))))) / (4 * s.JL)) - (s.delayedPart 2 1)) - (s.delayedPart 2
        2)) s.thetamin s.thetamax),
    ((-s.cm1) + s.fm1) + (((s.link * s.wmr2) * s.Zcm1) * (U.Cos s.thetamr2)),
    ((-s.cmr2) + s.tormr2) - (s.wmr2 * s.Zcmr2)]

/-- The entries `jacobianMatrix[i][j]` assembled in the Newton-Raphson loop; row `i`
is the `i`-th vector. -/
def jacobianMatrix (U : ComponentUtilities) (s : MechanicJLink) : Fin 4 → Fin 4 → ℚ :=
  ![![1,
      ((((s.fm1 * s.link) * s.mTimestep) * (U.dxLimit (U.limit ((((-((U.Power s.mTimestep 2) *
          ((s.tormr2 + (s.BL * s.wmr2)) - ((s.fm1 * s.link) * (U.Cos s.thetamr2))))) / (4 * s.JL))
          - (s.delayedPart 2 1)) - (s.delayedPart 2 2)) s.thetamin s.thetamax) s.thetamin
          s.thetamax)) * (U.Sin s.thetamr2)) / ((2 * s.JL) + (s.BL * s.mTimestep)),
      -((((s.link * s.mTimestep) * (U.Cos s.thetamr2)) * (U.dxLimit (U.limit ((((-((U.Power
          s.mTimestep 2) * ((s.tormr2 + (s.BL * s.wmr2)) - ((s.fm1 * s.link) * (U.Cos
          s.thetamr2))))) / (4 * s.JL)) - (s.delayedPart 2 1)) - (s.delayedPart 2 2)) s.thetamin
          s.thetamax) s.thetamin s.thetamax)) / ((2 * s.JL) + (s.BL * s.mTimestep))),
      (s.mTimestep * (U.dxLimit (U.limit ((((-((U.Power s.mTimestep 2) * ((s.tormr2 + (s.BL *
          s.wmr2)) - ((s.fm1 * s.link) * (U.Cos s.thetamr2))))) / (4 * s.JL)) - (s.delayedPart 2
          1)) - (s.delayedPart 2 2)) s.thetamin s.thetamax) s.thetamin s.thetamax)) / ((2 * s.JL)
          + (s.BL * s.mTimestep))],
    ![((s.BL * (U.Power s.mTimestep 2)) * (U.dxLimit ((((-((U.Power s.mTimestep 2) * ((s.tormr2 +
        (s.BL * s.wmr2)) - ((s.fm1 * s.link) * (U.Cos s.thetamr2))))) / (4 * s.JL)) -
        (s.delayedPart 2 1)) - (s.delayedPart 2 2)) s.thetamin s.thetamax)) / (4 * s.JL),
      1 + (((((s.fm1 * s.link) * (U.Power s.mTimestep 2)) * (U.dxLimit ((((-((U.Power s.mTimestep
          2) * ((s.tormr2 + (s.BL * s.wmr2)) - ((s.fm1 * s.link) * (U.Cos s.thetamr2))))) / (4 *
          s.JL)) - (s.delayedPart 2 1)) - (s.delayedPart 2 2)) s.thetamin s.thetamax)) * (U.Sin
          s.thetamr2)) / (4 * s.JL)),
      (-(((s.link * (U.Power s.mTimestep 2)) * (U.Cos s.thetamr2)) * (U.dxLimit ((((-((U.Power
          s.mTimestep 2) * ((s.tormr2 + (s.BL * s.wmr2)) - ((s.fm1 * s.link) * (U.Cos
          s.thetamr2))))) / (4 * s.JL)) - (s.delayedPart 2 1)) - (s.delayedPart 2 2)) s.thetamin
          s.thetamax))) / (4 * s.JL),
      ((U.Power s.mTimestep 2) * (U.dxLimit ((((-((U.Power s.mTimestep 2) * ((s.tormr2 + (s.BL *
          s.wmr2)) - ((s.fm1 * s.link) * (U.Cos s.thetamr2))))) / (4 * s.JL)) - (s.delayedPart 2
          1)) - (s.delayedPart 2 2)) s.thetamin s.thetamax)) / (4 * s.JL)],
    ![(s.link * s.Zcm1) * (U.Cos s.thetamr2), -(((s.link * s.wmr2) * s.Zcm1) * (U.Sin
        s.thetamr2)), 1,
      0],
    ![-s.Zcmr2, 0, 0, 1]]

/-- One pass of the body of the Newton-Raphson loop: the solver updates
`stateVark`, which is copied back into the members, and the "Expressions" are
evaluated one after the other. -/
def newtonRaphsonIteration (U : ComponentUtilities)
    (sv : MechanicJLink × (Fin 4 → ℚ)) (iter : Nat) : MechanicJLink × (Fin 4 → ℚ) :=
  let stateVark := U.solve 4 (jacobianMatrix U sv.1) (systemEquations U sv.1) sv.2 iter
  let s : MechanicJLink :=
    { sv.1 with
      wmr2 := stateVark 0, thetamr2 := stateVark 1, fm1 := stateVark 2, tormr2 := stateVark 3 }
  let s := { s with vm1 := -((s.link * s.wmr2) * (U.Cos s.thetamr2)) }
  let s := { s with xm1 := s.x0 - (s.link * (U.Sin s.thetamr2)) }
  let s := { s with eqMassm1 := (s.JL * (U.Power (U.Sec s.thetamr2) 2)) / (U.Power s.link 2) }
  let s := { s with eqInertiamr2 := s.JL }
  (s, stateVark)

/-- The loop `for(iter=1;iter<=mNoiter;iter++)`. -/
def newtonRaphson (U : ComponentUtilities) (s : MechanicJLink) : MechanicJLink :=
  ((List.range' 1 s.mNoiter).foldl (newtonRaphsonIteration U) (s, initialStateVark s)).1

/-- The section "Calculate the delayed parts". -/
def calculateDelayedParts (U : ComponentUtilities) (s : MechanicJLink) : MechanicJLink :=
  let s := { s with
    delayParts1 := setIdx s.delayParts1 1
      (((((s.mTimestep * s.tormr2) - ((2 * s.JL) * s.wmr2)) + ((s.BL * s.mTimestep) * s.wmr2)) -
          (((s.fm1 * s.link) * s.mTimestep) * (U.Cos s.thetamr2))) / ((2 * s.JL) + (s.BL *
          s.mTimestep))) }
  let s := { s with
    delayParts2 := setIdx s.delayParts2 1
      (((((((-8) * s.JL) * s.thetamr2) + ((2 * (U.Power s.mTimestep 2)) * s.tormr2)) + (((2 *
          s.BL) * (U.Power s.mTimestep 2)) * s.wmr2)) - ((((2 * s.fm1) * s.link) * (U.Power
          s.mTimestep 2)) * (U.Cos s.thetamr2))) / (4 * s.JL)) }
  let s := { s with
    delayParts2 := setIdx s.delayParts2 2
      ((((((4 * s.JL) * s.thetamr2) + ((U.Power s.mTimestep 2) * s.tormr2)) + ((s.BL * (U.Power
          s.mTimestep 2)) * s.wmr2)) - (((s.fm1 * s.link) * (U.Power s.mTimestep 2)) * (U.Cos
          s.thetamr2))) / (4 * s.JL)) }
  let s := { s with delayedPart := setIdx2 s.delayedPart 1 1 (s.delayParts1 1) }
  let s := { s with delayedPart := setIdx2 s.delayedPart 2 1 (s.delayParts2 1) }
  let s := { s with delayedPart := setIdx2 s.delayedPart 2 2 (s.mDelayedPart22.getIdx 0) }
  let s := { s with delayedPart := setIdx2 s.delayedPart 3 1 (s.delayParts3 1) }
  { s with delayedPart := setIdx2 s.delayedPart 4 1 (s.delayParts4 1) }

/-- The section "Write new values to nodes". -/
def writeNodes (s : MechanicJLink) : MechanicJLink :=
  { s with
    Pm1 := { s.Pm1 with
      Force := s.fm1, Position := s.xm1, Velocity := s.vm1, EquivalentMass := s.eqMassm1 },
    Pmr2 := { s.Pmr2 with
      Torque := s.tormr2, Angle := s.thetamr2, AngularVelocity := s.wmr2,
      EquivalentInertia := s.eqInertiamr2 } }

/-- The section "Update the delayed variabels". -/
def updateDelays (s : MechanicJLink) : MechanicJLink :=
  { s with
    mDelayedPart11 := s.mDelayedPart11.update (s.delayParts1 1),
    mDelayedPart21 := s.mDelayedPart21.update (s.delayParts2 1),
    mDelayedPart22 := s.mDelayedPart22.update (s.delayParts2 2) }

/-- One step of the link, `MechanicJLink::simulateOneTimestep`. -/
def simulateOneTimestep (U : ComponentUtilities) (s : MechanicJLink) : MechanicJLink :=
  updateDelays (writeNodes (calculateDelayedParts U (newtonRaphson U (readNodes s))))

end MechanicJLink


/-! ## HydraulicVolumeMultiPort -/

/-- The members of a `HydraulicVolumeMultiPort` and the subport nodes of its
multiport `P1`.  After `initialize` the pointer vectors `vpN_p`, `vpN_q`,
`vpN_c`, `vpN_Zc` and the vector `vp_C0` have `mNumPorts` entries, and entry `i`
of the pointer vectors refers to the slots of `nodes i`. -/
structure HydraulicVolumeMultiPort where
  mZc : ℚ
  mAlpha : ℚ
  mVolume : ℚ
  mBulkmodulus : ℚ
  mNumPorts : Nat
  vp_C0 : Fin mNumPorts → ℚ
  nodes : Fin mNumPorts → NodeHydraulic

namespace HydraulicVolumeMultiPort

/-- The first loop: `cTot += (*vpN_c[i]) + 2*mZc*(*vpN_q[i])` for
`i = 0 .. mNumPorts-1`, starting from `cTot = 0.0`. -/
def cTot (s : HydraulicVolumeMultiPort) : ℚ :=
  (List.finRange s.mNumPorts).foldl
    (fun cTot i => cTot + ((s.nodes i).WAVEVARIABLE + 2 * s.mZc * (s.nodes i).FLOW)) 0

/-- The body of the second loop at index `i`, on the vector `vp_C0` and the
subport nodes. -/
def secondLoopBody {n : Nat} (mZc mAlpha pAvg : ℚ)
    (st : (Fin n → ℚ) × (Fin n → NodeHydraulic)) (i : Fin n) :
    (Fin n → ℚ) × (Fin n → NodeHydraulic) :=
  let vp_C0 := Function.update st.1 i (pAvg * 2 - (st.2 i).PRESSURE - 2 * mZc * (st.2 i).FLOW)
  let nodes := Function.update st.2 i
    { st.2 i with WAVEVARIABLE := mAlpha * (st.2 i).WAVEVARIABLE + (1 - mAlpha) * vp_C0 i }
  let nodes := Function.update nodes i { nodes i with CHARIMP := mZc }
  (vp_C0, nodes)

/-- One step of the volume, `HydraulicVolumeMultiPort::simulateOneTimestep`. -/
def simulateOneTimestep (s : HydraulicVolumeMultiPort) : HydraulicVolumeMultiPort :=
  let pAvg : ℚ := cTot s / (s.mNumPorts : ℚ)
  let r := (List.finRange s.mNumPorts).foldl (secondLoopBody s.mZc s.mAlpha pAvg)
    (s.vp_C0, s.nodes)
  { s with vp_C0 := r.1, nodes := r.2 }

end HydraulicVolumeMultiPort

/-! ## HydraulicCSource -/

/-- The storage the pointers of a `HydraulicCSource` refer to: the values
behind the input variables `in_c` and `in_z`, and the node of port `P1`. -/
structure HydraulicCSource where
  in_c : ℚ
  in_z : ℚ
  P1 : NodeHydraulic
deriving DecidableEq, Repr

namespace HydraulicCSource

/-- One step of the source, `HydraulicCSource::simulateOneTimestep`. -/
def simulateOneTimestep (s : HydraulicCSource) : HydraulicCSource :=
  { s with P1 := { s.P1 with WAVEVARIABLE := s.in_c, CHARIMP := s.in_z } }

end HydraulicCSource

/-! ## HMF loader -/

/-- A node of the document tree that `rapidxml` builds: its name, its
attributes in document order (name and value), and its child nodes in document
order.  Data nodes are nodes with the empty name. -/
inductive XmlNode where
  | mk (name : String) (attributes : List (String × String)) (children : List XmlNode)

namespace XmlNode

/-- The name of a node, `xml_node::name()`. -/
def name : XmlNode → String
  | mk n _ _ => n

/-- The attributes of a node. -/
def attributes : XmlNode → List (String × String)
  | mk _ a _ => a

/-- The children of a node. -/
def children : XmlNode → List XmlNode
  | mk _ _ c => c

/-- The value of the first attribute with the given name,
`first_attribute(name)->value()`; `none` is the null pointer. -/
def first_attribute (n : XmlNode) (attrName : String) : Option String :=
  (n.attributes.find? (fun a => a.1 = attrName)).map (fun a => a.2)

/-- The first child with the given name, `first_node(name)`; `none` is the
null pointer. -/
def first_node (n : XmlNode) (childName : String) : Option XmlNode :=
  n.children.find? (fun c => c.name = childName)

end XmlNode

/-- What the loader uses from outside `HmfLoader.cc`: the C library function
`atof`, and whether `HopsanEssentials::createComponent(typeName)` returns a
component (`true`) or the null pointer (`false`). -/
structure HopsanEssentials where
  atof : String → ℚ
  createComponent : String → Bool

/-- An object handed to `addComponent`: a component created from a type name,
or a component system.  `id` is the number of objects created before it. -/
inductive Object where
  | component (id : Nat) (typeName : String)
  | componentSystem (id : Nat)
deriving DecidableEq, Repr

/-- The type name of an added component, `none` for a component system. -/
def Object.typeName : Object → Option String
  | component _ t => some t
  | componentSystem _ => none

/-- The calls the loader makes on the engine.  Components and systems are
referred to by their creation number. -/
inductive Call where
  | createComponent (typeName : String) (pComp : Option Nat)
  | createComponentSystem (pSys : Nat)
  | setName (pComp : Nat) (name : String)
  | addComponent (pSystem : Nat) (pComp : Object)
  | setParameterValue (pComp : Nat) (name value : String)
  | connect (pSystem : Nat) (startcomponent startport endcomponent endport : String)
  | setSystemParameter (pSystem : Nat) (name value type : String)
  | setDesiredTimestep (pSystem : Nat) (Ts : ℚ)
deriving DecidableEq, Repr

/-- Why a load stopped before its end. -/
inductive Abort where
  | assertFailed
  | nullDereference
deriving DecidableEq, Repr

/-- What a piece of loader code does: the engine calls it makes, in order, the
number of objects created once it is through, and whether it aborted. -/
structure Trace where
  calls : List Call
  created : Nat
  aborted : Option Abort
deriving DecidableEq, Repr

/-- Sequencing: `f` runs after `t` unless `t` aborted. -/
def Trace.andThen (t : Trace) (f : Nat → Trace) : Trace :=
  match t.aborted with
  | some _ => t
  | none => ⟨t.calls ++ (f t.created).calls, (f t.created).created, (f t.created).aborted⟩

/-- Helpfunction, reads a double xml attribute. -/
def readDoubleAttribute (E : HopsanEssentials) (pNode : XmlNode) (attrName : String)
    (defaultValue : ℚ) : ℚ :=
  match pNode.first_attribute attrName with
  | some value => E.atof value
  | none => defaultValue

/-- Helpfunction, reads a string xml attribute. -/
def readStringAttribute (pNode : XmlNode) (attrName : String) (defaultValue : String) :
    String :=
  match pNode.first_attribute attrName with
  | some value => value
  | none => defaultValue

/-- The parameter loop of `loadComponent`: one `setParameterValue` for every
child named `parameter`. -/
def loadComponentParameters (pComp : Nat) : List XmlNode → List Call
  | [] => []
  | pParam :: rest =>
    (if pParam.name = "parameter" then
      [Call.setParameterValue pComp
        (readStringAttribute pParam "name" "ERROR_NO_PARAM_NAME_GIVEN")
        (readStringAttribute pParam "value" "ERROR_NO_PARAM_VALUE_GIVEN")]
    else [])
    ++ loadComponentParameters pComp rest

/-- This help function loads a component (`loadComponent`).  When
`createComponent` returns the null pointer, `pComp->setName` dereferences it. -/
def loadComponent (E : HopsanEssentials) (pComponentNode : XmlNode) (pSystem : Nat)
    (created : Nat) : Trace :=
  let typeName := readStringAttribute pComponentNode "typename" "ERROR_NO_TYPE_GIVEN"
  let displayName := readStringAttribute pComponentNode "name" typeName
  if E.createComponent typeName then
    let pComp := created
    ⟨[Call.createComponent typeName (some pComp),
      Call.setName pComp displayName,
      Call.addComponent pSystem (Object.component pComp typeName)]
      ++ (match pComponentNode.first_node "parameters" with
          | some pParams => loadComponentParameters pComp pParams.children
          | none => []),
     created + 1, none⟩
  else
    ⟨[Call.createComponent typeName none], created, some Abort.nullDereference⟩

/-- This help function loads a connection (`loadConnection`). -/
def loadConnection (pConnectNode : XmlNode) (pSystem : Nat) : Call :=
  Call.connect pSystem
    (readStringAttribute pConnectNode "startcomponent" "ERROR_NOSTARTCOMPNAME_GIVEN")
    (readStringAttribute pConnectNode "startport" "ERROR_NOSTARTPORTNAME_GIVEN")
    (readStringAttribute pConnectNode "endcomponent" "ERROR_NOENDCOMPNAME_GIVEN")
    (readStringAttribute pConnectNode "endport" "ERROR_NOENDPORTNAME_GIVEN")

/-- The connection loop of `loadSystemContents`: one `loadConnection` for every
child named `connect`. -/
def loadConnections (pSystem : Nat) : List XmlNode → List Call
  | [] => []
  | pConnection :: rest =>
    (if pConnection.name = "connect" then [loadConnection pConnection pSystem] else [])
    ++ loadConnections pSystem rest

/-- The system parameter loop of `loadSystemContents`, which walks the children
named `parameter` (`first_node("parameter")`, `next_sibling("parameter")`). -/
def loadSystemParameters (pSystem : Nat) : List XmlNode → List Call
  | [] => []
  | pParameter :: rest =>
    (if pParameter.name = "parameter" then
      [Call.setSystemParameter pSystem
        (readStringAttribute pParameter "name" "ERROR_NO_PARAM_NAME_GIVEN")
        (readStringAttribute pParameter "value" "ERROR_NO_PARAM_VALUE_GIVEN")
        (readStringAttribute pParameter "type" "ERROR_NO_PARAM_TYPE_GIVEN")]
    else [])
    ++ loadSystemParameters pSystem rest

/-- The part of `loadSystemContents` after the objects: "Load connections" and
"Load system parameters". -/
def loadConnectionsAndParameters (pSysNode : XmlNode) (pSystem : Nat) : List Call :=
  (match pSysNode.first_node "connections" with
    | some pConnections => loadConnections pSystem pConnections.children
    | none => [])
  ++ (match pSysNode.first_node "parameters" with
    | some pParameters => loadSystemParameters pSystem pParameters.children
    | none => [])

mutual

/-- This function loads a subsystem (`loadSystemContents`): the node
`pSysNode` is loaded into the system `pSystem`, `created` objects having been
created before.  The assertion `pSimtimeNode != 0` aborts the load. -/
def loadSystemContents (E : HopsanEssentials) : XmlNode → Nat → Nat → Trace
  | XmlNode.mk sysName sysAttributes sysChildren, pSystem, created =>
    match (XmlNode.mk sysName sysAttributes sysChildren).first_node "simulationtime" with
    | none => ⟨[], created, some Abort.assertFailed⟩
    | some pSimtimeNode =>
      Trace.andThen
        ⟨[Call.setDesiredTimestep pSystem
            (readDoubleAttribute E pSimtimeNode "timestep" (1 / 1000))], created, none⟩
        (fun created =>
          Trace.andThen (loadFirstObjects E sysChildren pSystem created)
            (fun created =>
              ⟨loadConnectionsAndParameters (XmlNode.mk sysName sysAttributes sysChildren)
                pSystem, created, none⟩))

/-- The section "Load contents": `pSysNode->first_node("objects")`, searched along the
children of the system node, followed by the loop over its children. -/
def loadFirstObjects (E : HopsanEssentials) : List XmlNode → Nat → Nat → Trace
  | [], _, created => ⟨[], created, none⟩
  | XmlNode.mk childName _ objects :: rest, pSystem, created =>
    if childName = "objects" then loadObjects E objects pSystem created
    else loadFirstObjects E rest pSystem created

/-- The loop `while (pObject != 0)` over the children of `objects`. -/
def loadObjects (E : HopsanEssentials) : List XmlNode → Nat → Nat → Trace
  | [], _, created => ⟨[], created, none⟩
  | pObject :: rest, pSystem, created =>
    Trace.andThen
      (if pObject.name = "component" then
        loadComponent E pObject pSystem created
      else if pObject.name = "system" then
        -- Add new system
        Trace.andThen
          ⟨[Call.createComponentSystem created,
            Call.addComponent pSystem (Object.componentSystem created)], created + 1, none⟩
          (fun next => loadSystemContents E pObject created next)
      else ⟨[], created, none⟩)
      (fun created => loadObjects E rest pSystem created)

end

/-- The `atof` of the scenarios: the decimal strings that occur in them. -/
def scenarioAtof (value : String) : ℚ :=
  if value = "0.01" then 1 / 100
  else if value = "0.002" then 1 / 500
  else if value = "2" then 2
  else 0

/-- The engine of the scenarios: every type name except `"Unknown"` is
registered. -/
def scenarioEssentials : HopsanEssentials where
  atof := scenarioAtof
  createComponent := fun typeName => decide (typeName ≠ "Unknown")

/-- Scenario "HMF round-trip": a system with two components and a nested
system (with one component and no `timestep` attribute), two connections and
one system parameter; children the loader passes over are interspersed. -/
def scenarioSystem : XmlNode :=
  .mk "system" [("name", "main")] [
    .mk "simulationtime" [("start", "0"), ("stop", "2"), ("timestep", "0.01")] [],
    .mk "parameters" [] [
      .mk "parameter" [("name", "k"), ("value", "2"), ("type", "double")] []],
    .mk "objects" [] [
      .mk "component" [("typename", "HydraulicVolume"), ("name", "V1")] [
        .mk "parameters" [] [
          .mk "parameter" [("name", "V"), ("value", "0.002")] []]],
      .mk "textboxwidget" [] [],
      .mk "system" [] [
        .mk "simulationtime" [("start", "0")] [],
        .mk "objects" [] [
          .mk "component" [("typename", "SignalSquareWave")] []],
        .mk "connections" [] [
          .mk "connect" [("startcomponent", "SquareWave"), ("startport", "out")] []]],
      .mk "component" [("typename", "HydraulicLaminarOrifice"), ("name", "O1")] []],
    .mk "connections" [] [
      .mk "connect" [("startcomponent", "V1"), ("startport", "P1"),
        ("endcomponent", "O1"), ("endport", "P1")] [],
      .mk "" [] [],
      .mk "connect" [("startcomponent", "O1"), ("startport", "P2"),
        ("endcomponent", "V1"), ("endport", "P2")] []]]

/-! ## What a trace does to one system -/

/-- The desired timesteps set on system `pSystem`, in call order. -/
def timestepsOf (pSystem : Nat) (calls : List Call) : List ℚ :=
  calls.filterMap (fun c => match c with
    | Call.setDesiredTimestep p Ts => if p = pSystem then some Ts else none
    | _ => none)

/-- The objects added to system `pSystem`, in call order. -/
def addedTo (pSystem : Nat) (calls : List Call) : List Object :=
  calls.filterMap (fun c => match c with
    | Call.addComponent p obj => if p = pSystem then some obj else none
    | _ => none)

/-- The arguments of the `connect` calls made on system `pSystem`, in call
order. -/
def connectsOf (pSystem : Nat) (calls : List Call) :
    List (String × String × String × String) :=
  calls.filterMap (fun c => match c with
    | Call.connect p sc sp ec ep => if p = pSystem then some (sc, sp, ec, ep) else none
    | _ => none)

/-- What the children of an `objects` element declare, in document order: a
component with its type name (`some typeName`) for every child named
`component`, a subsystem (`none`) for every child named `system`; children with
any other name are ignored. -/
def declaredObjectList (objects : List XmlNode) : List (Option String) :=
  objects.filterMap (fun pObject =>
    if pObject.name = "component" then
      some (some (readStringAttribute pObject "typename" "ERROR_NO_TYPE_GIVEN"))
    else if pObject.name = "system" then some none
    else none)

/-- The objects a system element declares: those of its `objects` child. -/
def declaredObjects (pSysNode : XmlNode) : List (Option String) :=
  match pSysNode.first_node "objects" with
  | some pObjects => declaredObjectList pObjects.children
  | none => []

/-- The connections a system element declares: the four attribute values of
every child of its `connections` child that is named `connect`, in document
order (a missing attribute reads as its `ERROR_NO..._GIVEN` default). -/
def declaredConnections (pSysNode : XmlNode) : List (String × String × String × String) :=
  match pSysNode.first_node "connections" with
  | some pConnections =>
    (pConnections.children.filter (fun c => c.name = "connect")).map (fun c =>
      (readStringAttribute c "startcomponent" "ERROR_NOSTARTCOMPNAME_GIVEN",
       readStringAttribute c "startport" "ERROR_NOSTARTPORTNAME_GIVEN",
       readStringAttribute c "endcomponent" "ERROR_NOENDCOMPNAME_GIVEN",
       readStringAttribute c "endport" "ERROR_NOENDPORTNAME_GIVEN"))
  | none => []

mutual

/-- A system element can be loaded to the end: it has a `simulationtime`
child (the assertion holds), every component of its `objects` child has a type
name for which `createComponent` returns a component, and every subsystem of
its `objects` child can be loaded to the end. -/
def loadable (E : HopsanEssentials) : XmlNode → Bool
  | XmlNode.mk sysName sysAttributes sysChildren =>
    ((XmlNode.mk sysName sysAttributes sysChildren).first_node "simulationtime").isSome
      && firstObjectsLoadable E sysChildren

/-- The children of the first child named `objects` can all be loaded. -/
def firstObjectsLoadable (E : HopsanEssentials) : List XmlNode → Bool
  | [] => true
  | XmlNode.mk childName _ objects :: rest =>
    if childName = "objects" then objectsLoadable E objects
    else firstObjectsLoadable E rest

/-- Every component in the list has a registered type name and every system
in the list can be loaded. -/
def objectsLoadable (E : HopsanEssentials) : List XmlNode → Bool
  | [] => true
  | pObject :: rest =>
    (if pObject.name = "component" then
      E.createComponent (readStringAttribute pObject "typename" "ERROR_NO_TYPE_GIVEN")
    else if pObject.name = "system" then loadable E pObject
    else true)
    && objectsLoadable E rest

end

/-- The facts about the trace `R` of a piece of the objects loop that runs on
system `pSystem` with `created` objects created before it, every handle below
`bound` being older than the loop: it creates objects only, it sets no
timestep and makes no connection on an older system, it adds to no older
system but `pSystem`, and when `ok` it runs to its end and adds to `pSystem`
objects of the kinds `expected`. -/
def ObjectsTrace (pSystem bound created : Nat) (R : Trace) (ok : Bool)
    (expected : List (Option String)) : Prop :=
  created ≤ R.created
  ∧ (∀ q, q < bound → timestepsOf q R.calls = [] ∧ connectsOf q R.calls = []
      ∧ (q ≠ pSystem → addedTo q R.calls = []))
  ∧ (ok = true → R.aborted = none
      ∧ (pSystem < bound → (addedTo pSystem R.calls).map Object.typeName = expected))

/-- The facts about the trace of `loadSystemContents` on one system element. -/
def SystemTrace (E : HopsanEssentials) (pSysNode : XmlNode) : Prop :=
  ∀ pSystem created : Nat,
    created ≤ (loadSystemContents E pSysNode pSystem created).created
    ∧ (∀ q, q < created →
        timestepsOf q (loadSystemContents E pSysNode pSystem created).calls
          = (if q = pSystem then
              (match pSysNode.first_node "simulationtime" with
                | some pSimtimeNode =>
                  [readDoubleAttribute E pSimtimeNode "timestep" (1 / 1000)]
                | none => [])
            else []))
    ∧ (∀ q, q < created → q ≠ pSystem →
        connectsOf q (loadSystemContents E pSysNode pSystem created).calls = []
        ∧ addedTo q (loadSystemContents E pSysNode pSystem created).calls = [])
    ∧ (loadable E pSysNode = true →
        (loadSystemContents E pSysNode pSystem created).aborted = none
        ∧ (pSystem < created →
            (addedTo pSystem (loadSystemContents E pSysNode pSystem created).calls).map
                Object.typeName = declaredObjects pSysNode
            ∧ connectsOf pSystem (loadSystemContents E pSysNode pSystem created).calls
                = declaredConnections pSysNode))

/-! ## Loader stages -/

/-- The stage of `loadSystemContents` on system `pSystem` that a call belongs
to: 2 for a system parameter registered on `pSystem`, 1 for a `connect` call on
`pSystem`, and 0 for every other call (the timestep, everything the objects
loop does, and every call on another system). -/
def Call.stage (pSystem : Nat) : Call → Nat
  | Call.connect p _ _ _ _ => if p = pSystem then 1 else 0
  | Call.setSystemParameter p _ _ _ => if p = pSystem then 2 else 0
  | _ => 0

/-- A subsystem element with one component of its own. -/
def scenarioSubsystemChild : XmlNode :=
  .mk "system" [] [
    .mk "simulationtime" [] [],
    .mk "objects" [] [
      .mk "component" [("typename", "SignalSquareWave")] []]]

/-- A component element with one parameter. -/
def scenarioComponentChild : XmlNode :=
  .mk "component" [("typename", "HydraulicVolume"), ("name", "V1")] [
    .mk "parameters" [] [
      .mk "parameter" [("name", "V"), ("value", "0.002")] []]]

/-- A system whose `objects` element lists a subsystem before a component. -/
def scenarioSubsystemFirst : XmlNode :=
  .mk "system" [] [
    .mk "simulationtime" [] [],
    .mk "objects" [] [scenarioSubsystemChild, scenarioComponentChild]]

/-! ## Sentinels for missing attributes -/

/-- A string is a sentinel for a missing attribute: it begins with `ERROR_NO`. -/
def isSentinel (s : String) : Bool :=
  decide (s.toList.take 8 = "ERROR_NO".toList)

/-- A component element with a type name and no `name` attribute. -/
def scenarioUnnamedComponent : XmlNode :=
  .mk "component" [("typename", "HydraulicVolume")] []

/-! ## loadHMFModel -/

/-- What a call of `loadHMFModel` leaves behind: the engine calls it made, the
number of objects created, whether it aborted, the values of the reference
parameters `rStartTime` and `rStopTime`, and the returned root system (`none`
when nothing is returned). -/
structure HmfModel where
  calls : List Call
  created : Nat
  aborted : Option Abort
  rStartTime : ℚ
  rStopTime : ℚ
  pRootSystem : Option Nat

/-- This function is used to load a HMF file (`loadHMFModel`).  `doc` is the
document node that `rapidxml` has parsed from the file, `rStartTime` and
`rStopTime` are the values the caller passes in, `created` objects exist
already.  Calling `name()` on a missing root node, `first_node` on a missing
`system` node and `first_attribute` on a missing `simulationtime` node
dereference the null pointer; `assert(false)` aborts. -/
def loadHMFModel (E : HopsanEssentials) (doc : XmlNode) (rStartTime rStopTime : ℚ)
    (created : Nat) : HmfModel :=
  match doc.children.head? with
  | none => ⟨[], created, some Abort.nullDereference, rStartTime, rStopTime, none⟩
  | some pRootNode =>
    -- Check for correct root node name
    if pRootNode.name = "hopsanmodelfile" then
      match pRootNode.first_node "system" with
      | none => ⟨[], created, some Abort.nullDereference, rStartTime, rStopTime, none⟩
      | some pSysNode =>
        -- We only want to read toplevel simulation time settings here
        match pSysNode.first_node "simulationtime" with
        | none => ⟨[], created, some Abort.nullDereference, rStartTime, rStopTime, none⟩
        | some pSimtimeNode =>
          ⟨Call.createComponentSystem created
              :: (loadSystemContents E pSysNode created (created + 1)).calls,
            (loadSystemContents E pSysNode created (created + 1)).created,
            (loadSystemContents E pSysNode created (created + 1)).aborted,
            readDoubleAttribute E pSimtimeNode "start" 0,
            readDoubleAttribute E pSimtimeNode "stop" 2,
            if (loadSystemContents E pSysNode created (created + 1)).aborted = none
              then some created else none⟩
    else ⟨[], created, some Abort.assertFailed, rStartTime, rStopTime, none⟩

/-- The round-trip scenario as a document: a `hopsanmodelfile` root around the
scenario system, whose top-level `simulationtime` gives start 0 and stop 2 and
whose nested system gives start 0 only. -/
def scenarioDocument : XmlNode :=
  .mk "" [] [.mk "hopsanmodelfile" [] [scenarioSystem]]

/-- A system with a component of the unregistered type `Unknown`, followed by
a component of a registered type and a connection. -/
def scenarioUnknownType : XmlNode :=
  .mk "system" [] [
    .mk "simulationtime" [] [],
    .mk "objects" [] [
      .mk "component" [("typename", "Unknown"), ("name", "U1")] [
        .mk "parameters" [] [
          .mk "parameter" [("name", "k"), ("value", "2")] []]],
      .mk "component" [("typename", "HydraulicVolume"), ("name", "V1")] []],
    .mk "connections" [] [
      .mk "connect" [("startcomponent", "U1"), ("startport", "P1"),
        ("endcomponent", "V1"), ("endport", "P1")] []]]

/-! ## HopsanCLI -/

/-- What `main` of HopsanCLI uses from outside `main.cpp`: the command line
parser (`cmd.parse` and `hmfPathOption.getValue()`; `none` when a
`TCLAP::ArgException` is thrown), the path `DEFAULTCOMPONENTLIB`, the method
`HopsanEssentials::loadHMFModel` (given the path and the values of `startTime`
and `stopTime` passed in), and what `ComponentSystem::initialize` of the root
system returns. -/
structure CliEnvironment where
  parse : List String → Option String
  defaultComponentLib : String
  loadHMFModel : String → ℚ → ℚ → HmfModel
  initializeReturns : Nat → ℚ → ℚ → Bool

/-- The calls `main` makes on the engine (printing is left out). -/
inductive CliCall where
  | loadExternalComponentLib (path : String)
  | loadHMFModel (hmfFilePath : String)
  | initializeSystem (pRootSystem : Nat) (startTime stopTime : ℚ)
  | simulate (pRootSystem : Nat) (startTime stopTime : ℚ)
deriving DecidableEq, Repr

/-- A run of `main`: the engine calls, and the value `main` returns (`none`
when the process is aborted inside the load, so that `main` never returns). -/
structure CliRun where
  calls : List CliCall
  exitCode : Option Int
deriving DecidableEq, Repr

/-- The function `main` of HopsanCLI.  It has no `return` statement: when
control reaches its end, after the `try` block or after the `catch` block, it
returns 0. -/
def main (env : CliEnvironment) (argv : List String) : CliRun :=
  match env.parse argv with
  | none => ⟨[], some 0⟩
  | some hmfFilePath =>
    let startTime : ℚ := 0
    let stopTime : ℚ := 2
    let model := env.loadHMFModel hmfFilePath startTime stopTime
    match model.aborted with
    | some _ =>
      ⟨[CliCall.loadExternalComponentLib env.defaultComponentLib,
        CliCall.loadHMFModel hmfFilePath], none⟩
    | none =>
      match model.pRootSystem with
      | some pRootSystem =>
        let initSuccess := env.initializeReturns pRootSystem model.rStartTime model.rStopTime
        if initSuccess then
          ⟨[CliCall.loadExternalComponentLib env.defaultComponentLib,
            CliCall.loadHMFModel hmfFilePath,
            CliCall.initializeSystem pRootSystem model.rStartTime model.rStopTime,
            CliCall.simulate pRootSystem model.rStartTime model.rStopTime], some 0⟩
        else
          ⟨[CliCall.loadExternalComponentLib env.defaultComponentLib,
            CliCall.loadHMFModel hmfFilePath,
            CliCall.initializeSystem pRootSystem model.rStartTime model.rStopTime], some 0⟩
      | none =>
        ⟨[CliCall.loadExternalComponentLib env.defaultComponentLib,
          CliCall.loadHMFModel hmfFilePath], some 0⟩

/-- The command line runner of the scenarios: the model file of every path is
the round-trip scenario document, and `initialize` returns `initSuccess`. -/
def scenarioCli (initSuccess : Bool) : CliEnvironment where
  parse := fun argv => argv.head?
  defaultComponentLib := "../componentLibraries/defaultLibrary/components/libdefaultComponentLibrary.so"
  loadHMFModel := fun _ startTime stopTime =>
    loadHMFModel scenarioEssentials scenarioDocument startTime stopTime 0
  initializeReturns := fun _ _ _ => initSuccess

/-! ## SymHop: lists of expressions and of indices

The class `Expression` is declared outside `SymHop.cc`; the functions embedded
here use it only through `operator==` (and, in `sortEquationSystem`, through
`Expression(0.0)` and `toString`).  The embedding takes the type and these
operations as parameters, without assuming anything about them. -/

namespace SymHop

/-- The test `list.contains(value)` of `QList`: some element `t` of the list
satisfies `t == value`, where `eq t value` is the outcome of `t == value`. -/
def contains {Expression : Type} (eq : Expression → Expression → Bool)
    (list : List Expression) (value : Expression) : Bool :=
  list.any (fun t => eq t value)

/-- Removes all duplicates in a list of expressions (`removeDuplicates`): the
loop over `rSet` that fills `tempSet`, whose final content replaces `rSet`. -/
def removeDuplicates {Expression : Type} (eq : Expression → Expression → Bool)
    (rSet : List Expression) : List Expression :=
  rSet.foldl
    (fun tempSet item => if !(contains eq tempSet item) then tempSet ++ [item] else tempSet)
    []

/-- The loop of `findPath` over the entries `dependencies.at(level).at(i)` that
are still to be tried, `next` being the recursive call for `level+1`.  The
result is the returned value and the content of `order` at the return. -/
def findPathLoop {α : Type} [DecidableEq α] (next : List α → Bool × List α) :
    List α → List α → Bool × List α
  | [], order => (false, order)
  | x :: rest, order =>
    if x ∈ order then findPathLoop next rest order
    else
      -- order.append(x)
      if (next (order ++ [x])).1 then (true, (next (order ++ [x])).2)
      -- order.removeLast()
      else findPathLoop next rest (next (order ++ [x])).2.dropLast

/-- The function `findPath` on the levels that are still to be filled, that
is on `dependencies.at(level)`, `dependencies.at(level+1)`, ...: with no level
left (`level > dependencies.size()-1`) it returns true. -/
def findPathLevels {α : Type} [DecidableEq α] : List (List α) → List α → Bool × List α
  | [], order => (true, order)
  | candidates :: levels, order => findPathLoop (findPathLevels levels) candidates order

/-- Finds the first path through a matrix of dependencies (`findPath`).  The
entries of the lists are `int` in the source; they are only compared, appended
and removed, so the entry type is a parameter. -/
def findPath {α : Type} [DecidableEq α] (order : List α) (dependencies : List (List α))
    (level : Nat) : Bool × List α :=
  findPathLevels (dependencies.drop level) order

/-- A path through the dependencies: one entry from each list, in the order of
the lists, the entries pairwise distinct. -/
def IsPath {α : Type} (dependencies : List (List α)) (path : List α) : Prop :=
  List.Forall₂ (fun x candidates => x ∈ candidates) path dependencies ∧ path.Nodup

/-- Path `p` comes before path `q` in list order: at the first level where they
differ, the entry of `p` occurs in the list of that level before the first
occurrence of the entry of `q`. -/
def LexBefore {α : Type} [DecidableEq α] : List (List α) → List α → List α → Prop
  | candidates :: levels, x :: p, y :: q =>
    candidates.indexOf x < candidates.indexOf y ∨ (x = y ∧ LexBefore levels p q)
  | _, _, _ => False

end SymHop

/-! ## SymHop: sortEquationSystem -/

namespace SymHop

/-- What `sortEquationSystem` uses of the class `Expression`: the outcome
`eq a b` of `a == b`, the expression `zero` that `Expression(0.0)` constructs,
and whether `toString()` returns for an expression. -/
structure ExpressionOps (Expression : Type) where
  eq : Expression → Expression → Bool
  zero : Expression
  toStringReturns : Expression → Bool

/-- The reference parameters of `sortEquationSystem`. -/
structure EquationSystem (Expression : Type) where
  equations : List Expression
  jacobian : List (List Expression)
  limitedVariableEquations : List Int
  limitedDerivativeEquations : List Int

/-- The element `jacobian[e][v]`; `none` when an index is out of range. -/
def jacobianAt {Expression : Type} (jacobian : List (List Expression)) (e v : Nat) :
    Option Expression :=
  match jacobian[e]? with
  | some row => row[v]?
  | none => none

/-- The debug loop at the head of `sortEquationSystem` returns: every
`jacobian[i][j]` with `i, j < jacobian.size()` exists and its `toString()`
returns. -/
def printJacobianReturns {Expression : Type} (ops : ExpressionOps Expression)
    (jacobian : List (List Expression)) : Bool :=
  (List.range jacobian.length).all (fun i =>
    (List.range jacobian.length).all (fun j =>
      match jacobianAt jacobian i j with
      | some x => ops.toStringReturns x
      | none => false))

/-- The inner loop of "Generate a dependency tree": the equations `e` among
those still to be visited with `!(jacobian[e][v] == zero)`; `none` when an index
is out of range. -/
def dependencyColumn {Expression : Type} (ops : ExpressionOps Expression)
    (jacobian : List (List Expression)) (v : Nat) : List Nat → Option (List Nat)
  | [] => some []
  | e :: es =>
    match jacobianAt jacobian e v with
    | none => none
    | some x =>
      match dependencyColumn ops jacobian v es with
      | none => none
      | some dependencies => some (if !(ops.eq x ops.zero) then e :: dependencies
                                   else dependencies)

/-- The outer loop of "Generate a dependency tree" over the variables `v` still
to be visited, for `n = stateVars.size()` equations. -/
def dependencyTree {Expression : Type} (ops : ExpressionOps Expression)
    (jacobian : List (List Expression)) (n : Nat) : List Nat → Option (List (List Nat))
  | [] => some []
  | v :: vs =>
    match dependencyColumn ops jacobian v (List.range n) with
    | none => none
    | some column =>
      match dependencyTree ops jacobian n vs with
      | none => none
      | some dependencies => some (column :: dependencies)

/-- The list of the elements `list.at(order[i])`, in the order of `order`;
`none` when an index is out of range. -/
def sortedBy {β : Type} (list : List β) : List Nat → Option (List β)
  | [] => some []
  | k :: ks =>
    match list[k]? with
    | none => none
    | some x =>
      match sortedBy list ks with
      | none => none
      | some sorted => some (x :: sorted)

/-- The loops "Sort limited variable equation numbers" for the positions `i`,
`i+1`, ... of `order`: every entry equal to the position becomes the entry of
`order` at that position, one position after the other. -/
def sortLimited : List Nat → Nat → List Int → List Int
  | [], _, limited => limited
  | k :: ks, i, limited =>
    sortLimited ks (i + 1) (limited.map (fun x => if x = (i : Int) then (k : Int) else x))

/-- Sorts an equation system so that all diagonal elements in the jacobian
matrix are non-zero (`sortEquationSystem`).  The result is the returned value
and the content of the reference parameters at the return; `none` when the call
does not return (an index is out of range, or a `toString()` of the debug loop
does not return). -/
def sortEquationSystem {Expression : Type} (ops : ExpressionOps Expression)
    (s : EquationSystem Expression) (stateVars : List Expression) :
    Option (Bool × EquationSystem Expression) :=
  if printJacobianReturns ops s.jacobian then
    -- Generate a dependency tree between equations and variables
    match dependencyTree ops s.jacobian stateVars.length (List.range stateVars.length) with
    | none => none
    | some dependencies =>
      -- Recurse dependency tree to find a good sorting order
      if (findPath [] dependencies 0).1 then
        -- Sort equations to new order
        match sortedBy s.equations (findPath [] dependencies 0).2,
            sortedBy s.jacobian (findPath [] dependencies 0).2 with
        | some sortedEquations, some sortedJacobian =>
          some (true,
            ⟨sortedEquations, sortedJacobian,
              sortLimited (findPath [] dependencies 0).2 0 s.limitedVariableEquations,
              sortLimited (findPath [] dependencies 0).2 0 s.limitedDerivativeEquations⟩)
        | _, _ => none
      else some (false, s)
  else none

/-- Expressions of the scenarios: integers, with equality as `==`, 0 as the
zero expression, and a `toString()` that returns. -/
def scenarioOps : ExpressionOps Int where
  eq := fun a b => decide (a = b)
  zero := 0
  toStringReturns := fun _ => true

/-- A system of three equations whose Jacobian has zeros on the diagonal. -/
def scenarioEquations : EquationSystem Int where
  equations := [10, 20, 30]
  jacobian := [[0, 5, 0], [3, 0, 7], [0, 0, 9]]
  limitedVariableEquations := [1]
  limitedDerivativeEquations := []

end SymHop

/-! ## SymHop: splitWithRespectToParentheses -/

namespace SymHop

end SymHop

namespace SymHop

/-- The system of `scenarioEquations` with limitation entries: equation 0
limits a variable, and equations 0 and 1 limit derivatives. -/
def scenarioLimitedEquations : EquationSystem Int where
  equations := [10, 20, 30]
  jacobian := [[0, 5, 0], [3, 0, 7], [0, 0, 9]]
  limitedVariableEquations := [0]
  limitedDerivativeEquations := [0, 1]

/-- The equation an entry of a limitation list designates in a list of
equations; `none` when the entry is not an index of the list. -/
def designatedEquation {Expression : Type} (equations : List Expression) (entry : Int) :
    Option Expression :=
  if entry < 0 then none else equations[entry.toNat]?

end SymHop

/-! ## SymHop: isEquation -/

namespace SymHop

/-- Tells whether or not this is an equation (`Expression::isEquation`).  Its
body is `return (this->isEquation());`: it reads no member of the expression
and calls itself.  `depth` is the number of nested calls that are followed;
`none` means that the call has not returned within that depth. -/
def isEquation {Expression : Type} : Nat → Expression → Option Bool
  | 0, _ => none
  | depth + 1, this => isEquation depth this

/-- Tells whether or not this is an assignment (`Expression::isAssignment`):
`this->isEquation() && (mpLeft->isVariable() || mpLeft->isNumericalSymbol())`.
The right operand of `&&`, evaluated only after `isEquation()` has returned
true, is the parameter `leftIsSymbol`. -/
def isAssignment {Expression : Type} (leftIsSymbol : Expression → Option Bool)
    (depth : Nat) (this : Expression) : Option Bool :=
  match isEquation depth this with
  | none => none
  | some false => some false
  | some true => leftIsSymbol this

end SymHop

/-! ## OptimizationWorkerComplexRFM -/

/-- The members of `OptimizationWorkerComplexRFM` that `init` and
`storeValuesForMetaModel` use for the storage of the meta model: the points and
their objective values, and the stored samples. -/
structure OptimizationWorkerComplexRFM where
  mNumParameters : Nat
  mParameters : List (List ℚ)
  mObjectives : List ℚ
  mStorageSize : Int
  mMetaModelCoefficients : List ℚ
  mStoredObjectives : List ℚ
  mStoredParameters : List (List ℚ)

namespace OptimizationWorkerComplexRFM

/-- The conversion of a double to `int`, which truncates toward zero. -/
def toInt (x : ℚ) : Int := if 0 ≤ x then Int.floor x else Int.ceil x

/-- The end of `init`, "Calculate how many iterations to store for meta
model".  The class `hopsan::Vec` is not among the sources at hand: `create n` is
the vector of length `n` that `Vec::create(n)` leaves, with the content
`content`. -/
def init (content : Nat → ℚ) (this : OptimizationWorkerComplexRFM) :
    OptimizationWorkerComplexRFM :=
  let create : Int → List ℚ := fun n => (List.range n.toNat).map content
  let mStorageSize : Int :=
    toInt ((this.mNumParameters : ℚ) * (this.mNumParameters : ℚ) / 2
      + (3 / 2) * (this.mNumParameters : ℚ) + 1)
  let mMetaModelCoefficients := create mStorageSize
  let mStorageSize : Int := toInt ((mStorageSize : ℚ) * (3 / 2))
  { this with
    mStorageSize := mStorageSize
    mMetaModelCoefficients := mMetaModelCoefficients
    mStoredObjectives := create mStorageSize
    mStoredParameters := [] }

/-- The loop "Shift vector to the left" of `storeValuesForMetaModel`:
`v[i] = v[i+1]` for `i = 0, ..., length-2`, one after the other. -/
def shiftLeft (v : List ℚ) : List ℚ :=
  (List.range (v.length - 1)).foldl
    (fun v i =>
      match v[i + 1]? with
      | some x => v.set i x
      | none => v)
    v

/-- Stores the point `idx` and its objective value for the meta model
(`storeValuesForMetaModel`); `none` when an index is out of range. -/
def storeValuesForMetaModel (idx : Nat) (this : OptimizationWorkerComplexRFM) :
    Option OptimizationWorkerComplexRFM :=
  match this.mParameters[idx]?, this.mObjectives[idx]? with
  | some point, some objective =>
    let mStoredParameters :=
      this.mStoredParameters ++ [point.foldl (fun last x => last ++ [x]) []]
    if this.mStoredObjectives.length = 0 then none
    else
      -- Shift vector to the left
      let mStoredObjectives :=
        (shiftLeft this.mStoredObjectives).set (this.mStoredObjectives.length - 1) objective
      -- Remove first element if stored vectors are too long
      some { this with
        mStoredObjectives := mStoredObjectives
        mStoredParameters :=
          if (mStoredParameters.length : Int) > this.mStorageSize then mStoredParameters.tail
          else mStoredParameters }
  | _, _ => none

/-- A worker with one parameter and three points, with their objective
values, as `init` and the first evaluations leave them. -/
def scenarioWorker : OptimizationWorkerComplexRFM where
  mNumParameters := 1
  mParameters := [[1], [2], [3]]
  mObjectives := [10, 20, 30]
  mStorageSize := 0
  mMetaModelCoefficients := []
  mStoredObjectives := []
  mStoredParameters := []

/-- The scenario worker after `init` and three calls of
`storeValuesForMetaModel`, for the points 0, 1 and 2. -/
def scenarioStored (content : Nat → ℚ) : Option OptimizationWorkerComplexRFM :=
  ((storeValuesForMetaModel 0 (init content scenarioWorker)).bind
    (storeValuesForMetaModel 1)).bind (storeValuesForMetaModel 2)

end OptimizationWorkerComplexRFM

/-! # Theorems -/

/-! ## Shuttle valve -/

/-- C1: with P3 connected, the shuttle valve connects port 3 to the inlet with
the higher stored node pressure: if `p1 > p2` (and `Zc1 + Zc3 ≠ 0`) the step
writes `q3 = (c1 - c3)/(Zc1 + Zc3)`, `q1 = -q3`, `q2 = 0`; otherwise
(`p1 ≤ p2`, `Zc2 + Zc3 ≠ 0`) it writes `q3 = (c2 - c3)/(Zc2 + Zc3)`,
`q2 = -q3`, `q1 = 0`. -/
theorem shuttleValve_selects_higher_pressure (s : HydraulicShuttleValve)
    (h3 : s.p3Connected = true) :
    (s.n1.PRESSURE > s.n2.PRESSURE → s.n1.CHARIMP + s.n3.CHARIMP ≠ 0 →
      (HydraulicShuttleValve.simulateOneTimestep s).n3.FLOW
          = (s.n1.WAVEVARIABLE - s.n3.WAVEVARIABLE) / (s.n1.CHARIMP + s.n3.CHARIMP)
        ∧ (HydraulicShuttleValve.simulateOneTimestep s).n1.FLOW
          = -(HydraulicShuttleValve.simulateOneTimestep s).n3.FLOW
        ∧ (HydraulicShuttleValve.simulateOneTimestep s).n2.FLOW = 0)
    ∧ (s.n1.PRESSURE ≤ s.n2.PRESSURE → s.n2.CHARIMP + s.n3.CHARIMP ≠ 0 →
      (HydraulicShuttleValve.simulateOneTimestep s).n3.FLOW
          = (s.n2.WAVEVARIABLE - s.n3.WAVEVARIABLE) / (s.n2.CHARIMP + s.n3.CHARIMP)
        ∧ (HydraulicShuttleValve.simulateOneTimestep s).n2.FLOW
          = -(HydraulicShuttleValve.simulateOneTimestep s).n3.FLOW
        ∧ (HydraulicShuttleValve.simulateOneTimestep s).n1.FLOW = 0) := by
  constructor
  · intro hp _
    simp [HydraulicShuttleValve.simulateOneTimestep, h3, hp]
  · intro hp _
    have hn : ¬ s.n2.PRESSURE < s.n1.PRESSURE := not_lt.mpr hp
    simp [HydraulicShuttleValve.simulateOneTimestep, h3, hn]

/-- C1 at the scenario state (P1 = 5 MPa above P2 = 3 MPa): the valve draws
`q3 = 4.9` from port 1. -/
theorem shuttleValve_selects_higher_pressure_witness :
    (HydraulicShuttleValve.simulateOneTimestep HydraulicShuttleValve.scenarioP1High).n3.FLOW
        = (HydraulicShuttleValve.scenarioP1High.n1.WAVEVARIABLE
            - HydraulicShuttleValve.scenarioP1High.n3.WAVEVARIABLE)
          / (HydraulicShuttleValve.scenarioP1High.n1.CHARIMP
              + HydraulicShuttleValve.scenarioP1High.n3.CHARIMP)
      ∧ (HydraulicShuttleValve.simulateOneTimestep HydraulicShuttleValve.scenarioP1High).n1.FLOW
        = -(HydraulicShuttleValve.simulateOneTimestep HydraulicShuttleValve.scenarioP1High).n3.FLOW
      ∧ (HydraulicShuttleValve.simulateOneTimestep HydraulicShuttleValve.scenarioP1High).n2.FLOW
        = 0 :=
  (shuttleValve_selects_higher_pressure HydraulicShuttleValve.scenarioP1High rfl).1
    (by norm_num [HydraulicShuttleValve.scenarioP1High])
    (by norm_num [HydraulicShuttleValve.scenarioP1High])

/-- The step leaves wave variable, impedance and connection flag alone and
stores the cavitation-checked `c + q * Zc` as the new pressures. -/
theorem HydraulicShuttleValve.step_frame (s : HydraulicShuttleValve) :
    (simulateOneTimestep s).n1.WAVEVARIABLE = s.n1.WAVEVARIABLE
    ∧ (simulateOneTimestep s).n2.WAVEVARIABLE = s.n2.WAVEVARIABLE
    ∧ (simulateOneTimestep s).n3.WAVEVARIABLE = s.n3.WAVEVARIABLE
    ∧ (simulateOneTimestep s).n1.CHARIMP = s.n1.CHARIMP
    ∧ (simulateOneTimestep s).n2.CHARIMP = s.n2.CHARIMP
    ∧ (simulateOneTimestep s).n3.CHARIMP = s.n3.CHARIMP
    ∧ (simulateOneTimestep s).p3Connected = s.p3Connected := by
  simp [simulateOneTimestep]

/-- The cavitation check is monotone. -/
theorem HydraulicShuttleValve.cavitationCheck_mono {a b : ℚ} (h : a ≤ b) :
    cavitationCheck a ≤ cavitationCheck b := by
  unfold cavitationCheck
  split_ifs <;> linarith

/-- With zero impedance at ports 1 and 2 the stored pressures after a step are
the cavitation-checked wave variables. -/
theorem HydraulicShuttleValve.step_pressure_of_source (s : HydraulicShuttleValve)
    (hZ1 : s.n1.CHARIMP = 0) (hZ2 : s.n2.CHARIMP = 0) :
    (simulateOneTimestep s).n1.PRESSURE = cavitationCheck s.n1.WAVEVARIABLE
    ∧ (simulateOneTimestep s).n2.PRESSURE = cavitationCheck s.n2.WAVEVARIABLE := by
  simp [simulateOneTimestep, hZ1, hZ2]

/-- When the stored `p1` does not exceed the stored `p2`, a connected valve
takes the flow from port 2. -/
theorem HydraulicShuttleValve.step_of_not_gt (s : HydraulicShuttleValve)
    (h3 : s.p3Connected = true) (hp : s.n1.PRESSURE ≤ s.n2.PRESSURE) :
    (simulateOneTimestep s).n3.FLOW
        = (s.n2.WAVEVARIABLE - s.n3.WAVEVARIABLE) / (s.n2.CHARIMP + s.n3.CHARIMP)
      ∧ (simulateOneTimestep s).n2.FLOW = -(simulateOneTimestep s).n3.FLOW
      ∧ (simulateOneTimestep s).n1.FLOW = 0 := by
  have hn : ¬ s.n2.PRESSURE < s.n1.PRESSURE := not_lt.mpr hp
  simp [simulateOneTimestep, h3, hn]

/-- C2: polarity flips by the next step.  If ports 1 and 2 are held by pressure
sources (`Zc1 = Zc2 = 0`) with `c1 < c2`, P3 is connected and `Zc3 ≠ 0`, then
after two consecutive steps `q1 = 0`, `q2 = -q3` and `q3 = (c2 - c3)/(Zc2 + Zc3)`:
the valve draws from port 2, whatever pressures and flows were stored before. -/
theorem shuttleValve_polarity_flips_by_next_step (s : HydraulicShuttleValve)
    (h3 : s.p3Connected = true)
    (hZ1 : s.n1.CHARIMP = 0) (hZ2 : s.n2.CHARIMP = 0)
    (hc : s.n1.WAVEVARIABLE < s.n2.WAVEVARIABLE) (hZ3 : s.n3.CHARIMP ≠ 0) :
    (HydraulicShuttleValve.simulateOneTimestep
        (HydraulicShuttleValve.simulateOneTimestep s)).n1.FLOW = 0
    ∧ (HydraulicShuttleValve.simulateOneTimestep
        (HydraulicShuttleValve.simulateOneTimestep s)).n2.FLOW
      = -(HydraulicShuttleValve.simulateOneTimestep
          (HydraulicShuttleValve.simulateOneTimestep s)).n3.FLOW
    ∧ (HydraulicShuttleValve.simulateOneTimestep
        (HydraulicShuttleValve.simulateOneTimestep s)).n3.FLOW
      = (s.n2.WAVEVARIABLE - s.n3.WAVEVARIABLE) / (s.n2.CHARIMP + s.n3.CHARIMP) := by
  obtain ⟨f1, f2, f3, g1, g2, g3, fc⟩ := HydraulicShuttleValve.step_frame s
  obtain ⟨hp1, hp2⟩ := HydraulicShuttleValve.step_pressure_of_source s hZ1 hZ2
  have hle : (HydraulicShuttleValve.simulateOneTimestep s).n1.PRESSURE
      ≤ (HydraulicShuttleValve.simulateOneTimestep s).n2.PRESSURE := by
    rw [hp1, hp2]
    exact HydraulicShuttleValve.cavitationCheck_mono (le_of_lt hc)
  have hZ : (HydraulicShuttleValve.simulateOneTimestep s).n2.CHARIMP
      + (HydraulicShuttleValve.simulateOneTimestep s).n3.CHARIMP ≠ 0 := by
    rw [g2, g3, hZ2, zero_add]
    exact hZ3
  obtain ⟨k3, k2, k1⟩ :=
    HydraulicShuttleValve.step_of_not_gt (HydraulicShuttleValve.simulateOneTimestep s)
      (by rw [fc]; exact h3) hle
  refine ⟨k1, k2, ?_⟩
  rw [k3, f2, f3, g2, g3]

/-- C2 at the swapped scenario (P1 = 3 MPa, P2 = 5 MPa, stored state still
drawing from P1): two steps later the valve draws from port 2. -/
theorem shuttleValve_polarity_flips_by_next_step_witness :
    (HydraulicShuttleValve.simulateOneTimestep
        (HydraulicShuttleValve.simulateOneTimestep
          HydraulicShuttleValve.scenarioSwapped)).n1.FLOW = 0
    ∧ (HydraulicShuttleValve.simulateOneTimestep
        (HydraulicShuttleValve.simulateOneTimestep
          HydraulicShuttleValve.scenarioSwapped)).n2.FLOW
      = -(HydraulicShuttleValve.simulateOneTimestep
          (HydraulicShuttleValve.simulateOneTimestep
            HydraulicShuttleValve.scenarioSwapped)).n3.FLOW
    ∧ (HydraulicShuttleValve.simulateOneTimestep
        (HydraulicShuttleValve.simulateOneTimestep
          HydraulicShuttleValve.scenarioSwapped)).n3.FLOW
      = (HydraulicShuttleValve.scenarioSwapped.n2.WAVEVARIABLE
          - HydraulicShuttleValve.scenarioSwapped.n3.WAVEVARIABLE)
        / (HydraulicShuttleValve.scenarioSwapped.n2.CHARIMP
            + HydraulicShuttleValve.scenarioSwapped.n3.CHARIMP) :=
  shuttleValve_polarity_flips_by_next_step HydraulicShuttleValve.scenarioSwapped rfl rfl rfl
    (by norm_num [HydraulicShuttleValve.scenarioSwapped])
    (by norm_num [HydraulicShuttleValve.scenarioSwapped])

/-! ## Square wave -/

/-- C3: before `StartTime` the square wave source writes 0 to its output,
whatever `BaseValue`, `Amplitude` and `Frequency` are. -/
theorem squareWave_zero_before_start (s : SignalSquareWave)
    (h : s.mTime < s.mStartTime) :
    (SignalSquareWave.simulateOneTimestep s).out = 0 := by
  simp [SignalSquareWave.simulateOneTimestep, SignalSquareWave.output, h]

/-- C3 at a concrete state: base value 7, amplitude 3, 50 Hz, start 1 s,
time 0.5 s. -/
theorem squareWave_zero_before_start_witness :
    (SignalSquareWave.simulateOneTimestep ⟨1, 50, 3, 7, 1 / 2, 9⟩).out = 0 :=
  squareWave_zero_before_start ⟨1, 50, 3, 7, 1 / 2, 9⟩ (by norm_num)

/-- The value the step computes once the start time has been reached. -/
theorem SignalSquareWave.output_of_started (s : SignalSquareWave) (n : Int)
    (h : ¬ s.mTime < s.mStartTime)
    (hn : Int.ceil ((s.mTime - s.mStartTime) * s.mFrequency) = n) :
    output s = s.mBaseValue + s.mAmplitude * ((Int.tmod n 2 : Int) : ℚ) := by
  simp [output, h, hn]

/-- C5: in the square-wave scenario (start 0.1 s, 10 Hz, amplitude 1, base 0,
times as exact rationals) the step writes 1 at `mTime = 0.2` and 0 at
`mTime = 0.25`. -/
theorem squareWave_scenario_values :
    (SignalSquareWave.simulateOneTimestep (SignalSquareWave.scenario (1 / 5))).out = 1
    ∧ (SignalSquareWave.simulateOneTimestep (SignalSquareWave.scenario (1 / 4))).out = 0 := by
  constructor
  · show SignalSquareWave.output (SignalSquareWave.scenario (1 / 5)) = 1
    rw [SignalSquareWave.output_of_started _ 1 (by norm_num [SignalSquareWave.scenario])
      (by rw [Int.ceil_eq_iff]; norm_num [SignalSquareWave.scenario])]
    have h : Int.tmod 1 2 = 1 := by decide
    rw [h]
    norm_num [SignalSquareWave.scenario]
  · show SignalSquareWave.output (SignalSquareWave.scenario (1 / 4)) = 0
    rw [SignalSquareWave.output_of_started _ 2 (by norm_num [SignalSquareWave.scenario])
      (by rw [Int.ceil_eq_iff]; norm_num [SignalSquareWave.scenario])]
    have h : Int.tmod 2 2 = 0 := by decide
    rw [h]
    norm_num [SignalSquareWave.scenario]

/-- C4 (evaluation at the failing input): at 10 Hz with start 0.1 s, amplitude 1
and base 0, the outputs at `t = 0.13` and half a period `1/(2*10) = 0.05` later,
at `t = 0.18`, are both the high level 1: the output did not change level. -/
theorem squareWave_same_level_after_half_period :
    (SignalSquareWave.simulateOneTimestep (SignalSquareWave.scenario (13 / 100))).out = 1
    ∧ (SignalSquareWave.simulateOneTimestep
        (SignalSquareWave.scenario (13 / 100 + 1 / (2 * 10)))).out = 1 := by
  constructor
  · show SignalSquareWave.output (SignalSquareWave.scenario (13 / 100)) = 1
    rw [SignalSquareWave.output_of_started _ 1 (by norm_num [SignalSquareWave.scenario])
      (by rw [Int.ceil_eq_iff]; norm_num [SignalSquareWave.scenario])]
    have h : Int.tmod 1 2 = 1 := by decide
    rw [h]
    norm_num [SignalSquareWave.scenario]
  · show SignalSquareWave.output (SignalSquareWave.scenario (13 / 100 + 1 / (2 * 10))) = 1
    rw [SignalSquareWave.output_of_started _ 1 (by norm_num [SignalSquareWave.scenario])
      (by rw [Int.ceil_eq_iff]; norm_num [SignalSquareWave.scenario])]
    have h : Int.tmod 1 2 = 1 := by decide
    rw [h]
    norm_num [SignalSquareWave.scenario]

/-! ## Q components: frame -/

/-- The Newton-Raphson loop of the 4/3 valve does not touch the port nodes. -/
theorem HydraulicValve43LS.valve43_loop_keeps_nodes (U : ComponentUtilities) (l : List Nat) :
    ∀ sv : HydraulicValve43LS × (Fin 10 → ℚ),
      (l.foldl (newtonRaphsonIteration U) sv).1.Pp = sv.1.Pp
      ∧ (l.foldl (newtonRaphsonIteration U) sv).1.Pt = sv.1.Pt
      ∧ (l.foldl (newtonRaphsonIteration U) sv).1.Pa = sv.1.Pa
      ∧ (l.foldl (newtonRaphsonIteration U) sv).1.Pb = sv.1.Pb
      ∧ (l.foldl (newtonRaphsonIteration U) sv).1.Pls = sv.1.Pls := by
  induction l with
  | nil => intro sv; exact ⟨rfl, rfl, rfl, rfl, rfl⟩
  | cons a l ih =>
    intro sv
    rw [List.foldl_cons]
    exact ih (newtonRaphsonIteration U sv a)

/-- Up to the write phase, a step of the 4/3 valve leaves the port nodes as
they were. -/
theorem HydraulicValve43LS.valve43_nodes_before_write (U : ComponentUtilities)
    (s : HydraulicValve43LS) :
    (calculateDelayedParts (newtonRaphson U (localExpressions U (readNodes s)))).Pp = s.Pp
    ∧ (calculateDelayedParts (newtonRaphson U (localExpressions U (readNodes s)))).Pt = s.Pt
    ∧ (calculateDelayedParts (newtonRaphson U (localExpressions U (readNodes s)))).Pa = s.Pa
    ∧ (calculateDelayedParts (newtonRaphson U (localExpressions U (readNodes s)))).Pb = s.Pb
    ∧ (calculateDelayedParts (newtonRaphson U (localExpressions U (readNodes s)))).Pls
        = s.Pls := by
  obtain ⟨h1, h2, h3, h4, h5⟩ :=
    valve43_loop_keeps_nodes U (List.range' 1 (localExpressions U (readNodes s)).mNoiter)
      (localExpressions U (readNodes s), initialStateVark (localExpressions U (readNodes s)))
  exact ⟨h1, h2, h3, h4, h5⟩

/-- The Newton-Raphson loop of the link does not touch the port nodes. -/
theorem MechanicJLink.jlink_loop_keeps_nodes (U : ComponentUtilities) (l : List Nat) :
    ∀ sv : MechanicJLink × (Fin 4 → ℚ),
      (l.foldl (newtonRaphsonIteration U) sv).1.Pm1 = sv.1.Pm1
      ∧ (l.foldl (newtonRaphsonIteration U) sv).1.Pmr2 = sv.1.Pmr2 := by
  induction l with
  | nil => intro sv; exact ⟨rfl, rfl⟩
  | cons a l ih =>
    intro sv
    rw [List.foldl_cons]
    exact ih (newtonRaphsonIteration U sv a)

/-- Up to the write phase, a step of the link leaves the port nodes as they
were. -/
theorem MechanicJLink.jlink_nodes_before_write (U : ComponentUtilities) (s : MechanicJLink) :
    (calculateDelayedParts U (newtonRaphson U (readNodes s))).Pm1 = s.Pm1
    ∧ (calculateDelayedParts U (newtonRaphson U (readNodes s))).Pmr2 = s.Pmr2 := by
  obtain ⟨h1, h2⟩ :=
    jlink_loop_keeps_nodes U (List.range' 1 (readNodes s).mNoiter)
      (readNodes s, initialStateVark (readNodes s))
  exact ⟨h1, h2⟩

/-- The write phase of the 4/3 valve stores pressure, flow and heat flow only. -/
theorem HydraulicValve43LS.valve43_write_keeps_waves (s : HydraulicValve43LS) :
    (writeNodes s).Pp.WAVEVARIABLE = s.Pp.WAVEVARIABLE
    ∧ (writeNodes s).Pp.CHARIMP = s.Pp.CHARIMP
    ∧ (writeNodes s).Pt.WAVEVARIABLE = s.Pt.WAVEVARIABLE
    ∧ (writeNodes s).Pt.CHARIMP = s.Pt.CHARIMP
    ∧ (writeNodes s).Pa.WAVEVARIABLE = s.Pa.WAVEVARIABLE
    ∧ (writeNodes s).Pa.CHARIMP = s.Pa.CHARIMP
    ∧ (writeNodes s).Pb.WAVEVARIABLE = s.Pb.WAVEVARIABLE
    ∧ (writeNodes s).Pb.CHARIMP = s.Pb.CHARIMP
    ∧ (writeNodes s).Pls.WAVEVARIABLE = s.Pls.WAVEVARIABLE
    ∧ (writeNodes s).Pls.CHARIMP = s.Pls.CHARIMP :=
  ⟨rfl, rfl, rfl, rfl, rfl, rfl, rfl, rfl, rfl, rfl⟩

/-- The write phase and the delay update of the link store force, position,
velocity, equivalent mass (and their rotational counterparts) only. -/
theorem MechanicJLink.jlink_write_keeps_waves (s : MechanicJLink) :
    (updateDelays (writeNodes s)).Pm1.WaveVariable = s.Pm1.WaveVariable
    ∧ (updateDelays (writeNodes s)).Pm1.CharImpedance = s.Pm1.CharImpedance
    ∧ (updateDelays (writeNodes s)).Pmr2.WaveVariable = s.Pmr2.WaveVariable
    ∧ (updateDelays (writeNodes s)).Pmr2.CharImpedance = s.Pmr2.CharImpedance :=
  ⟨rfl, rfl, rfl, rfl⟩

/-- C6: Q components write only non-wave slots.  A step of
`HydraulicShuttleValve`, of `HydraulicValve43LS` and of `MechanicJLink` leaves
the wave variable `c` and the characteristic impedance `Zc` of every port node of
the component unchanged. -/
theorem q_components_leave_wave_slots (U : ComponentUtilities)
    (sv : HydraulicShuttleValve) (v : HydraulicValve43LS) (j : MechanicJLink) :
    ((HydraulicShuttleValve.simulateOneTimestep sv).n1.WAVEVARIABLE = sv.n1.WAVEVARIABLE
      ∧ (HydraulicShuttleValve.simulateOneTimestep sv).n1.CHARIMP = sv.n1.CHARIMP
      ∧ (HydraulicShuttleValve.simulateOneTimestep sv).n2.WAVEVARIABLE = sv.n2.WAVEVARIABLE
      ∧ (HydraulicShuttleValve.simulateOneTimestep sv).n2.CHARIMP = sv.n2.CHARIMP
      ∧ (HydraulicShuttleValve.simulateOneTimestep sv).n3.WAVEVARIABLE = sv.n3.WAVEVARIABLE
      ∧ (HydraulicShuttleValve.simulateOneTimestep sv).n3.CHARIMP = sv.n3.CHARIMP)
    ∧ ((HydraulicValve43LS.simulateOneTimestep U v).Pp.WAVEVARIABLE = v.Pp.WAVEVARIABLE
      ∧ (HydraulicValve43LS.simulateOneTimestep U v).Pp.CHARIMP = v.Pp.CHARIMP
      ∧ (HydraulicValve43LS.simulateOneTimestep U v).Pt.WAVEVARIABLE = v.Pt.WAVEVARIABLE
      ∧ (HydraulicValve43LS.simulateOneTimestep U v).Pt.CHARIMP = v.Pt.CHARIMP
      ∧ (HydraulicValve43LS.simulateOneTimestep U v).Pa.WAVEVARIABLE = v.Pa.WAVEVARIABLE
      ∧ (HydraulicValve43LS.simulateOneTimestep U v).Pa.CHARIMP = v.Pa.CHARIMP
      ∧ (HydraulicValve43LS.simulateOneTimestep U v).Pb.WAVEVARIABLE = v.Pb.WAVEVARIABLE
      ∧ (HydraulicValve43LS.simulateOneTimestep U v).Pb.CHARIMP = v.Pb.CHARIMP
      ∧ (HydraulicValve43LS.simulateOneTimestep U v).Pls.WAVEVARIABLE = v.Pls.WAVEVARIABLE
      ∧ (HydraulicValve43LS.simulateOneTimestep U v).Pls.CHARIMP = v.Pls.CHARIMP)
    ∧ ((MechanicJLink.simulateOneTimestep U j).Pm1.WaveVariable = j.Pm1.WaveVariable
      ∧ (MechanicJLink.simulateOneTimestep U j).Pm1.CharImpedance = j.Pm1.CharImpedance
      ∧ (MechanicJLink.simulateOneTimestep U j).Pmr2.WaveVariable = j.Pmr2.WaveVariable
      ∧ (MechanicJLink.simulateOneTimestep U j).Pmr2.CharImpedance
          = j.Pmr2.CharImpedance) := by
  obtain ⟨f1, f2, f3, g1, g2, g3, _⟩ := HydraulicShuttleValve.step_frame sv
  obtain ⟨h1, h2, h3, h4, h5⟩ := HydraulicValve43LS.valve43_nodes_before_write U v
  obtain ⟨k1, k2⟩ := MechanicJLink.jlink_nodes_before_write U j
  obtain ⟨w1, w2, w3, w4, w5, w6, w7, w8, w9, w10⟩ :=
    HydraulicValve43LS.valve43_write_keeps_waves
      (HydraulicValve43LS.calculateDelayedParts
        (HydraulicValve43LS.newtonRaphson U
          (HydraulicValve43LS.localExpressions U (HydraulicValve43LS.readNodes v))))
  obtain ⟨m1, m2, m3, m4⟩ :=
    MechanicJLink.jlink_write_keeps_waves
      (MechanicJLink.calculateDelayedParts U
        (MechanicJLink.newtonRaphson U (MechanicJLink.readNodes j)))
  rw [h1] at w1 w2
  rw [h2] at w3 w4
  rw [h3] at w5 w6
  rw [h4] at w7 w8
  rw [h5] at w9 w10
  rw [k1] at m1 m2
  rw [k2] at m3 m4
  unfold HydraulicValve43LS.simulateOneTimestep MechanicJLink.simulateOneTimestep
  exact ⟨⟨f1, g1, f2, g2, f3, g3⟩, ⟨w1, w2, w3, w4, w5, w6, w7, w8, w9, w10⟩,
    ⟨m1, m2, m3, m4⟩⟩

/-! ## Shuttle valve: what the step reads -/

/-- C7 as stated fails: two states that agree on `c1, c2, c3, Zc1, Zc2, Zc3` and
on P3 being connected need not produce the same written pressures and flows.
The scenario state (stored `p1 = 5 MPa > p2 = 3 MPa`) yields `q3 = 4.9`, the same
state with stored pressures 0 yields `q3 = 2.9`. -/
theorem shuttleValve_written_depends_on_stored_pressure :
    ¬ ∀ s t : HydraulicShuttleValve, HydraulicShuttleValve.agreeOnWaves s t →
      HydraulicShuttleValve.sameWritten (HydraulicShuttleValve.simulateOneTimestep s)
        (HydraulicShuttleValve.simulateOneTimestep t) := by
  intro h
  have h1 := h HydraulicShuttleValve.scenarioP1High
    HydraulicShuttleValve.scenarioP1HighUnwritten
    ⟨rfl, rfl, rfl, rfl, rfl, rfl, rfl⟩
  obtain ⟨_, _, _, _, _, hq⟩ := h1
  norm_num [HydraulicShuttleValve.simulateOneTimestep,
    HydraulicShuttleValve.scenarioP1High,
    HydraulicShuttleValve.scenarioP1HighUnwritten] at hq

/-- C7 (amended): two states that agree on `c1, c2, c3, Zc1, Zc2, Zc3`, on P3
being connected, and on the outcome of the comparison `p1 > p2` of the stored
pressures produce identical written pressures and flows; the stored flows and
the stored pressure values beyond that comparison play no part. -/
theorem shuttleValve_written_depends_only_on_waves_and_comparison
    (s t : HydraulicShuttleValve) (h : HydraulicShuttleValve.agreeOnWaves s t)
    (hcmp : s.n1.PRESSURE > s.n2.PRESSURE ↔ t.n1.PRESSURE > t.n2.PRESSURE) :
    HydraulicShuttleValve.sameWritten (HydraulicShuttleValve.simulateOneTimestep s)
      (HydraulicShuttleValve.simulateOneTimestep t) := by
  obtain ⟨c1, c2, c3, z1, z2, z3, hc⟩ := h
  by_cases hp : s.n1.PRESSURE > s.n2.PRESSURE
  · have ht : t.n1.PRESSURE > t.n2.PRESSURE := hcmp.mp hp
    simp [HydraulicShuttleValve.sameWritten, HydraulicShuttleValve.simulateOneTimestep,
      hp, ht, c1, c2, c3, z1, z2, z3, hc]
  · have ht : ¬ t.n1.PRESSURE > t.n2.PRESSURE := fun k => hp (hcmp.mpr k)
    simp [HydraulicShuttleValve.sameWritten, HydraulicShuttleValve.simulateOneTimestep,
      hp, ht, c1, c2, c3, z1, z2, z3, hc]

/-- C7 (amended) at two scenario states with different stored pressures and
flows, both with `p1 > p2`. -/
theorem shuttleValve_written_depends_only_on_waves_and_comparison_witness :
    HydraulicShuttleValve.sameWritten
      (HydraulicShuttleValve.simulateOneTimestep HydraulicShuttleValve.scenarioP1High)
      (HydraulicShuttleValve.simulateOneTimestep HydraulicShuttleValve.scenarioP1HighOther) :=
  shuttleValve_written_depends_only_on_waves_and_comparison
    HydraulicShuttleValve.scenarioP1High HydraulicShuttleValve.scenarioP1HighOther
    ⟨rfl, rfl, rfl, rfl, rfl, rfl, rfl⟩
    (by norm_num [HydraulicShuttleValve.scenarioP1High,
      HydraulicShuttleValve.scenarioP1HighOther])

/-! ## C components: frame -/

/-- The body of the second loop of the volume keeps the non-wave slots of
every subport node. -/
theorem HydraulicVolumeMultiPort.secondLoopBody_frame {n : Nat} (mZc mAlpha pAvg : ℚ)
    (st : (Fin n → ℚ) × (Fin n → NodeHydraulic)) (i k : Fin n) :
    ((secondLoopBody mZc mAlpha pAvg st i).2 k).PRESSURE = (st.2 k).PRESSURE
    ∧ ((secondLoopBody mZc mAlpha pAvg st i).2 k).FLOW = (st.2 k).FLOW
    ∧ ((secondLoopBody mZc mAlpha pAvg st i).2 k).TEMPERATURE = (st.2 k).TEMPERATURE
    ∧ ((secondLoopBody mZc mAlpha pAvg st i).2 k).HEATFLOW = (st.2 k).HEATFLOW := by
  by_cases h : k = i
  · subst h
    simp [secondLoopBody]
  · simp [secondLoopBody, Function.update_noteq h]

/-- The second loop of the volume keeps the non-wave slots of every subport
node. -/
theorem HydraulicVolumeMultiPort.foldl_secondLoopBody_frame {n : Nat}
    (mZc mAlpha pAvg : ℚ) (l : List (Fin n)) :
    ∀ (st : (Fin n → ℚ) × (Fin n → NodeHydraulic)) (k : Fin n),
      ((l.foldl (secondLoopBody mZc mAlpha pAvg) st).2 k).PRESSURE = (st.2 k).PRESSURE
      ∧ ((l.foldl (secondLoopBody mZc mAlpha pAvg) st).2 k).FLOW = (st.2 k).FLOW
      ∧ ((l.foldl (secondLoopBody mZc mAlpha pAvg) st).2 k).TEMPERATURE
          = (st.2 k).TEMPERATURE
      ∧ ((l.foldl (secondLoopBody mZc mAlpha pAvg) st).2 k).HEATFLOW = (st.2 k).HEATFLOW := by
  induction l with
  | nil => intro st k; exact ⟨rfl, rfl, rfl, rfl⟩
  | cons a l ih =>
    intro st k
    rw [List.foldl_cons]
    obtain ⟨h1, h2, h3, h4⟩ := ih (secondLoopBody mZc mAlpha pAvg st a) k
    obtain ⟨g1, g2, g3, g4⟩ := secondLoopBody_frame mZc mAlpha pAvg st a k
    exact ⟨h1.trans g1, h2.trans g2, h3.trans g3, h4.trans g4⟩

/-- C8: C components write only `c` and `Zc`.  A step of
`HydraulicVolumeMultiPort` leaves pressure, flow, temperature and heat flow of
every subport node unchanged, and a step of `HydraulicCSource` leaves them
unchanged on `P1` and sets `c = in_c` and `Zc = in_z`. -/
theorem c_components_write_only_wave_slots
    (v : HydraulicVolumeMultiPort) (src : HydraulicCSource) :
    (∀ i : Fin v.mNumPorts,
      ((HydraulicVolumeMultiPort.simulateOneTimestep v).nodes i).PRESSURE
          = (v.nodes i).PRESSURE
      ∧ ((HydraulicVolumeMultiPort.simulateOneTimestep v).nodes i).FLOW = (v.nodes i).FLOW
      ∧ ((HydraulicVolumeMultiPort.simulateOneTimestep v).nodes i).TEMPERATURE
          = (v.nodes i).TEMPERATURE
      ∧ ((HydraulicVolumeMultiPort.simulateOneTimestep v).nodes i).HEATFLOW
          = (v.nodes i).HEATFLOW)
    ∧ ((HydraulicCSource.simulateOneTimestep src).P1.PRESSURE = src.P1.PRESSURE
      ∧ (HydraulicCSource.simulateOneTimestep src).P1.FLOW = src.P1.FLOW
      ∧ (HydraulicCSource.simulateOneTimestep src).P1.TEMPERATURE = src.P1.TEMPERATURE
      ∧ (HydraulicCSource.simulateOneTimestep src).P1.HEATFLOW = src.P1.HEATFLOW
      ∧ (HydraulicCSource.simulateOneTimestep src).P1.WAVEVARIABLE = src.in_c
      ∧ (HydraulicCSource.simulateOneTimestep src).P1.CHARIMP = src.in_z) := by
  refine ⟨fun i => ?_, rfl, rfl, rfl, rfl, rfl, rfl⟩
  exact HydraulicVolumeMultiPort.foldl_secondLoopBody_frame v.mZc v.mAlpha
    (HydraulicVolumeMultiPort.cTot v / (v.mNumPorts : ℚ)) (List.finRange v.mNumPorts)
    (v.vp_C0, v.nodes) i

/-! ## HMF loader -/

/-- Sequencing two pieces of the objects loop. -/
theorem ObjectsTrace.sequence {pSystem bound created : Nat} {R : Trace} {f : Nat → Trace}
    {ok1 ok2 : Bool} {e1 e2 : List (Option String)}
    (h1 : ObjectsTrace pSystem bound created R ok1 e1)
    (h2 : ∀ c, created ≤ c → ObjectsTrace pSystem bound c (f c) ok2 e2) :
    ObjectsTrace pSystem bound created (R.andThen f) (ok1 && ok2) (e1 ++ e2) := by
  obtain ⟨a1, b1, d1⟩ := h1
  cases hab : R.aborted with
  | some x =>
    have hR : R.andThen f = R := by simp [Trace.andThen, hab]
    rw [hR]
    refine ⟨a1, b1, ?_⟩
    intro hok
    have hok1 : ok1 = true := by
      cases ok1
      · simp at hok
      · rfl
    have := (d1 hok1).1
    rw [hab] at this
    cases this
  | none =>
    obtain ⟨a2, b2, d2⟩ := h2 R.created a1
    have hR : R.andThen f
        = ⟨R.calls ++ (f R.created).calls, (f R.created).created, (f R.created).aborted⟩ := by
      simp [Trace.andThen, hab]
    rw [hR]
    refine ⟨le_trans a1 a2, ?_, ?_⟩
    · intro q hq
      obtain ⟨t1, c1, x1⟩ := b1 q hq
      obtain ⟨t2, c2, x2⟩ := b2 q hq
      refine ⟨?_, ?_, ?_⟩
      · show timestepsOf q (R.calls ++ (f R.created).calls) = []
        simp only [timestepsOf, List.filterMap_append] at t1 t2 ⊢
        rw [t1, t2]; rfl
      · show connectsOf q (R.calls ++ (f R.created).calls) = []
        simp only [connectsOf, List.filterMap_append] at c1 c2 ⊢
        rw [c1, c2]; rfl
      · intro hne
        have y1 := x1 hne
        have y2 := x2 hne
        show addedTo q (R.calls ++ (f R.created).calls) = []
        simp only [addedTo, List.filterMap_append] at y1 y2 ⊢
        rw [y1, y2]; rfl
    · intro hok
      have hok1 : ok1 = true := by
        cases ok1
        · simp at hok
        · rfl
      have hok2 : ok2 = true := by
        cases ok2
        · simp at hok
        · rfl
      refine ⟨(d2 hok2).1, ?_⟩
      intro hp
      have y1 := (d1 hok1).2 hp
      have y2 := (d2 hok2).2 hp
      show (addedTo pSystem (R.calls ++ (f R.created).calls)).map Object.typeName = e1 ++ e2
      simp only [addedTo, List.filterMap_append, List.map_append] at y1 y2 ⊢
      rw [y1, y2]

/-- The parameter loop of a component sets parameters only. -/
theorem loadComponentParameters_foreign (pComp q : Nat) (l : List XmlNode) :
    timestepsOf q (loadComponentParameters pComp l) = []
    ∧ connectsOf q (loadComponentParameters pComp l) = []
    ∧ addedTo q (loadComponentParameters pComp l) = [] := by
  induction l with
  | nil => exact ⟨rfl, rfl, rfl⟩
  | cons a l ih =>
    obtain ⟨h1, h2, h3⟩ := ih
    simp only [timestepsOf, connectsOf, addedTo] at h1 h2 h3
    by_cases h : a.name = "parameter"
    · simp [loadComponentParameters, h, timestepsOf, connectsOf, addedTo, h1, h2, h3]
    · simp [loadComponentParameters, h, timestepsOf, connectsOf, addedTo, h1, h2, h3]

/-- The system parameter loop sets system parameters only. -/
theorem loadSystemParameters_foreign (pSystem q : Nat) (l : List XmlNode) :
    timestepsOf q (loadSystemParameters pSystem l) = []
    ∧ connectsOf q (loadSystemParameters pSystem l) = []
    ∧ addedTo q (loadSystemParameters pSystem l) = [] := by
  induction l with
  | nil => exact ⟨rfl, rfl, rfl⟩
  | cons a l ih =>
    obtain ⟨h1, h2, h3⟩ := ih
    simp only [timestepsOf, connectsOf, addedTo] at h1 h2 h3
    by_cases h : a.name = "parameter"
    · simp [loadSystemParameters, h, timestepsOf, connectsOf, addedTo, h1, h2, h3]
    · simp [loadSystemParameters, h, timestepsOf, connectsOf, addedTo, h1, h2, h3]

/-- The connection loop makes one `connect` call on its system for every child
named `connect` and nothing else. -/
theorem loadConnections_calls (pSystem q : Nat) (l : List XmlNode) :
    timestepsOf q (loadConnections pSystem l) = []
    ∧ addedTo q (loadConnections pSystem l) = []
    ∧ (q ≠ pSystem → connectsOf q (loadConnections pSystem l) = [])
    ∧ connectsOf pSystem (loadConnections pSystem l)
        = (l.filter (fun c => c.name = "connect")).map (fun c =>
            (readStringAttribute c "startcomponent" "ERROR_NOSTARTCOMPNAME_GIVEN",
             readStringAttribute c "startport" "ERROR_NOSTARTPORTNAME_GIVEN",
             readStringAttribute c "endcomponent" "ERROR_NOENDCOMPNAME_GIVEN",
             readStringAttribute c "endport" "ERROR_NOENDPORTNAME_GIVEN")) := by
  induction l with
  | nil => exact ⟨rfl, rfl, fun _ => rfl, rfl⟩
  | cons a l ih =>
    obtain ⟨h1, h2, h3, h4⟩ := ih
    simp only [timestepsOf, connectsOf, addedTo] at h1 h2 h3 h4
    by_cases h : a.name = "connect"
    · refine ⟨?_, ?_, ?_, ?_⟩
      · simp [loadConnections, loadConnection, h, timestepsOf, h1]
      · simp [loadConnections, loadConnection, h, addedTo, h2]
      · intro hq
        have hq2 : ¬ pSystem = q := fun e => hq e.symm
        simp [loadConnections, loadConnection, h, connectsOf, h3 hq, hq2]
      · simp [loadConnections, loadConnection, h, connectsOf, h4]
    · refine ⟨?_, ?_, ?_, ?_⟩
      · simp [loadConnections, h, timestepsOf, h1]
      · simp [loadConnections, h, addedTo, h2]
      · intro hq
        simp [loadConnections, h, connectsOf, h3 hq]
      · simp [loadConnections, h, connectsOf, h4]

/-- The part of `loadSystemContents` after the objects makes the declared
connections on its system and touches no other system. -/
theorem loadConnectionsAndParameters_calls (pSysNode : XmlNode) (pSystem q : Nat) :
    timestepsOf q (loadConnectionsAndParameters pSysNode pSystem) = []
    ∧ addedTo q (loadConnectionsAndParameters pSysNode pSystem) = []
    ∧ (q ≠ pSystem → connectsOf q (loadConnectionsAndParameters pSysNode pSystem) = [])
    ∧ connectsOf pSystem (loadConnectionsAndParameters pSysNode pSystem)
        = declaredConnections pSysNode := by
  have hp : ∀ r l, timestepsOf r (match pSysNode.first_node "parameters" with
        | some pParameters => loadSystemParameters l pParameters.children
        | none => []) = []
      ∧ connectsOf r (match pSysNode.first_node "parameters" with
        | some pParameters => loadSystemParameters l pParameters.children
        | none => []) = []
      ∧ addedTo r (match pSysNode.first_node "parameters" with
        | some pParameters => loadSystemParameters l pParameters.children
        | none => []) = [] := by
    intro r l
    cases pSysNode.first_node "parameters" with
    | none => exact ⟨rfl, rfl, rfl⟩
    | some pParameters => exact loadSystemParameters_foreign l r pParameters.children
  obtain ⟨p1, p2, p3⟩ := hp q pSystem
  obtain ⟨_, s2, _⟩ := hp pSystem pSystem
  unfold loadConnectionsAndParameters declaredConnections
  simp only [timestepsOf, connectsOf, addedTo, List.filterMap_append] at p1 p2 p3 s2 ⊢
  rw [p1, p2, p3, s2]
  cases pSysNode.first_node "connections" with
  | none => exact ⟨rfl, rfl, fun _ => rfl, rfl⟩
  | some pConnections =>
    obtain ⟨c1, c2, c3, c4⟩ := loadConnections_calls pSystem q pConnections.children
    simp only [timestepsOf, connectsOf, addedTo] at c1 c2 c3 c4
    refine ⟨?_, ?_, ?_, ?_⟩
    · simp only [c1, List.append_nil]
    · simp only [c2, List.append_nil]
    · intro hq
      simp only [c3 hq, List.append_nil]
    · simp only [c4, List.append_nil]

/-- A piece that does nothing. -/
theorem ObjectsTrace.skip (pSystem bound created : Nat) :
    ObjectsTrace pSystem bound created ⟨[], created, none⟩ true [] :=
  ⟨le_refl _, fun _ _ => ⟨rfl, rfl, fun _ => rfl⟩, fun _ => ⟨rfl, fun _ => rfl⟩⟩

/-- Older handles stay older. -/
theorem ObjectsTrace.weaken {pSystem bound bound2 created : Nat} {R : Trace} {ok : Bool}
    {e : List (Option String)} (h : ObjectsTrace pSystem bound created R ok e)
    (hb : bound2 ≤ bound) : ObjectsTrace pSystem bound2 created R ok e := by
  obtain ⟨a, b, d⟩ := h
  exact ⟨a, fun q hq => b q (lt_of_lt_of_le hq hb),
    fun hok => ⟨(d hok).1, fun hp => (d hok).2 (lt_of_lt_of_le hp hb)⟩⟩

/-- The trace of `loadComponent`: when the type name is registered, exactly
one object, a component of that type, is added to the system. -/
theorem loadComponent_trace (E : HopsanEssentials) (pObject : XmlNode)
    (pSystem bound created : Nat) :
    ObjectsTrace pSystem bound created (loadComponent E pObject pSystem created)
      (E.createComponent (readStringAttribute pObject "typename" "ERROR_NO_TYPE_GIVEN"))
      [some (readStringAttribute pObject "typename" "ERROR_NO_TYPE_GIVEN")] := by
  have hpar : ∀ q, timestepsOf q (match pObject.first_node "parameters" with
        | some pParams => loadComponentParameters created pParams.children
        | none => []) = []
      ∧ connectsOf q (match pObject.first_node "parameters" with
        | some pParams => loadComponentParameters created pParams.children
        | none => []) = []
      ∧ addedTo q (match pObject.first_node "parameters" with
        | some pParams => loadComponentParameters created pParams.children
        | none => []) = [] := by
    intro q
    cases pObject.first_node "parameters" with
    | none => exact ⟨rfl, rfl, rfl⟩
    | some pParams => exact loadComponentParameters_foreign created q pParams.children
  cases hreg : E.createComponent (readStringAttribute pObject "typename" "ERROR_NO_TYPE_GIVEN") with
  | false =>
    refine ⟨?_, ?_, ?_⟩
    · simp [loadComponent, hreg]
    · intro q _
      simp [loadComponent, hreg, timestepsOf, connectsOf, addedTo]
    · intro h
      cases h
  | true =>
    refine ⟨?_, ?_, ?_⟩
    · simp [loadComponent, hreg]
    · intro q _
      obtain ⟨p1, p2, p3⟩ := hpar q
      simp only [timestepsOf, connectsOf, addedTo] at p1 p2 p3
      refine ⟨?_, ?_, ?_⟩
      · simp [loadComponent, hreg, timestepsOf, p1]
      · simp [loadComponent, hreg, connectsOf, p2]
      · intro hq
        have hq2 : ¬ pSystem = q := fun e => hq e.symm
        simp [loadComponent, hreg, addedTo, p3, hq2]
    · intro _
      refine ⟨?_, ?_⟩
      · simp [loadComponent, hreg]
      · intro _
        obtain ⟨_, _, p3⟩ := hpar pSystem
        simp only [addedTo] at p3
        simp [loadComponent, hreg, addedTo, p3, Object.typeName]

/-- The trace of the `system` branch of the objects loop, given the facts
about loading the subsystem: exactly one object, a component system, is added
to the system, and the subsystem is loaded into the new handle. -/
theorem loadSubsystem_trace (E : HopsanEssentials) (pObject : XmlNode)
    (h : SystemTrace E pObject) (pSystem created : Nat) :
    ObjectsTrace pSystem created created
      (Trace.andThen
        ⟨[Call.createComponentSystem created,
          Call.addComponent pSystem (Object.componentSystem created)], created + 1, none⟩
        (fun next => loadSystemContents E pObject created next))
      (loadable E pObject) [none] := by
  obtain ⟨a, b, c, d⟩ := h created (created + 1)
  have hR : Trace.andThen
        ⟨[Call.createComponentSystem created,
          Call.addComponent pSystem (Object.componentSystem created)], created + 1, none⟩
        (fun next => loadSystemContents E pObject created next)
      = ⟨[Call.createComponentSystem created,
          Call.addComponent pSystem (Object.componentSystem created)]
          ++ (loadSystemContents E pObject created (created + 1)).calls,
        (loadSystemContents E pObject created (created + 1)).created,
        (loadSystemContents E pObject created (created + 1)).aborted⟩ := by
    simp [Trace.andThen]
  rw [hR]
  refine ⟨?_, ?_, ?_⟩
  · show created ≤ (loadSystemContents E pObject created (created + 1)).created
    omega
  · intro q hq
    have hq1 : q < created + 1 := by omega
    have hne : q ≠ created := by omega
    have t := b q hq1
    rw [if_neg hne] at t
    obtain ⟨c1, c2⟩ := c q hq1 hne
    simp only [timestepsOf, connectsOf, addedTo] at t c1 c2
    refine ⟨?_, ?_, ?_⟩
    · simp [timestepsOf, t]
    · simp [connectsOf, c1]
    · intro hqp
      have hq2 : ¬ pSystem = q := fun e => hqp e.symm
      simp [addedTo, c2, hq2]
  · intro hok
    refine ⟨(d hok).1, ?_⟩
    intro hp
    have hp1 : pSystem < created + 1 := by omega
    have hne : pSystem ≠ created := by omega
    obtain ⟨_, c2⟩ := c pSystem hp1 hne
    simp only [addedTo] at c2
    simp [addedTo, c2, Object.typeName]

/-- The search for the `objects` child along the children of a system node is
`first_node("objects")`: the loop runs over the children of the first child
named `objects`, and nothing is loaded when there is none. -/
theorem loadFirstObjects_first_node (E : HopsanEssentials) (pSystem created : Nat)
    (sysName : String) (sysAttributes : List (String × String)) (sysChildren : List XmlNode) :
    loadFirstObjects E sysChildren pSystem created
      = (match (XmlNode.mk sysName sysAttributes sysChildren).first_node "objects" with
          | some pObjects => loadObjects E pObjects.children pSystem created
          | none => ⟨[], created, none⟩) := by
  show loadFirstObjects E sysChildren pSystem created
      = (match sysChildren.find? (fun c => c.name = "objects") with
          | some pObjects => loadObjects E pObjects.children pSystem created
          | none => ⟨[], created, none⟩)
  induction sysChildren with
  | nil => rw [loadFirstObjects]; rfl
  | cons head tail ih =>
    obtain ⟨childName, childAttributes, objects⟩ := head
    by_cases hobj : childName = "objects"
    · rw [loadFirstObjects, if_pos hobj]
      simp only [List.find?, XmlNode.name, hobj, decide_True, XmlNode.children]
    · rw [loadFirstObjects, if_neg hobj]
      simp only [List.find?, XmlNode.name, hobj, decide_False]
      exact ih

/-- The objects a list of children declares through its first child named
`objects`. -/
theorem declaredObjects_mk (sysName : String) (sysAttributes : List (String × String))
    (sysChildren : List XmlNode) :
    declaredObjects (XmlNode.mk sysName sysAttributes sysChildren)
      = (match sysChildren.find? (fun c => c.name = "objects") with
          | some pObjects => declaredObjectList pObjects.children
          | none => []) := rfl

/-- The facts about the traces of the objects loop, of the search for the
`objects` child, and of `loadSystemContents`, for every document tree. -/
theorem loader_trace (E : HopsanEssentials) (n : XmlNode) :
    SystemTrace E n
    ∧ (∀ pSystem created, ObjectsTrace pSystem created created
        (loadObjects E n.children pSystem created) (objectsLoadable E n.children)
        (declaredObjectList n.children)) := by
  refine @XmlNode.rec
    (fun n => SystemTrace E n
      ∧ (∀ pSystem created, ObjectsTrace pSystem created created
          (loadObjects E n.children pSystem created) (objectsLoadable E n.children)
          (declaredObjectList n.children)))
    (fun l =>
      (∀ pSystem created, ObjectsTrace pSystem created created
          (loadObjects E l pSystem created) (objectsLoadable E l) (declaredObjectList l))
      ∧ (∀ pSystem created, ObjectsTrace pSystem created created
          (loadFirstObjects E l pSystem created) (firstObjectsLoadable E l)
          (match l.find? (fun c => c.name = "objects") with
            | some pObjects => declaredObjectList pObjects.children
            | none => [])))
    ?_ ?_ ?_ n
  · -- a node, given the facts about its children
    intro sysName sysAttributes sysChildren ih
    refine ⟨?_, ih.1⟩
    intro pSystem created
    obtain ⟨a, b, d⟩ := ih.2 pSystem created
    rw [declaredObjects_mk]
    cases hsim : (XmlNode.mk sysName sysAttributes sysChildren).first_node "simulationtime" with
    | none =>
      have hR : loadSystemContents E (XmlNode.mk sysName sysAttributes sysChildren)
          pSystem created = ⟨[], created, some Abort.assertFailed⟩ := by
        rw [loadSystemContents, hsim]
      rw [hR]
      refine ⟨le_refl _, ?_, ?_, ?_⟩
      · intro q _
        by_cases hq : q = pSystem <;> simp [hq, timestepsOf]
      · intro q _ _
        exact ⟨rfl, rfl⟩
      · intro hl
        rw [loadable, hsim] at hl
        simp at hl
    | some pSimtimeNode =>
      obtain ⟨k1, k2, k3, k4⟩ := loadConnectionsAndParameters_calls
        (XmlNode.mk sysName sysAttributes sysChildren) pSystem pSystem
      cases hab : (loadFirstObjects E sysChildren pSystem created).aborted with
      | some x =>
        have hR : loadSystemContents E (XmlNode.mk sysName sysAttributes sysChildren)
            pSystem created
            = ⟨Call.setDesiredTimestep pSystem
                  (readDoubleAttribute E pSimtimeNode "timestep" (1 / 1000))
                :: (loadFirstObjects E sysChildren pSystem created).calls,
              (loadFirstObjects E sysChildren pSystem created).created,
              (loadFirstObjects E sysChildren pSystem created).aborted⟩ := by
          rw [loadSystemContents, hsim]
          simp [Trace.andThen, hab]
        rw [hR]
        refine ⟨a, ?_, ?_, ?_⟩
        · intro q hq
          obtain ⟨t, _, _⟩ := b q hq
          simp only [timestepsOf] at t
          by_cases hqp : q = pSystem
          · subst hqp
            simp [timestepsOf, t]
          · have hq2 : ¬ pSystem = q := fun e => hqp e.symm
            simp [timestepsOf, t, hqp, hq2]
        · intro q hq hqp
          obtain ⟨_, c, x⟩ := b q hq
          have y := x hqp
          simp only [connectsOf, addedTo] at c y
          simp [connectsOf, addedTo, c, y]
        · intro hl
          have hfo : firstObjectsLoadable E sysChildren = true := by
            rw [loadable] at hl
            simp at hl
            exact hl.2
          have := (d hfo).1
          rw [hab] at this
          cases this
      | none =>
        have hR : loadSystemContents E (XmlNode.mk sysName sysAttributes sysChildren)
            pSystem created
            = ⟨Call.setDesiredTimestep pSystem
                  (readDoubleAttribute E pSimtimeNode "timestep" (1 / 1000))
                :: ((loadFirstObjects E sysChildren pSystem created).calls
                  ++ loadConnectionsAndParameters
                      (XmlNode.mk sysName sysAttributes sysChildren) pSystem),
              (loadFirstObjects E sysChildren pSystem created).created, none⟩ := by
          rw [loadSystemContents, hsim]
          simp [Trace.andThen, hab]
        rw [hR]
        refine ⟨a, ?_, ?_, ?_⟩
        · intro q hq
          obtain ⟨t, _, _⟩ := b q hq
          obtain ⟨j1, _, _, _⟩ := loadConnectionsAndParameters_calls
            (XmlNode.mk sysName sysAttributes sysChildren) pSystem q
          simp only [timestepsOf] at t j1
          by_cases hqp : q = pSystem
          · subst hqp
            simp [timestepsOf, t, j1]
          · have hq2 : ¬ pSystem = q := fun e => hqp e.symm
            simp [timestepsOf, t, j1, hqp, hq2]
        · intro q hq hqp
          obtain ⟨_, c, x⟩ := b q hq
          obtain ⟨_, j2, j3, _⟩ := loadConnectionsAndParameters_calls
            (XmlNode.mk sysName sysAttributes sysChildren) pSystem q
          have y := x hqp
          have j := j3 hqp
          simp only [connectsOf, addedTo] at c y j j2
          simp [connectsOf, addedTo, c, y, j, j2]
        · intro hl
          have hfo : firstObjectsLoadable E sysChildren = true := by
            rw [loadable] at hl
            simp at hl
            exact hl.2
          refine ⟨rfl, ?_⟩
          intro hp
          obtain ⟨_, c, _⟩ := b pSystem hp
          have y := (d hfo).2 hp
          simp only [connectsOf, addedTo] at c y k2 k4
          refine ⟨?_, ?_⟩
          · simp [addedTo, k2, y]
          · simp [connectsOf, c, k4]
  · -- no children
    exact ⟨fun p c => ObjectsTrace.skip p c c, fun p c => ObjectsTrace.skip p c c⟩
  · -- a first child and the children after it
    intro head tail ihHead ihTail
    refine ⟨?_, ?_⟩
    · intro pSystem created
      have hrest : ∀ c, created ≤ c → ObjectsTrace pSystem created c
          (loadObjects E tail pSystem c) (objectsLoadable E tail) (declaredObjectList tail) :=
        fun c hc => (ihTail.1 pSystem c).weaken hc
      by_cases hcomp : head.name = "component"
      · have h1 := (loadComponent_trace E head pSystem created created).sequence hrest
        have e1 : loadObjects E (head :: tail) pSystem created
            = (loadComponent E head pSystem created).andThen
                (fun created => loadObjects E tail pSystem created) := by
          rw [loadObjects, if_pos hcomp]
        have e2 : objectsLoadable E (head :: tail)
            = (E.createComponent (readStringAttribute head "typename" "ERROR_NO_TYPE_GIVEN")
                && objectsLoadable E tail) := by
          rw [objectsLoadable, if_pos hcomp]
        have e3 : declaredObjectList (head :: tail)
            = [some (readStringAttribute head "typename" "ERROR_NO_TYPE_GIVEN")]
                ++ declaredObjectList tail := by
          simp [declaredObjectList, hcomp]
        rw [e1, e2, e3]
        exact h1
      · by_cases hsys : head.name = "system"
        · have h1 := (loadSubsystem_trace E head ihHead.1 pSystem created).sequence hrest
          have e1 : loadObjects E (head :: tail) pSystem created
              = (Trace.andThen
                  ⟨[Call.createComponentSystem created,
                    Call.addComponent pSystem (Object.componentSystem created)],
                    created + 1, none⟩
                  (fun next => loadSystemContents E head created next)).andThen
                  (fun created => loadObjects E tail pSystem created) := by
            rw [loadObjects, if_neg hcomp, if_pos hsys]
          have e2 : objectsLoadable E (head :: tail)
              = (loadable E head && objectsLoadable E tail) := by
            rw [objectsLoadable, if_neg hcomp, if_pos hsys]
          have e3 : declaredObjectList (head :: tail)
              = [none] ++ declaredObjectList tail := by
            simp [declaredObjectList, hcomp, hsys]
          rw [e1, e2, e3]
          exact h1
        · have h1 := (ObjectsTrace.skip pSystem created created).sequence hrest
          have e1 : loadObjects E (head :: tail) pSystem created
              = (Trace.andThen ⟨[], created, none⟩
                  (fun created => loadObjects E tail pSystem created)) := by
            rw [loadObjects, if_neg hcomp, if_neg hsys]
          have e2 : objectsLoadable E (head :: tail)
              = (true && objectsLoadable E tail) := by
            rw [objectsLoadable, if_neg hcomp, if_neg hsys]
          have e3 : declaredObjectList (head :: tail)
              = [] ++ declaredObjectList tail := by
            simp [declaredObjectList, hcomp, hsys]
          rw [e1, e2, e3]
          exact h1
    · intro pSystem created
      obtain ⟨childName, childAttributes, objects⟩ := head
      by_cases hobj : childName = "objects"
      · have e1 : loadFirstObjects E (XmlNode.mk childName childAttributes objects :: tail)
            pSystem created = loadObjects E objects pSystem created := by
          rw [loadFirstObjects, if_pos hobj]
        have e2 : firstObjectsLoadable E (XmlNode.mk childName childAttributes objects :: tail)
            = objectsLoadable E objects := by
          rw [firstObjectsLoadable, if_pos hobj]
        rw [e1, e2]
        simp only [List.find?, XmlNode.name, hobj, decide_True]
        exact ihHead.2 pSystem created
      · have e1 : loadFirstObjects E (XmlNode.mk childName childAttributes objects :: tail)
            pSystem created = loadFirstObjects E tail pSystem created := by
          rw [loadFirstObjects, if_neg hobj]
        have e2 : firstObjectsLoadable E (XmlNode.mk childName childAttributes objects :: tail)
            = firstObjectsLoadable E tail := by
          rw [firstObjectsLoadable, if_neg hobj]
        rw [e1, e2]
        simp only [List.find?, XmlNode.name, hobj, decide_False]
        exact ihTail.2 pSystem created

/-- C9: HMF loading sets the declared timestep.  When `loadSystemContents`
loads a system element (the root one, or a nested one, which the objects loop
loads into the system it has just created) into the system `pSystem`, the one
desired timestep set on `pSystem` is the numeric value (`atof`) of the
`timestep` attribute of the element's own `simulationtime` child, and 0.001 when
that attribute is absent; and the load sets no timestep on any other system that
existed before it, so a timestep once set for a system is not overwritten by
the loads that follow. -/
theorem loader_sets_declared_timestep (E : HopsanEssentials)
    (pSysNode pSimtimeNode : XmlNode) (pSystem created : Nat) (hp : pSystem < created)
    (hsim : pSysNode.first_node "simulationtime" = some pSimtimeNode) :
    timestepsOf pSystem (loadSystemContents E pSysNode pSystem created).calls
      = [match pSimtimeNode.first_attribute "timestep" with
          | some value => E.atof value
          | none => 1 / 1000]
    ∧ (∀ q, q < created → q ≠ pSystem →
        timestepsOf q (loadSystemContents E pSysNode pSystem created).calls = []) := by
  obtain ⟨_, b, _, _⟩ := (loader_trace E pSysNode).1 pSystem created
  refine ⟨?_, ?_⟩
  · have h := b pSystem hp
    rw [if_pos rfl, hsim] at h
    exact h
  · intro q hq hne
    have h := b q hq
    rw [if_neg hne] at h
    exact h

/-- C9 at the round-trip scenario: the root system, loaded as system 0, gets
the timestep 0.01 of its `simulationtime` child. -/
theorem loader_sets_declared_timestep_witness :
    timestepsOf 0 (loadSystemContents scenarioEssentials scenarioSystem 0 1).calls
      = [1 / 100] :=
  (loader_sets_declared_timestep scenarioEssentials scenarioSystem
    (.mk "simulationtime" [("start", "0"), ("stop", "2"), ("timestep", "0.01")] [])
    0 1 (by decide) rfl).1

/-- C10: HMF loading materialises exactly what the document declares.  For a
system element that can be loaded to the end, `loadSystemContents` runs to its
end, the objects it adds to the system are, in document order, one component of
the declared type per child of `objects` named `component` and one component
system per child named `system` (children with any other name are ignored), and
the `connect` calls it makes on the system are, in document order, one per child
of `connections` named `connect`, with the values of the attributes
`startcomponent`, `startport`, `endcomponent`, `endport` of that child; it adds
nothing to and connects nothing on any other system that existed before. -/
theorem loader_materialises_declared (E : HopsanEssentials) (pSysNode : XmlNode)
    (pSystem created : Nat) (hp : pSystem < created) (hl : loadable E pSysNode = true) :
    (loadSystemContents E pSysNode pSystem created).aborted = none
    ∧ (addedTo pSystem (loadSystemContents E pSysNode pSystem created).calls).map
        Object.typeName = declaredObjects pSysNode
    ∧ connectsOf pSystem (loadSystemContents E pSysNode pSystem created).calls
        = declaredConnections pSysNode
    ∧ (∀ q, q < created → q ≠ pSystem →
        addedTo q (loadSystemContents E pSysNode pSystem created).calls = []
        ∧ connectsOf q (loadSystemContents E pSysNode pSystem created).calls = []) := by
  obtain ⟨_, _, c, d⟩ := (loader_trace E pSysNode).1 pSystem created
  exact ⟨(d hl).1, ((d hl).2 hp).1, ((d hl).2 hp).2,
    fun q hq hne => ⟨(c q hq hne).2, (c q hq hne).1⟩⟩

/-- C10 at the round-trip scenario: two components and one subsystem are added
to the root system, and two connections are made on it. -/
theorem loader_materialises_declared_witness :
    (loadSystemContents scenarioEssentials scenarioSystem 0 1).aborted = none
    ∧ (addedTo 0 (loadSystemContents scenarioEssentials scenarioSystem 0 1).calls).map
        Object.typeName
      = [some "HydraulicVolume", none, some "HydraulicLaminarOrifice"]
    ∧ connectsOf 0 (loadSystemContents scenarioEssentials scenarioSystem 0 1).calls
      = [("V1", "P1", "O1", "P1"), ("O1", "P2", "V1", "P2")] :=
  ⟨(loader_materialises_declared scenarioEssentials scenarioSystem 0 1
      (by decide) (by decide)).1,
    (loader_materialises_declared scenarioEssentials scenarioSystem 0 1
      (by decide) (by decide)).2.1,
    (loader_materialises_declared scenarioEssentials scenarioSystem 0 1
      (by decide) (by decide)).2.2.1⟩

/-! ## HMF loader: order of the stages -/

/-- A call of a sequence is a call of its first or of its second part. -/
theorem Trace.mem_andThen {R : Trace} {f : Nat → Trace} {c : Call}
    (h : c ∈ (R.andThen f).calls) : c ∈ R.calls ∨ c ∈ (f R.created).calls := by
  cases hab : R.aborted with
  | some x =>
    have hR : R.andThen f = R := by simp [Trace.andThen, hab]
    rw [hR] at h
    exact Or.inl h
  | none =>
    have hR : (R.andThen f).calls = R.calls ++ (f R.created).calls := by
      simp [Trace.andThen, hab]
    rw [hR] at h
    exact List.mem_append.mp h

/-- The calls of `loadSystemContents`: the timestep, the calls of the objects
loop and, unless that loop aborted, the connections and the system parameters. -/
theorem loadSystemContents_calls (E : HopsanEssentials) (pSysNode : XmlNode)
    (pSystem created : Nat) :
    (loadSystemContents E pSysNode pSystem created).calls
      = (match pSysNode.first_node "simulationtime" with
          | none => []
          | some pSimtimeNode =>
            Call.setDesiredTimestep pSystem
                (readDoubleAttribute E pSimtimeNode "timestep" (1 / 1000))
              :: ((loadFirstObjects E pSysNode.children pSystem created).calls
                ++ (if (loadFirstObjects E pSysNode.children pSystem created).aborted = none
                    then loadConnectionsAndParameters pSysNode pSystem else []))) := by
  obtain ⟨sysName, sysAttributes, sysChildren⟩ := pSysNode
  cases hsim : (XmlNode.mk sysName sysAttributes sysChildren).first_node "simulationtime" with
  | none => rw [loadSystemContents, hsim]
  | some pSimtimeNode =>
    rw [loadSystemContents, hsim]
    cases hab : (loadFirstObjects E sysChildren pSystem created).aborted with
    | some x => simp [Trace.andThen, hab, XmlNode.children]
    | none => simp [Trace.andThen, hab, XmlNode.children]

/-- The parameter loop of a component makes calls of stage 0 only. -/
theorem loadComponentParameters_stage (pComp q : Nat) (l : List XmlNode) :
    ∀ c ∈ loadComponentParameters pComp l, Call.stage q c = 0 := by
  induction l with
  | nil => intro c hc; cases hc
  | cons a l ih =>
    intro c hc
    by_cases h : a.name = "parameter"
    · simp only [loadComponentParameters, h, if_true, List.singleton_append,
        List.mem_cons] at hc
      rcases hc with hc | hc
      · rw [hc]; rfl
      · exact ih c hc
    · simp only [loadComponentParameters, h, if_false, List.nil_append] at hc
      exact ih c hc

/-- Loading a component makes calls of stage 0 only. -/
theorem loadComponent_stage (E : HopsanEssentials) (pObject : XmlNode)
    (pSystem created q : Nat) :
    ∀ c ∈ (loadComponent E pObject pSystem created).calls, Call.stage q c = 0 := by
  intro c hc
  cases hreg : E.createComponent (readStringAttribute pObject "typename" "ERROR_NO_TYPE_GIVEN") with
  | false =>
    simp only [loadComponent, hreg, Bool.false_eq_true, if_false, List.mem_singleton] at hc
    rw [hc]; rfl
  | true =>
    simp only [loadComponent, hreg, if_true, List.mem_append, List.mem_cons,
      List.mem_singleton, List.not_mem_nil, or_false] at hc
    rcases hc with (hc | hc | hc) | hc
    · rw [hc]; rfl
    · rw [hc]; rfl
    · rw [hc]; rfl
    · cases hpar : pObject.first_node "parameters" with
      | none => rw [hpar] at hc; cases hc
      | some pParams =>
        rw [hpar] at hc
        exact loadComponentParameters_stage created q pParams.children c hc

/-- The connection loop makes `connect` calls on its system only. -/
theorem loadConnections_stage (pSystem : Nat) (l : List XmlNode) :
    ∀ c ∈ loadConnections pSystem l,
      ∃ sc sp ec ep, c = Call.connect pSystem sc sp ec ep := by
  induction l with
  | nil => intro c hc; cases hc
  | cons a l ih =>
    intro c hc
    by_cases h : a.name = "connect"
    · simp only [loadConnections, h, if_true, List.singleton_append, List.mem_cons] at hc
      rcases hc with hc | hc
      · exact ⟨_, _, _, _, hc⟩
      · exact ih c hc
    · simp only [loadConnections, h, if_false, List.nil_append] at hc
      exact ih c hc

/-- The system parameter loop registers parameters on its system only. -/
theorem loadSystemParameters_stage (pSystem : Nat) (l : List XmlNode) :
    ∀ c ∈ loadSystemParameters pSystem l,
      ∃ n v t, c = Call.setSystemParameter pSystem n v t := by
  induction l with
  | nil => intro c hc; cases hc
  | cons a l ih =>
    intro c hc
    by_cases h : a.name = "parameter"
    · simp only [loadSystemParameters, h, if_true, List.singleton_append,
        List.mem_cons] at hc
      rcases hc with hc | hc
      · exact ⟨_, _, _, hc⟩
      · exact ih c hc
    · simp only [loadSystemParameters, h, if_false, List.nil_append] at hc
      exact ih c hc

/-- The part of `loadSystemContents` after the objects is a list of `connect`
calls on the system followed by a list of system parameters of the system. -/
theorem loadConnectionsAndParameters_split (pSysNode : XmlNode) (pSystem : Nat) :
    ∃ connectCalls parameterCalls,
      loadConnectionsAndParameters pSysNode pSystem = connectCalls ++ parameterCalls
      ∧ (∀ c ∈ connectCalls, ∃ sc sp ec ep, c = Call.connect pSystem sc sp ec ep)
      ∧ (∀ c ∈ parameterCalls, ∃ n v t, c = Call.setSystemParameter pSystem n v t) := by
  refine ⟨_, _, rfl, ?_, ?_⟩
  · intro c hc
    cases hcon : pSysNode.first_node "connections" with
    | none => rw [hcon] at hc; cases hc
    | some pConnections =>
      rw [hcon] at hc
      exact loadConnections_stage pSystem pConnections.children c hc
  · intro c hc
    cases hpar : pSysNode.first_node "parameters" with
    | none => rw [hpar] at hc; cases hc
    | some pParameters =>
      rw [hpar] at hc
      exact loadSystemParameters_stage pSystem pParameters.children c hc

/-- The objects loop makes no `connect` call and registers no system parameter
on a system that existed before it, and `loadSystemContents` makes none on an
older system other than its own. -/
theorem loader_object_stage (E : HopsanEssentials) (n : XmlNode) :
    (∀ pSystem created q, q < created → q ≠ pSystem →
        ∀ c ∈ (loadSystemContents E n pSystem created).calls, Call.stage q c = 0)
    ∧ (∀ pSystem created q, q < created →
        ∀ c ∈ (loadObjects E n.children pSystem created).calls, Call.stage q c = 0) := by
  refine @XmlNode.rec
    (fun n =>
      (∀ pSystem created q, q < created → q ≠ pSystem →
          ∀ c ∈ (loadSystemContents E n pSystem created).calls, Call.stage q c = 0)
      ∧ (∀ pSystem created q, q < created →
          ∀ c ∈ (loadObjects E n.children pSystem created).calls, Call.stage q c = 0))
    (fun l =>
      (∀ pSystem created q, q < created →
          ∀ c ∈ (loadObjects E l pSystem created).calls, Call.stage q c = 0)
      ∧ (∀ pSystem created q, q < created →
          ∀ c ∈ (loadFirstObjects E l pSystem created).calls, Call.stage q c = 0))
    ?_ ?_ ?_ n
  · -- a node, given the facts about its children
    intro sysName sysAttributes sysChildren ih
    refine ⟨?_, ih.1⟩
    intro pSystem created q hq hne c hc
    rw [loadSystemContents_calls] at hc
    cases hsim : (XmlNode.mk sysName sysAttributes sysChildren).first_node "simulationtime" with
    | none => rw [hsim] at hc; cases hc
    | some pSimtimeNode =>
      rw [hsim] at hc
      simp only [List.mem_cons, List.mem_append] at hc
      rcases hc with hc | hc | hc
      · rw [hc]; rfl
      · exact ih.2 pSystem created q hq c hc
      · by_cases hab : (loadFirstObjects E
            (XmlNode.mk sysName sysAttributes sysChildren).children pSystem created).aborted
            = none
        · rw [if_pos hab] at hc
          obtain ⟨cc, pc, hsplit, h1, h2⟩ := loadConnectionsAndParameters_split
            (XmlNode.mk sysName sysAttributes sysChildren) pSystem
          rw [hsplit] at hc
          have hne2 : ¬ pSystem = q := fun e => hne e.symm
          rcases List.mem_append.mp hc with hc | hc
          · obtain ⟨sc, sp, ec, ep, he⟩ := h1 c hc
            rw [he]
            simp [Call.stage, hne2]
          · obtain ⟨a, v, t, he⟩ := h2 c hc
            rw [he]
            simp [Call.stage, hne2]
        · rw [if_neg hab] at hc
          cases hc
  · -- no children
    refine ⟨?_, ?_⟩
    · intro pSystem created q _ c hc
      rw [loadObjects] at hc
      cases hc
    · intro pSystem created q _ c hc
      rw [loadFirstObjects] at hc
      cases hc
  · -- a first child and the children after it
    intro head tail ihHead ihTail
    refine ⟨?_, ?_⟩
    · intro pSystem created q hq c hc
      by_cases hcomp : head.name = "component"
      · rw [loadObjects, if_pos hcomp] at hc
        rcases Trace.mem_andThen hc with hc | hc
        · exact loadComponent_stage E head pSystem created q c hc
        · have hle := (loadComponent_trace E head pSystem created created).1
          exact ihTail.1 pSystem _ q (lt_of_lt_of_le hq hle) c hc
      · by_cases hsys : head.name = "system"
        · rw [loadObjects, if_neg hcomp, if_pos hsys] at hc
          rcases Trace.mem_andThen hc with hc | hc
          · rcases Trace.mem_andThen hc with hc | hc
            · simp only [List.mem_cons, List.mem_singleton, List.not_mem_nil,
                or_false] at hc
              rcases hc with hc | hc
              · rw [hc]; rfl
              · rw [hc]; rfl
            · have hq1 : q < created + 1 := by omega
              have hne : q ≠ created := by omega
              exact ihHead.1 created (created + 1) q hq1 hne c hc
          · have hle := (loadSubsystem_trace E head (loader_trace E head).1
              pSystem created).1
            exact ihTail.1 pSystem _ q (lt_of_lt_of_le hq hle) c hc
        · rw [loadObjects, if_neg hcomp, if_neg hsys] at hc
          rcases Trace.mem_andThen hc with hc | hc
          · cases hc
          · exact ihTail.1 pSystem created q hq c hc
    · intro pSystem created q hq c hc
      obtain ⟨childName, childAttributes, objects⟩ := head
      by_cases hobj : childName = "objects"
      · rw [loadFirstObjects, if_pos hobj] at hc
        exact ihHead.2 pSystem created q hq c hc
      · rw [loadFirstObjects, if_neg hobj] at hc
        exact ihTail.2 pSystem created q hq c hc

/-- The objects loop found through `first_node("objects")` makes calls of
stage 0 only, for every system that existed before it. -/
theorem loadFirstObjects_stage (E : HopsanEssentials) (pSysNode : XmlNode)
    (pSystem created q : Nat) (hq : q < created) :
    ∀ c ∈ (loadFirstObjects E pSysNode.children pSystem created).calls,
      Call.stage q c = 0 := by
  obtain ⟨sysName, sysAttributes, sysChildren⟩ := pSysNode
  show ∀ c ∈ (loadFirstObjects E sysChildren pSystem created).calls, Call.stage q c = 0
  rw [loadFirstObjects_first_node E pSystem created sysName sysAttributes sysChildren]
  cases hobj : (XmlNode.mk sysName sysAttributes sysChildren).first_node "objects" with
  | none => intro c hc; cases hc
  | some pObjects =>
    intro c hc
    exact (loader_object_stage E pObjects).2 pSystem created q hq c hc

/-- C11: loader stage order.  In the calls that `loadSystemContents` makes for
a system element, whatever the document order of its `objects`, `connections`
and `parameters` children, the stages never decrease: every `connect` call on
the system comes after every call of the objects stage (the timestep, the
creation, naming, parameters and adding of its components, the creation and
adding of its subsystems and all the calls of loading them), and every system
parameter of the system is registered after every `connect` call on it. -/
theorem loader_stage_order (E : HopsanEssentials) (pSysNode : XmlNode)
    (pSystem created : Nat) (hp : pSystem < created) :
    List.Pairwise (fun a b => Call.stage pSystem a ≤ Call.stage pSystem b)
      (loadSystemContents E pSysNode pSystem created).calls := by
  rw [loadSystemContents_calls]
  cases hsim : pSysNode.first_node "simulationtime" with
  | none => exact List.Pairwise.nil
  | some pSimtimeNode =>
    have hobj := loadFirstObjects_stage E pSysNode pSystem created pSystem hp
    have hfirst : ∀ c ∈ Call.setDesiredTimestep pSystem
          (readDoubleAttribute E pSimtimeNode "timestep" (1 / 1000))
        :: (loadFirstObjects E pSysNode.children pSystem created).calls,
        Call.stage pSystem c = 0 := by
      intro c hc
      rcases List.mem_cons.mp hc with hc | hc
      · rw [hc]; rfl
      · exact hobj c hc
    show List.Pairwise (fun a b => Call.stage pSystem a ≤ Call.stage pSystem b)
      ((Call.setDesiredTimestep pSystem
          (readDoubleAttribute E pSimtimeNode "timestep" (1 / 1000))
        :: (loadFirstObjects E pSysNode.children pSystem created).calls)
        ++ (if (loadFirstObjects E pSysNode.children pSystem created).aborted = none
            then loadConnectionsAndParameters pSysNode pSystem else []))
    rw [List.pairwise_append]
    refine ⟨?_, ?_, ?_⟩
    · apply List.pairwise_of_forall_mem_list
      intro a ha b _
      rw [hfirst a ha]
      exact Nat.zero_le _
    · by_cases hab : (loadFirstObjects E pSysNode.children pSystem created).aborted = none
      · rw [if_pos hab]
        obtain ⟨cc, pc, hsplit, h1, h2⟩ :=
          loadConnectionsAndParameters_split pSysNode pSystem
        rw [hsplit, List.pairwise_append]
        refine ⟨?_, ?_, ?_⟩
        · apply List.pairwise_of_forall_mem_list
          intro a ha b hb
          obtain ⟨_, _, _, _, ea⟩ := h1 a ha
          obtain ⟨_, _, _, _, eb⟩ := h1 b hb
          rw [ea, eb]
          simp [Call.stage]
        · apply List.pairwise_of_forall_mem_list
          intro a ha b hb
          obtain ⟨_, _, _, ea⟩ := h2 a ha
          obtain ⟨_, _, _, eb⟩ := h2 b hb
          rw [ea, eb]
          simp [Call.stage]
        · intro a ha b hb
          obtain ⟨_, _, _, _, ea⟩ := h1 a ha
          obtain ⟨_, _, _, eb⟩ := h2 b hb
          rw [ea, eb]
          simp [Call.stage]
      · rw [if_neg hab]
        exact List.Pairwise.nil
    · intro a ha b _
      rw [hfirst a ha]
      exact Nat.zero_le _

/-- C11 at the round-trip scenario, whose `parameters` child precedes its
`objects` and `connections` children: fifteen calls of the objects stage, then
the two connections, then the system parameter. -/
theorem loader_stage_order_witness :
    List.Pairwise (fun a b => Call.stage 0 a ≤ Call.stage 0 b)
        (loadSystemContents scenarioEssentials scenarioSystem 0 1).calls
    ∧ (loadSystemContents scenarioEssentials scenarioSystem 0 1).calls.map (Call.stage 0)
      = [0, 0, 0, 0, 0, 0, 0, 0, 0, 0, 0, 0, 0, 0, 0, 1, 1, 2] :=
  ⟨loader_stage_order scenarioEssentials scenarioSystem 0 1 (by decide), by decide⟩

/-! ## HMF loader: order within the objects loop -/

/-- Sequencing is associative. -/
theorem Trace.andThen_assoc (R : Trace) (f g : Nat → Trace) :
    (R.andThen f).andThen g = R.andThen (fun c => (f c).andThen g) := by
  cases hab : R.aborted with
  | some x => simp [Trace.andThen, hab]
  | none =>
    cases hfa : (f R.created).aborted with
    | some y => simp [Trace.andThen, hab, hfa]
    | none => simp [Trace.andThen, hab, hfa]

/-- Doing nothing first changes nothing. -/
theorem Trace.skip_andThen (created : Nat) (f : Nat → Trace) :
    Trace.andThen ⟨[], created, none⟩ f = f created := by
  simp [Trace.andThen]

/-- The objects loop over a list of children is the loop over its first part
followed by the loop over the rest. -/
theorem loadObjects_append (E : HopsanEssentials) (l1 l2 : List XmlNode) :
    ∀ pSystem created, loadObjects E (l1 ++ l2) pSystem created
      = (loadObjects E l1 pSystem created).andThen
          (fun c => loadObjects E l2 pSystem c) := by
  induction l1 with
  | nil =>
    intro pSystem created
    rw [List.nil_append, loadObjects, Trace.skip_andThen]
  | cons a l1 ih =>
    intro pSystem created
    have hih : (fun c => loadObjects E (l1 ++ l2) pSystem c)
        = (fun c => (loadObjects E l1 pSystem c).andThen
            (fun c => loadObjects E l2 pSystem c)) := funext (fun c => ih pSystem c)
    rw [List.cons_append, loadObjects, hih, ← Trace.andThen_assoc]
    rw [loadObjects]

/-- C12 as stated fails: in a system whose `objects` element lists a subsystem
before a component, the loader recurses into the subsystem (its first call, the
timestep of the new system 1, is call 3, and the component of the subsystem is
created at call 4) before it instantiates the component child of the same
`objects` element (call 7) and sets its parameter (call 10). -/
theorem loader_recurses_before_later_component :
    (loadSystemContents scenarioEssentials scenarioSubsystemFirst 0 1).calls.get? 3
        = some (Call.setDesiredTimestep 1 (1 / 1000))
    ∧ (loadSystemContents scenarioEssentials scenarioSubsystemFirst 0 1).calls.get? 4
        = some (Call.createComponent "SignalSquareWave" (some 2))
    ∧ (loadSystemContents scenarioEssentials scenarioSubsystemFirst 0 1).calls.get? 7
        = some (Call.createComponent "HydraulicVolume" (some 3))
    ∧ (loadSystemContents scenarioEssentials scenarioSubsystemFirst 0 1).calls.get? 10
        = some (Call.setParameterValue 3 "V" "0.002") :=
  ⟨rfl, rfl, rfl, rfl⟩

/-- C12 (amended): the objects loop handles the children of `objects` in
document order.  For a child named `component`, the calls of the loop are the
calls for the children before it (components and subsystems alike, the
subsystems loaded to their end), then the calls of `loadComponent` for this
child (its creation, naming, adding and parameters), then the calls for the
children after it: the component is instantiated and its parameters are set
before the loader recurses into any subsystem child that follows it. -/
theorem loader_objects_in_document_order (E : HopsanEssentials)
    (before after : List XmlNode) (pObject : XmlNode) (pSystem created : Nat)
    (hcomp : pObject.name = "component") :
    loadObjects E (before ++ pObject :: after) pSystem created
      = (loadObjects E before pSystem created).andThen
          (fun c => (loadComponent E pObject pSystem c).andThen
            (fun c => loadObjects E after pSystem c)) := by
  rw [loadObjects_append]
  have h : (fun c => loadObjects E (pObject :: after) pSystem c)
      = (fun c => (loadComponent E pObject pSystem c).andThen
          (fun c => loadObjects E after pSystem c)) := by
    funext c
    rw [loadObjects, if_pos hcomp]
  rw [h]

/-- C12 (amended) at the scenario with a subsystem before a component. -/
theorem loader_objects_in_document_order_witness :
    loadObjects scenarioEssentials ([scenarioSubsystemChild] ++ scenarioComponentChild :: [])
        0 1
      = (loadObjects scenarioEssentials [scenarioSubsystemChild] 0 1).andThen
          (fun c => (loadComponent scenarioEssentials scenarioComponentChild 0 c).andThen
            (fun c => loadObjects scenarioEssentials [] 0 c)) :=
  loader_objects_in_document_order scenarioEssentials [scenarioSubsystemChild] []
    scenarioComponentChild 0 1 rfl

/-! ## HMF loader: missing attributes -/

/-- Reading an absent string attribute gives the default. -/
theorem readStringAttribute_absent (pNode : XmlNode) (attrName defaultValue : String)
    (h : pNode.first_attribute attrName = none) :
    readStringAttribute pNode attrName defaultValue = defaultValue := by
  simp [readStringAttribute, h]

/-- C13 as stated fails: for a component element with type name
`HydraulicVolume` and no `name` attribute, the name handed to `setName` is the
type name `HydraulicVolume`, which does not begin with `ERROR_NO`. -/
theorem loader_missing_name_is_not_sentinel :
    scenarioUnnamedComponent.first_attribute "name" = none
    ∧ (loadComponent scenarioEssentials scenarioUnnamedComponent 0 1).calls.get? 1
        = some (Call.setName 1 "HydraulicVolume")
    ∧ isSentinel "HydraulicVolume" = false :=
  ⟨rfl, rfl, by decide⟩

/-- C13 (amended): every string attribute the loader reads from a component,
parameter or connect element, except the component `name`, defaults to a
sentinel beginning with `ERROR_NO` when it is absent: the `typename` handed to
`createComponent`, the name and value of a component parameter, the name, value
and type of a system parameter, and the four arguments of `connect`.  An absent
component `name` defaults to the type name of the component. -/
theorem loader_missing_attribute_defaults (E : HopsanEssentials) (pNode : XmlNode)
    (pSystem created pComp : Nat) (rest : List XmlNode) :
    (pNode.first_attribute "typename" = none →
      (loadComponent E pNode pSystem created).calls.head?
        = some (Call.createComponent "ERROR_NO_TYPE_GIVEN"
            (if E.createComponent "ERROR_NO_TYPE_GIVEN" then some created else none)))
    ∧ (pNode.first_attribute "name" = none →
      E.createComponent (readStringAttribute pNode "typename" "ERROR_NO_TYPE_GIVEN") = true →
      (loadComponent E pNode pSystem created).calls.get? 1
        = some (Call.setName created
            (readStringAttribute pNode "typename" "ERROR_NO_TYPE_GIVEN")))
    ∧ (pNode.name = "parameter" → pNode.first_attribute "name" = none →
      loadComponentParameters pComp (pNode :: rest)
        = Call.setParameterValue pComp "ERROR_NO_PARAM_NAME_GIVEN"
            (readStringAttribute pNode "value" "ERROR_NO_PARAM_VALUE_GIVEN")
          :: loadComponentParameters pComp rest)
    ∧ (pNode.name = "parameter" → pNode.first_attribute "value" = none →
      loadComponentParameters pComp (pNode :: rest)
        = Call.setParameterValue pComp
            (readStringAttribute pNode "name" "ERROR_NO_PARAM_NAME_GIVEN")
            "ERROR_NO_PARAM_VALUE_GIVEN"
          :: loadComponentParameters pComp rest)
    ∧ (pNode.name = "parameter" → pNode.first_attribute "name" = none →
      loadSystemParameters pSystem (pNode :: rest)
        = Call.setSystemParameter pSystem "ERROR_NO_PARAM_NAME_GIVEN"
            (readStringAttribute pNode "value" "ERROR_NO_PARAM_VALUE_GIVEN")
            (readStringAttribute pNode "type" "ERROR_NO_PARAM_TYPE_GIVEN")
          :: loadSystemParameters pSystem rest)
    ∧ (pNode.name = "parameter" → pNode.first_attribute "value" = none →
      loadSystemParameters pSystem (pNode :: rest)
        = Call.setSystemParameter pSystem
            (readStringAttribute pNode "name" "ERROR_NO_PARAM_NAME_GIVEN")
            "ERROR_NO_PARAM_VALUE_GIVEN"
            (readStringAttribute pNode "type" "ERROR_NO_PARAM_TYPE_GIVEN")
          :: loadSystemParameters pSystem rest)
    ∧ (pNode.name = "parameter" → pNode.first_attribute "type" = none →
      loadSystemParameters pSystem (pNode :: rest)
        = Call.setSystemParameter pSystem
            (readStringAttribute pNode "name" "ERROR_NO_PARAM_NAME_GIVEN")
            (readStringAttribute pNode "value" "ERROR_NO_PARAM_VALUE_GIVEN")
            "ERROR_NO_PARAM_TYPE_GIVEN"
          :: loadSystemParameters pSystem rest)
    ∧ (pNode.first_attribute "startcomponent" = none →
      loadConnection pNode pSystem
        = Call.connect pSystem "ERROR_NOSTARTCOMPNAME_GIVEN"
            (readStringAttribute pNode "startport" "ERROR_NOSTARTPORTNAME_GIVEN")
            (readStringAttribute pNode "endcomponent" "ERROR_NOENDCOMPNAME_GIVEN")
            (readStringAttribute pNode "endport" "ERROR_NOENDPORTNAME_GIVEN"))
    ∧ (pNode.first_attribute "startport" = none →
      loadConnection pNode pSystem
        = Call.connect pSystem
            (readStringAttribute pNode "startcomponent" "ERROR_NOSTARTCOMPNAME_GIVEN")
            "ERROR_NOSTARTPORTNAME_GIVEN"
            (readStringAttribute pNode "endcomponent" "ERROR_NOENDCOMPNAME_GIVEN")
            (readStringAttribute pNode "endport" "ERROR_NOENDPORTNAME_GIVEN"))
    ∧ (pNode.first_attribute "endcomponent" = none →
      loadConnection pNode pSystem
        = Call.connect pSystem
            (readStringAttribute pNode "startcomponent" "ERROR_NOSTARTCOMPNAME_GIVEN")
            (readStringAttribute pNode "startport" "ERROR_NOSTARTPORTNAME_GIVEN")
            "ERROR_NOENDCOMPNAME_GIVEN"
            (readStringAttribute pNode "endport" "ERROR_NOENDPORTNAME_GIVEN"))
    ∧ (pNode.first_attribute "endport" = none →
      loadConnection pNode pSystem
        = Call.connect pSystem
            (readStringAttribute pNode "startcomponent" "ERROR_NOSTARTCOMPNAME_GIVEN")
            (readStringAttribute pNode "startport" "ERROR_NOSTARTPORTNAME_GIVEN")
            (readStringAttribute pNode "endcomponent" "ERROR_NOENDCOMPNAME_GIVEN")
            "ERROR_NOENDPORTNAME_GIVEN")
    ∧ (isSentinel "ERROR_NO_TYPE_GIVEN" = true
      ∧ isSentinel "ERROR_NO_PARAM_NAME_GIVEN" = true
      ∧ isSentinel "ERROR_NO_PARAM_VALUE_GIVEN" = true
      ∧ isSentinel "ERROR_NO_PARAM_TYPE_GIVEN" = true
      ∧ isSentinel "ERROR_NOSTARTCOMPNAME_GIVEN" = true
      ∧ isSentinel "ERROR_NOSTARTPORTNAME_GIVEN" = true
      ∧ isSentinel "ERROR_NOENDCOMPNAME_GIVEN" = true
      ∧ isSentinel "ERROR_NOENDPORTNAME_GIVEN" = true) := by
  refine ⟨?_, ?_, ?_, ?_, ?_, ?_, ?_, ?_, ?_, ?_, ?_, ?_⟩
  · intro h
    have ht := readStringAttribute_absent pNode "typename" "ERROR_NO_TYPE_GIVEN" h
    cases hreg : E.createComponent "ERROR_NO_TYPE_GIVEN" with
    | false => simp [loadComponent, ht, hreg]
    | true => simp [loadComponent, ht, hreg]
  · intro h hreg
    have hn := readStringAttribute_absent pNode "name"
      (readStringAttribute pNode "typename" "ERROR_NO_TYPE_GIVEN") h
    simp [loadComponent, hn, hreg]
  · intro hp h
    have hn := readStringAttribute_absent pNode "name" "ERROR_NO_PARAM_NAME_GIVEN" h
    simp [loadComponentParameters, hp, hn]
  · intro hp h
    have hn := readStringAttribute_absent pNode "value" "ERROR_NO_PARAM_VALUE_GIVEN" h
    simp [loadComponentParameters, hp, hn]
  · intro hp h
    have hn := readStringAttribute_absent pNode "name" "ERROR_NO_PARAM_NAME_GIVEN" h
    simp [loadSystemParameters, hp, hn]
  · intro hp h
    have hn := readStringAttribute_absent pNode "value" "ERROR_NO_PARAM_VALUE_GIVEN" h
    simp [loadSystemParameters, hp, hn]
  · intro hp h
    have hn := readStringAttribute_absent pNode "type" "ERROR_NO_PARAM_TYPE_GIVEN" h
    simp [loadSystemParameters, hp, hn]
  · intro h
    have hn := readStringAttribute_absent pNode "startcomponent"
      "ERROR_NOSTARTCOMPNAME_GIVEN" h
    simp [loadConnection, hn]
  · intro h
    have hn := readStringAttribute_absent pNode "startport" "ERROR_NOSTARTPORTNAME_GIVEN" h
    simp [loadConnection, hn]
  · intro h
    have hn := readStringAttribute_absent pNode "endcomponent" "ERROR_NOENDCOMPNAME_GIVEN" h
    simp [loadConnection, hn]
  · intro h
    have hn := readStringAttribute_absent pNode "endport" "ERROR_NOENDPORTNAME_GIVEN" h
    simp [loadConnection, hn]
  · decide

/-- C13 (amended) at a `connect` element without attributes: all four
arguments of the `connect` call are sentinels. -/
theorem loader_missing_attribute_defaults_witness :
    loadConnection (.mk "connect" [] []) 0
      = Call.connect 0 "ERROR_NOSTARTCOMPNAME_GIVEN" "ERROR_NOSTARTPORTNAME_GIVEN"
          "ERROR_NOENDCOMPNAME_GIVEN" "ERROR_NOENDPORTNAME_GIVEN" :=
  (loader_missing_attribute_defaults scenarioEssentials (.mk "connect" [] []) 0 1 0
    []).2.2.2.2.2.2.2.1 rfl

/-! ## loadHMFModel -/

/-- C14: `loadHMFModel` yields a root system only for a root element named
`hopsanmodelfile`, and does yield one for such a root whose `system` child can
be loaded to the end.  For every document whose root element has another name it
makes no engine call (it creates no component system), aborts, and returns no
model.  The start and stop times it reports are read from the `simulationtime`
child of the top-level system only, with defaults 0 and 2. -/
theorem loadHMFModel_root_and_times (E : HopsanEssentials) (doc pRootNode : XmlNode)
    (rStartTime rStopTime : ℚ) (created : Nat)
    (hroot : doc.children.head? = some pRootNode) :
    (pRootNode.name ≠ "hopsanmodelfile" →
      (loadHMFModel E doc rStartTime rStopTime created).calls = []
      ∧ (loadHMFModel E doc rStartTime rStopTime created).aborted = some Abort.assertFailed
      ∧ (loadHMFModel E doc rStartTime rStopTime created).pRootSystem = none)
    ∧ ((loadHMFModel E doc rStartTime rStopTime created).pRootSystem ≠ none →
      pRootNode.name = "hopsanmodelfile")
    ∧ (∀ pSysNode pSimtimeNode, pRootNode.name = "hopsanmodelfile" →
      pRootNode.first_node "system" = some pSysNode →
      pSysNode.first_node "simulationtime" = some pSimtimeNode →
      ((loadHMFModel E doc rStartTime rStopTime created).rStartTime
          = (match pSimtimeNode.first_attribute "start" with
              | some value => E.atof value
              | none => 0)
        ∧ (loadHMFModel E doc rStartTime rStopTime created).rStopTime
          = (match pSimtimeNode.first_attribute "stop" with
              | some value => E.atof value
              | none => 2)
        ∧ (loadable E pSysNode = true →
          (loadHMFModel E doc rStartTime rStopTime created).pRootSystem = some created
          ∧ (loadHMFModel E doc rStartTime rStopTime created).aborted = none
          ∧ (loadHMFModel E doc rStartTime rStopTime created).calls.head?
            = some (Call.createComponentSystem created)))) := by
  refine ⟨?_, ?_, ?_⟩
  · intro hname
    simp [loadHMFModel, hroot, hname]
  · intro hsome
    by_contra hname
    apply hsome
    simp [loadHMFModel, hroot, hname]
  · intro pSysNode pSimtimeNode hname hsys hsim
    refine ⟨?_, ?_, ?_⟩
    · simp [loadHMFModel, hroot, hname, hsys, hsim, readDoubleAttribute]
    · simp [loadHMFModel, hroot, hname, hsys, hsim, readDoubleAttribute]
    · intro hl
      have hrun := ((loader_trace E pSysNode).1 created (created + 1)).2.2.2 hl
      simp [loadHMFModel, hroot, hname, hsys, hsim, hrun.1]

/-- C14 at the round-trip scenario: the root system 0 is returned, with start
time 0 and stop time 2 of the top-level `simulationtime`; the caller passed in
start 5 and stop 7. -/
theorem loadHMFModel_root_and_times_witness :
    (loadHMFModel scenarioEssentials scenarioDocument 5 7 0).rStartTime = 0
    ∧ (loadHMFModel scenarioEssentials scenarioDocument 5 7 0).rStopTime = 2
    ∧ (loadHMFModel scenarioEssentials scenarioDocument 5 7 0).pRootSystem = some 0
    ∧ (loadHMFModel scenarioEssentials scenarioDocument 5 7 0).aborted = none :=
  ⟨((loadHMFModel_root_and_times scenarioEssentials scenarioDocument
      (.mk "hopsanmodelfile" [] [scenarioSystem]) 5 7 0 rfl).2.2 scenarioSystem
      (.mk "simulationtime" [("start", "0"), ("stop", "2"), ("timestep", "0.01")] [])
      rfl rfl rfl).1,
    ((loadHMFModel_root_and_times scenarioEssentials scenarioDocument
      (.mk "hopsanmodelfile" [] [scenarioSystem]) 5 7 0 rfl).2.2 scenarioSystem
      (.mk "simulationtime" [("start", "0"), ("stop", "2"), ("timestep", "0.01")] [])
      rfl rfl rfl).2.1,
    (((loadHMFModel_root_and_times scenarioEssentials scenarioDocument
      (.mk "hopsanmodelfile" [] [scenarioSystem]) 5 7 0 rfl).2.2 scenarioSystem
      (.mk "simulationtime" [("start", "0"), ("stop", "2"), ("timestep", "0.01")] [])
      rfl rfl rfl).2.2 (by decide)).1,
    (((loadHMFModel_root_and_times scenarioEssentials scenarioDocument
      (.mk "hopsanmodelfile" [] [scenarioSystem]) 5 7 0 rfl).2.2 scenarioSystem
      (.mk "simulationtime" [("start", "0"), ("stop", "2"), ("timestep", "0.01")] [])
      rfl rfl rfl).2.2 (by decide)).2.1⟩

/-- C15 (evaluation at the failing input): for a system whose first component
has the unregistered type `Unknown`, the load stops with a null dereference
right after `createComponent` has returned no component: two calls have been
made, nothing is added to the system and no connection is made, so the second
component and the connection of the document are never loaded. -/
theorem loader_stops_at_unknown_component_type :
    (loadSystemContents scenarioEssentials scenarioUnknownType 0 1).aborted
        = some Abort.nullDereference
    ∧ (loadSystemContents scenarioEssentials scenarioUnknownType 0 1).calls.length = 2
    ∧ (loadSystemContents scenarioEssentials scenarioUnknownType 0 1).calls.get? 1
        = some (Call.createComponent "Unknown" none)
    ∧ addedTo 0 (loadSystemContents scenarioEssentials scenarioUnknownType 0 1).calls = []
    ∧ connectsOf 0 (loadSystemContents scenarioEssentials scenarioUnknownType 0 1).calls
        = [] :=
  ⟨rfl, rfl, rfl, rfl, rfl⟩

/-! ## HopsanCLI -/

/-- C16: the command line runner never simulates an uninitialised model.
`main` calls `simulate(startTime, stopTime)` on a system if and only if the
command line was parsed, the load handed back that system as the root system,
and `initialize(startTime, stopTime)` of it returned true; the times are those
the load reported. -/
theorem main_simulates_iff_initialized (env : CliEnvironment) (argv : List String)
    (pRootSystem : Nat) (startTime stopTime : ℚ) :
    CliCall.simulate pRootSystem startTime stopTime ∈ (main env argv).calls
      ↔ ∃ hmfFilePath, env.parse argv = some hmfFilePath
          ∧ (env.loadHMFModel hmfFilePath 0 2).aborted = none
          ∧ (env.loadHMFModel hmfFilePath 0 2).pRootSystem = some pRootSystem
          ∧ env.initializeReturns pRootSystem (env.loadHMFModel hmfFilePath 0 2).rStartTime
              (env.loadHMFModel hmfFilePath 0 2).rStopTime = true
          ∧ startTime = (env.loadHMFModel hmfFilePath 0 2).rStartTime
          ∧ stopTime = (env.loadHMFModel hmfFilePath 0 2).rStopTime := by
  cases hparse : env.parse argv with
  | none => simp [main, hparse]
  | some hmfFilePath =>
    cases hab : (env.loadHMFModel hmfFilePath 0 2).aborted with
    | some x => simp [main, hparse, hab]
    | none =>
      cases hroot : (env.loadHMFModel hmfFilePath 0 2).pRootSystem with
      | none => simp [main, hparse, hab, hroot]
      | some p =>
        cases hinit : env.initializeReturns p (env.loadHMFModel hmfFilePath 0 2).rStartTime
            (env.loadHMFModel hmfFilePath 0 2).rStopTime with
        | false =>
          have hm : (main env argv).calls
              = [CliCall.loadExternalComponentLib env.defaultComponentLib,
                  CliCall.loadHMFModel hmfFilePath,
                  CliCall.initializeSystem p (env.loadHMFModel hmfFilePath 0 2).rStartTime
                    (env.loadHMFModel hmfFilePath 0 2).rStopTime] := by
            simp [main, hparse, hab, hroot, hinit]
          rw [hm]
          constructor
          · intro h
            simp at h
          · rintro ⟨path, hpath, _, hp, hi, _, _⟩
            injection hpath with e
            subst e
            rw [hroot] at hp
            injection hp with e2
            subst e2
            rw [hinit] at hi
            cases hi
        | true =>
          have hm : (main env argv).calls
              = [CliCall.loadExternalComponentLib env.defaultComponentLib,
                  CliCall.loadHMFModel hmfFilePath,
                  CliCall.initializeSystem p (env.loadHMFModel hmfFilePath 0 2).rStartTime
                    (env.loadHMFModel hmfFilePath 0 2).rStopTime,
                  CliCall.simulate p (env.loadHMFModel hmfFilePath 0 2).rStartTime
                    (env.loadHMFModel hmfFilePath 0 2).rStopTime] := by
            simp [main, hparse, hab, hroot, hinit]
          rw [hm]
          constructor
          · intro h
            simp at h
            obtain ⟨h1, h2, h3⟩ := h
            subst h1
            exact ⟨hmfFilePath, rfl, hab, hroot, hinit, h2, h3⟩
          · rintro ⟨path, hpath, _, hp, _, hs, he⟩
            injection hpath with e
            subst e
            rw [hroot] at hp
            injection hp with e2
            subst e2
            rw [hs, he]
            simp

/-- C17 as stated fails: when the scenario model loads and `initialize` returns
false, `main` calls `initialize`, does not simulate, and returns 0. -/
theorem main_returns_zero_when_initialize_fails :
    (main (scenarioCli false) ["model.hmf"]).exitCode = some 0
    ∧ (main (scenarioCli false) ["model.hmf"]).calls
      = [CliCall.loadExternalComponentLib
            "../componentLibraries/defaultLibrary/components/libdefaultComponentLibrary.so",
          CliCall.loadHMFModel "model.hmf",
          CliCall.initializeSystem 0 0 2] :=
  ⟨rfl, rfl⟩

/-- C17 (amended): `main` returns 0 whenever it returns: when the model loads,
initialises and simulates, and just as well when `initialize` returns false,
when the load hands back no system, and when the command line is rejected.  It
returns no other value; when the load aborts the process it does not return. -/
theorem main_exit_code (env : CliEnvironment) (argv : List String) :
    (main env argv).exitCode
      = (match env.parse argv with
          | none => some 0
          | some hmfFilePath =>
            if (env.loadHMFModel hmfFilePath 0 2).aborted = none then some 0 else none) := by
  cases hparse : env.parse argv with
  | none => simp [main, hparse]
  | some hmfFilePath =>
    cases hab : (env.loadHMFModel hmfFilePath 0 2).aborted with
    | some x => simp [main, hparse, hab]
    | none =>
      cases hroot : (env.loadHMFModel hmfFilePath 0 2).pRootSystem with
      | none => simp [main, hparse, hab, hroot]
      | some p =>
        cases hinit : env.initializeReturns p (env.loadHMFModel hmfFilePath 0 2).rStartTime
            (env.loadHMFModel hmfFilePath 0 2).rStopTime with
        | false => simp [main, hparse, hab, hroot, hinit]
        | true => simp [main, hparse, hab, hroot, hinit]

/-! ## SymHop: removeDuplicates -/

/-- One pass of the loop of `removeDuplicates`. -/
theorem SymHop.removeDuplicates_step {Expression : Type}
    (eq : Expression → Expression → Bool) (tempSet rest : List Expression)
    (item : Expression) :
    (item :: rest).foldl
        (fun tempSet item =>
          if !(contains eq tempSet item) then tempSet ++ [item] else tempSet) tempSet
      = rest.foldl
          (fun tempSet item =>
            if !(contains eq tempSet item) then tempSet ++ [item] else tempSet)
          (if !(contains eq tempSet item) then tempSet ++ [item] else tempSet) := rfl

/-- The loop of `removeDuplicates` extends `tempSet` by a sublist of the items
it visits, keeps the elements pairwise unequal, and leaves every visited item
either kept or equal to a kept element. -/
theorem SymHop.removeDuplicates_loop {Expression : Type}
    (eq : Expression → Expression → Bool) (rest : List Expression) :
    ∀ tempSet : List Expression,
      (∃ kept, rest.foldl
          (fun tempSet item =>
            if !(contains eq tempSet item) then tempSet ++ [item] else tempSet) tempSet
          = tempSet ++ kept ∧ kept.Sublist rest)
      ∧ (tempSet.Pairwise (fun a b => eq a b = false) →
          (rest.foldl
            (fun tempSet item =>
              if !(contains eq tempSet item) then tempSet ++ [item] else tempSet)
            tempSet).Pairwise (fun a b => eq a b = false))
      ∧ (∀ x ∈ rest,
          x ∈ rest.foldl
            (fun tempSet item =>
              if !(contains eq tempSet item) then tempSet ++ [item] else tempSet) tempSet
          ∨ ∃ y ∈ rest.foldl
              (fun tempSet item =>
                if !(contains eq tempSet item) then tempSet ++ [item] else tempSet) tempSet,
            eq y x = true) := by
  induction rest with
  | nil =>
    intro tempSet
    exact ⟨⟨[], by simp, List.Sublist.refl _⟩, fun h => h, fun x hx => by cases hx⟩
  | cons item rest ih =>
    intro tempSet
    rw [removeDuplicates_step]
    by_cases hc : contains eq tempSet item = true
    · have hstep : (if !(contains eq tempSet item) then tempSet ++ [item] else tempSet)
          = tempSet := by simp [hc]
      rw [hstep]
      obtain ⟨⟨kept, hk, hsub⟩, hpw, hrep⟩ := ih tempSet
      refine ⟨⟨kept, hk, hsub.cons item⟩, hpw, ?_⟩
      intro x hx
      rcases List.mem_cons.mp hx with hx | hx
      · right
        subst hx
        obtain ⟨y, hy, hyx⟩ := List.any_eq_true.mp hc
        exact ⟨y, by rw [hk]; exact List.mem_append_left _ hy, hyx⟩
      · exact hrep x hx
    · have hstep : (if !(contains eq tempSet item) then tempSet ++ [item] else tempSet)
          = tempSet ++ [item] := by simp [hc]
      rw [hstep]
      obtain ⟨⟨kept, hk, hsub⟩, hpw, hrep⟩ := ih (tempSet ++ [item])
      refine ⟨⟨item :: kept, by rw [hk]; simp, hsub.cons₂ item⟩, ?_, ?_⟩
      · intro hp
        apply hpw
        rw [List.pairwise_append]
        refine ⟨hp, List.pairwise_singleton _ _, ?_⟩
        intro a ha b hb
        rw [List.mem_singleton] at hb
        subst hb
        by_contra hne
        apply hc
        exact List.any_eq_true.mpr ⟨a, ha, by simpa using hne⟩
      · intro x hx
        rcases List.mem_cons.mp hx with hx | hx
        · left
          subst hx
          rw [hk]
          simp
        · exact hrep x hx

/-- The loop of `removeDuplicates` keeps a list whose elements are pairwise
unequal as it is. -/
theorem SymHop.removeDuplicates_loop_fixed {Expression : Type}
    (eq : Expression → Expression → Bool) (rest : List Expression) :
    ∀ tempSet : List Expression,
      (tempSet ++ rest).Pairwise (fun a b => eq a b = false) →
      rest.foldl
          (fun tempSet item =>
            if !(contains eq tempSet item) then tempSet ++ [item] else tempSet) tempSet
        = tempSet ++ rest := by
  induction rest with
  | nil => intro tempSet _; simp
  | cons item rest ih =>
    intro tempSet hp
    rw [removeDuplicates_step]
    have hc : contains eq tempSet item = false := by
      rw [Bool.eq_false_iff]
      intro hc
      obtain ⟨y, hy, hyx⟩ := List.any_eq_true.mp hc
      rw [List.pairwise_append] at hp
      have := hp.2.2 y hy item (List.mem_cons_self _ _)
      rw [hyx] at this
      cases this
    have hstep : (if !(contains eq tempSet item) then tempSet ++ [item] else tempSet)
        = tempSet ++ [item] := by simp [hc]
    rw [hstep, ih (tempSet ++ [item]) (by simpa using hp)]
    simp

/-- With an equality test that is equality, the loop of `removeDuplicates`
keeps the elements in the order of their first occurrence: `done` is the part
of the list already visited, of which `tempSet` holds exactly the elements. -/
theorem SymHop.removeDuplicates_loop_order {Expression : Type} [DecidableEq Expression]
    (eq : Expression → Expression → Bool) (heq : ∀ a b, eq a b = true ↔ a = b)
    (rest : List Expression) :
    ∀ done tempSet : List Expression,
      (∀ x, x ∈ tempSet ↔ x ∈ done) →
      tempSet.Pairwise
        (fun a b => (done ++ rest).indexOf a < (done ++ rest).indexOf b) →
      (rest.foldl
          (fun tempSet item =>
            if !(contains eq tempSet item) then tempSet ++ [item] else tempSet)
          tempSet).Pairwise
        (fun a b => (done ++ rest).indexOf a < (done ++ rest).indexOf b) := by
  induction rest with
  | nil => intro done tempSet _ hp; exact hp
  | cons item rest ih =>
    intro done tempSet hmem hp
    rw [removeDuplicates_step]
    have hassoc : done ++ item :: rest = (done ++ [item]) ++ rest := by simp
    by_cases hc : contains eq tempSet item = true
    · have hstep : (if !(contains eq tempSet item) then tempSet ++ [item] else tempSet)
          = tempSet := by simp [hc]
      rw [hstep, hassoc]
      apply ih (done ++ [item]) tempSet
      · intro x
        obtain ⟨y, hy, hyx⟩ := List.any_eq_true.mp hc
        have hitem : item ∈ tempSet := by
          rw [← (heq y item).mp hyx]; exact hy
        constructor
        · intro hx
          exact List.mem_append_left _ ((hmem x).mp hx)
        · intro hx
          rcases List.mem_append.mp hx with hx | hx
          · exact (hmem x).mpr hx
          · rw [List.mem_singleton] at hx
            rw [hx]; exact hitem
      · rw [← hassoc]; exact hp
    · have hstep : (if !(contains eq tempSet item) then tempSet ++ [item] else tempSet)
          = tempSet ++ [item] := by simp [hc]
      have hnot : item ∉ tempSet := by
        intro hin
        apply hc
        exact List.any_eq_true.mpr ⟨item, hin, (heq item item).mpr rfl⟩
      have hnd : item ∉ done := fun h => hnot ((hmem item).mpr h)
      rw [hstep, hassoc]
      apply ih (done ++ [item]) (tempSet ++ [item])
      · intro x
        simp only [List.mem_append, List.mem_singleton, hmem x]
      · rw [← hassoc, List.pairwise_append]
        refine ⟨hp, List.pairwise_singleton _ _, ?_⟩
        intro a ha b hb
        rw [List.mem_singleton] at hb
        subst hb
        have had : a ∈ done := (hmem a).mp ha
        rw [List.indexOf_append_of_mem had, List.indexOf_append_of_not_mem hnd,
          List.indexOf_cons_self]
        have := List.indexOf_lt_length.mpr had
        omega

/-- C20: `removeDuplicates` removes all duplicates.  With `eq a b` the outcome
of `a == b`: no element of the result equals a later one (nor an earlier one,
when `==` is symmetric); the result is a sublist of the input, and every element
of the input is kept or equals a kept element; applying it twice gives the same
list as applying it once.  When `==` is equality, the result has no repeated
element, has exactly the elements of the input, and lists them in the order
of their first occurrence in the input. -/
theorem removeDuplicates_removes_all_duplicates {Expression : Type}
    [DecidableEq Expression] (eq : Expression → Expression → Bool)
    (rSet : List Expression) :
    (SymHop.removeDuplicates eq rSet).Pairwise (fun a b => eq a b = false)
    ∧ ((∀ a b, eq a b = eq b a) →
        (SymHop.removeDuplicates eq rSet).Pairwise
          (fun a b => eq a b = false ∧ eq b a = false))
    ∧ (SymHop.removeDuplicates eq rSet).Sublist rSet
    ∧ (∀ x ∈ rSet, x ∈ SymHop.removeDuplicates eq rSet
        ∨ ∃ y ∈ SymHop.removeDuplicates eq rSet, eq y x = true)
    ∧ SymHop.removeDuplicates eq (SymHop.removeDuplicates eq rSet)
        = SymHop.removeDuplicates eq rSet
    ∧ ((∀ a b, eq a b = true ↔ a = b) →
        (SymHop.removeDuplicates eq rSet).Nodup
        ∧ (∀ x, x ∈ SymHop.removeDuplicates eq rSet ↔ x ∈ rSet)
        ∧ (SymHop.removeDuplicates eq rSet).Pairwise
            (fun a b => rSet.indexOf a < rSet.indexOf b)) := by
  obtain ⟨⟨kept, hk, hsub⟩, hpw, hrep⟩ := SymHop.removeDuplicates_loop eq rSet []
  have hp : (SymHop.removeDuplicates eq rSet).Pairwise (fun a b => eq a b = false) :=
    hpw List.Pairwise.nil
  have hs : (SymHop.removeDuplicates eq rSet).Sublist rSet := by
    show (rSet.foldl _ []).Sublist rSet
    rw [hk]
    simpa using hsub
  refine ⟨hp, ?_, hs, hrep, ?_, ?_⟩
  · intro hsymm
    exact hp.imp (fun {a b} h => ⟨h, by rw [← hsymm a b]; exact h⟩)
  · have := SymHop.removeDuplicates_loop_fixed eq (SymHop.removeDuplicates eq rSet) []
      (by simpa using hp)
    simpa [SymHop.removeDuplicates] using this
  · intro heq
    refine ⟨?_, ?_, ?_⟩
    · exact hp.imp (fun {a b} h hab => by
        rw [(heq a b).mpr hab] at h
        cases h)
    · intro x
      constructor
      · intro hx
        exact hs.subset hx
      · intro hx
        rcases hrep x hx with h | ⟨y, hy, hyx⟩
        · exact h
        · rw [← (heq y x).mp hyx]; exact hy
    · have := SymHop.removeDuplicates_loop_order eq heq rSet [] []
        (fun x => Iff.rfl) List.Pairwise.nil
      simpa [SymHop.removeDuplicates] using this

/-- C20 at the list 3, 1, 3, 2, 1 with equality of numbers as `==`: the result
is 3, 1, 2. -/
theorem removeDuplicates_removes_all_duplicates_witness :
    (SymHop.removeDuplicates (fun a b : Nat => decide (a = b)) [3, 1, 3, 2, 1]).Nodup
    ∧ SymHop.removeDuplicates (fun a b : Nat => decide (a = b)) [3, 1, 3, 2, 1] = [3, 1, 2] :=
  ⟨((removeDuplicates_removes_all_duplicates (fun a b : Nat => decide (a = b))
      [3, 1, 3, 2, 1]).2.2.2.2.2 (fun a b => by simp)).1, by decide⟩

/-! ## SymHop: findPath -/

/-- The loop of `findPath` over the entries of one level.  `pre` holds the
entries of the level tried before, none of which starts a path; `hnext` states
what the recursive call does for the levels after this one.  The loop returns
true with the first entry that starts a path, followed by the first path of the
later levels, and false, with `order` as it was, when no entry starts a path. -/
theorem SymHop.findPathLoop_spec {α : Type} [DecidableEq α]
    (next : List α → Bool × List α) (levels : List (List α))
    (hnext : ∀ order : List α, order.Nodup →
      ((next order).1 = true → ∃ ext, (next order).2 = order ++ ext
        ∧ List.Forall₂ (fun x candidates => x ∈ candidates) ext levels
        ∧ (order ++ ext).Nodup
        ∧ ∀ q, List.Forall₂ (fun x candidates => x ∈ candidates) q levels →
            (order ++ q).Nodup → q = ext ∨ LexBefore levels ext q)
      ∧ ((next order).1 = false → (next order).2 = order
        ∧ ∀ q, List.Forall₂ (fun x candidates => x ∈ candidates) q levels →
            ¬ (order ++ q).Nodup))
    (rest : List α) :
    ∀ pre order : List α, order.Nodup →
      (∀ y ∈ pre, ∀ q, List.Forall₂ (fun x candidates => x ∈ candidates) q levels →
        ¬ (order ++ y :: q).Nodup) →
      ((findPathLoop next rest order).1 = true →
        ∃ x ext, (findPathLoop next rest order).2 = order ++ x :: ext
          ∧ x ∈ rest
          ∧ List.Forall₂ (fun x candidates => x ∈ candidates) ext levels
          ∧ (order ++ x :: ext).Nodup
          ∧ ∀ y q, y ∈ pre ++ rest →
              List.Forall₂ (fun x candidates => x ∈ candidates) q levels →
              (order ++ y :: q).Nodup →
              y :: q = x :: ext ∨ LexBefore ((pre ++ rest) :: levels) (x :: ext) (y :: q))
      ∧ ((findPathLoop next rest order).1 = false →
        (findPathLoop next rest order).2 = order
        ∧ ∀ y q, y ∈ pre ++ rest →
            List.Forall₂ (fun x candidates => x ∈ candidates) q levels →
            ¬ (order ++ y :: q).Nodup) := by
  induction rest with
  | nil =>
    intro pre order _ hpre
    refine ⟨?_, ?_⟩
    · intro h
      simp [findPathLoop] at h
    · intro _
      refine ⟨by simp [findPathLoop], ?_⟩
      intro y q hy hq
      rw [List.append_nil] at hy
      exact hpre y hy q hq
  | cons x rest ih =>
    intro pre order hnd hpre
    have hassoc : pre ++ x :: rest = (pre ++ [x]) ++ rest := by simp
    by_cases hx : x ∈ order
    · -- the entry is in `order` already
      have hloop : findPathLoop next (x :: rest) order = findPathLoop next rest order := by
        simp [findPathLoop, hx]
      have hpre2 : ∀ y ∈ pre ++ [x], ∀ q,
          List.Forall₂ (fun x candidates => x ∈ candidates) q levels →
          ¬ (order ++ y :: q).Nodup := by
        intro y hy q hq
        rcases List.mem_append.mp hy with hy | hy
        · exact hpre y hy q hq
        · rw [List.mem_singleton] at hy
          subst hy
          intro hn
          rw [List.nodup_append] at hn
          exact hn.2.2 hx (List.mem_cons_self _ _)
      obtain ⟨ih1, ih2⟩ := ih (pre ++ [x]) order hnd hpre2
      rw [hloop, hassoc]
      refine ⟨?_, ih2⟩
      intro h
      obtain ⟨x2, ext, e1, e2, e3, e4, e5⟩ := ih1 h
      exact ⟨x2, ext, e1, List.mem_cons_of_mem _ e2, e3, e4, e5⟩
    · have hnd2 : (order ++ [x]).Nodup := by
        rw [List.nodup_append]
        refine ⟨hnd, List.nodup_singleton x, ?_⟩
        intro a ha hb
        rw [List.mem_singleton] at hb
        subst hb
        exact hx ha
      obtain ⟨n1, n2⟩ := hnext (order ++ [x]) hnd2
      cases hres : (next (order ++ [x])).1 with
      | true =>
        -- the recursive call found a path
        have hloop : findPathLoop next (x :: rest) order
            = (true, (next (order ++ [x])).2) := by
          simp [findPathLoop, hx, hres]
        obtain ⟨ext, e1, e2, e3, e4⟩ := n1 hres
        have e1b : (next (order ++ [x])).2 = order ++ x :: ext := by
          rw [e1]; simp
        have e3b : (order ++ x :: ext).Nodup := by
          have : order ++ x :: ext = (order ++ [x]) ++ ext := by simp
          rw [this]; exact e3
        rw [hloop]
        refine ⟨?_, ?_⟩
        · intro _
          refine ⟨x, ext, e1b, List.mem_cons_self _ _, e2, e3b, ?_⟩
          intro y q hy hq hn
          have hypre : y ∉ pre := fun h => hpre y h q hq hn
          have hxpre : x ∉ pre := fun h => hpre x h ext e2 e3b
          by_cases hyx : y = x
          · subst hyx
            have hn2 : ((order ++ [y]) ++ q).Nodup := by
              have : (order ++ [y]) ++ q = order ++ y :: q := by simp
              rw [this]; exact hn
            rcases e4 q hq hn2 with h | h
            · left; rw [h]
            · right
              exact Or.inr ⟨rfl, h⟩
          · right
            left
            rw [List.indexOf_append_of_not_mem hxpre, List.indexOf_append_of_not_mem hypre,
              List.indexOf_cons_self, List.indexOf_cons_ne _ (fun h => hyx h.symm)]
            omega
        · intro h
          cases h
      | false =>
        -- the recursive call failed: the entry is removed again
        obtain ⟨f1, f2⟩ := n2 hres
        have hloop : findPathLoop next (x :: rest) order = findPathLoop next rest order := by
          simp [findPathLoop, hx, hres, f1]
        have hpre2 : ∀ y ∈ pre ++ [x], ∀ q,
            List.Forall₂ (fun x candidates => x ∈ candidates) q levels →
            ¬ (order ++ y :: q).Nodup := by
          intro y hy q hq
          rcases List.mem_append.mp hy with hy | hy
          · exact hpre y hy q hq
          · rw [List.mem_singleton] at hy
            subst hy
            have : order ++ y :: q = (order ++ [y]) ++ q := by simp
            rw [this]
            exact f2 q hq
        obtain ⟨ih1, ih2⟩ := ih (pre ++ [x]) order hnd hpre2
        rw [hloop, hassoc]
        refine ⟨?_, ih2⟩
        intro h
        obtain ⟨x2, ext, e1, e2, e3, e4, e5⟩ := ih1 h
        exact ⟨x2, ext, e1, List.mem_cons_of_mem _ e2, e3, e4, e5⟩

/-- What `findPath` does on the levels still to be filled, for an `order`
without repetition: it returns true with `order` extended by the first path in
list order that avoids the entries of `order`, and false, with `order` as it
was, when there is no such path. -/
theorem SymHop.findPathLevels_spec {α : Type} [DecidableEq α] (levels : List (List α)) :
    ∀ order : List α, order.Nodup →
      ((findPathLevels levels order).1 = true →
        ∃ ext, (findPathLevels levels order).2 = order ++ ext
          ∧ List.Forall₂ (fun x candidates => x ∈ candidates) ext levels
          ∧ (order ++ ext).Nodup
          ∧ ∀ q, List.Forall₂ (fun x candidates => x ∈ candidates) q levels →
              (order ++ q).Nodup → q = ext ∨ LexBefore levels ext q)
      ∧ ((findPathLevels levels order).1 = false →
        (findPathLevels levels order).2 = order
        ∧ ∀ q, List.Forall₂ (fun x candidates => x ∈ candidates) q levels →
            ¬ (order ++ q).Nodup) := by
  induction levels with
  | nil =>
    intro order hnd
    refine ⟨?_, ?_⟩
    · intro _
      refine ⟨[], by simp [findPathLevels], List.Forall₂.nil, by simpa using hnd, ?_⟩
      intro q hq _
      left
      exact List.forall₂_nil_right_iff.mp hq
    · intro h
      simp [findPathLevels] at h
  | cons candidates levels ih =>
    intro order hnd
    obtain ⟨l1, l2⟩ := findPathLoop_spec (findPathLevels levels) levels ih candidates []
      order hnd (fun y hy => by cases hy)
    have hdef : findPathLevels (candidates :: levels) order
        = findPathLoop (findPathLevels levels) candidates order := rfl
    rw [hdef]
    refine ⟨?_, ?_⟩
    · intro h
      obtain ⟨x, ext, e1, e2, e3, e4, e5⟩ := l1 h
      refine ⟨x :: ext, e1, List.Forall₂.cons e2 e3, e4, ?_⟩
      intro q hq hn
      obtain ⟨y, q2, hy, hq2, hqe⟩ := List.forall₂_cons_right_iff.mp hq
      subst hqe
      exact e5 y q2 (by simpa using hy) hq2 hn
    · intro h
      obtain ⟨f1, f2⟩ := l2 h
      refine ⟨f1, ?_⟩
      intro q hq
      obtain ⟨y, q2, hy, hq2, hqe⟩ := List.forall₂_cons_right_iff.mp hq
      subst hqe
      exact f2 y q2 (by simpa using hy) hq2

/-- C19: `findPath` finds a path through the dependencies whenever one exists.
Called with an empty `order` and level 0 (the embedding is a total function: the
recursion goes down the levels and the loop down the entries of a level), it
returns true exactly when there is a path, that is a choice of pairwise
distinct entries, one from each list; when it returns true, `order` is such a
path, of the length of `dependencies`, and it is the first one in list order;
when it returns false, `order` is left empty. -/
theorem findPath_finds_first_path {α : Type} [DecidableEq α]
    (dependencies : List (List α)) :
    ((SymHop.findPath [] dependencies 0).1 = true
        ↔ ∃ path, SymHop.IsPath dependencies path)
    ∧ ((SymHop.findPath [] dependencies 0).1 = true →
        SymHop.IsPath dependencies (SymHop.findPath [] dependencies 0).2
        ∧ (SymHop.findPath [] dependencies 0).2.length = dependencies.length
        ∧ ∀ q, SymHop.IsPath dependencies q →
            q = (SymHop.findPath [] dependencies 0).2
            ∨ SymHop.LexBefore dependencies (SymHop.findPath [] dependencies 0).2 q)
    ∧ ((SymHop.findPath [] dependencies 0).1 = false →
        (SymHop.findPath [] dependencies 0).2 = []) := by
  obtain ⟨s1, s2⟩ := SymHop.findPathLevels_spec dependencies [] List.nodup_nil
  have hdef : SymHop.findPath [] dependencies 0 = SymHop.findPathLevels dependencies [] := by
    simp [SymHop.findPath]
  rw [hdef]
  have htrue : (SymHop.findPathLevels dependencies ([] : List α)).1 = true →
      SymHop.IsPath dependencies (SymHop.findPathLevels dependencies []).2
      ∧ (SymHop.findPathLevels dependencies ([] : List α)).2.length = dependencies.length
      ∧ ∀ q, SymHop.IsPath dependencies q →
          q = (SymHop.findPathLevels dependencies []).2
          ∨ SymHop.LexBefore dependencies (SymHop.findPathLevels dependencies []).2 q := by
    intro h
    obtain ⟨ext, e1, e2, e3, e4⟩ := s1 h
    rw [List.nil_append] at e1 e3
    rw [e1]
    refine ⟨⟨e2, e3⟩, e2.length_eq, ?_⟩
    intro q hq
    exact e4 q hq.1 (by simpa using hq.2)
  refine ⟨⟨fun h => ⟨_, (htrue h).1⟩, ?_⟩, htrue, fun h => (s2 h).1⟩
  rintro ⟨path, hp1, hp2⟩
  cases hres : (SymHop.findPathLevels dependencies ([] : List α)).1 with
  | true => rfl
  | false =>
    exfalso
    exact (s2 hres).2 path hp1 (by simpa using hp2)

/-- C19 at the dependencies (0, 1), (0), (1, 2): the first choice 0 for level 0
leads nowhere, and the path found is 1, 0, 2. -/
theorem findPath_finds_first_path_witness :
    SymHop.findPath ([] : List Nat) [[0, 1], [0], [1, 2]] 0 = (true, [1, 0, 2])
    ∧ SymHop.IsPath [[0, 1], [0], [1, 2]] [1, 0, 2] :=
  ⟨by decide,
    ((findPath_finds_first_path ([[0, 1], [0], [1, 2]] : List (List Nat))).2.1
      (by decide)).1⟩


/-! ## SymHop: sortEquationSystem -/

/-- An element of the Jacobian inside its bounds exists, and it is an element
of a row of the Jacobian. -/
theorem SymHop.jacobianAt_in_range {Expression : Type} (jacobian : List (List Expression))
    (n e v : Nat) (hrows : ∀ row ∈ jacobian, row.length = n) (he : e < jacobian.length)
    (hv : v < n) :
    ∃ row x, row ∈ jacobian ∧ x ∈ row ∧ jacobianAt jacobian e v = some x := by
  have hrow : jacobian[e] ∈ jacobian := List.getElem_mem he
  have hlen : v < (jacobian[e]).length := by rw [hrows _ hrow]; exact hv
  refine ⟨jacobian[e], (jacobian[e])[v], hrow, List.getElem_mem hlen, ?_⟩
  simp [jacobianAt, List.getElem?_eq_getElem he, List.getElem?_eq_getElem hlen]

/-- The column of the dependency tree for the variable `v` holds exactly the
visited equations whose Jacobian element for `v` is not the zero expression, and
it is built whenever every visited element exists. -/
theorem SymHop.dependencyColumn_spec {Expression : Type} (ops : ExpressionOps Expression)
    (jacobian : List (List Expression)) (v : Nat) (es : List Nat)
    (hex : ∀ e ∈ es, ∃ x, jacobianAt jacobian e v = some x) :
    ∃ column, dependencyColumn ops jacobian v es = some column
      ∧ ∀ e, e ∈ column ↔
          e ∈ es ∧ ∃ x, jacobianAt jacobian e v = some x ∧ ops.eq x ops.zero = false := by
  induction es with
  | nil => exact ⟨[], rfl, by simp⟩
  | cons e es ih =>
    obtain ⟨column, hc, hmem⟩ := ih (fun e1 h1 => hex e1 (List.mem_cons_of_mem _ h1))
    obtain ⟨x, hx⟩ := hex e (List.mem_cons_self _ _)
    refine ⟨if !(ops.eq x ops.zero) then e :: column else column,
      by simp only [dependencyColumn, hx, hc], ?_⟩
    intro e1
    cases hz : ops.eq x ops.zero with
    | false =>
      simp only [Bool.not_false, if_true, List.mem_cons, hmem]
      constructor
      · rintro (h | h)
        · subst h
          exact ⟨Or.inl rfl, x, hx, hz⟩
        · exact ⟨Or.inr h.1, h.2⟩
      · rintro ⟨h | h, h2⟩
        · exact Or.inl h
        · exact Or.inr ⟨h, h2⟩
    | true =>
      simp only [Bool.not_true, Bool.false_eq_true, if_false, List.mem_cons, hmem]
      constructor
      · rintro h
        exact ⟨Or.inr h.1, h.2⟩
      · rintro ⟨h | h, h2⟩
        · subst h
          obtain ⟨y, hy, hy2⟩ := h2
          rw [hx] at hy
          injection hy with hy
          subst hy
          rw [hz] at hy2
          cases hy2
        · exact ⟨h, h2⟩

/-- The dependency tree holds, for every visited variable, the equations whose
Jacobian element for that variable is not the zero expression, and it is built
whenever the Jacobian has `n` rows of `n` elements. -/
theorem SymHop.dependencyTree_spec {Expression : Type} (ops : ExpressionOps Expression)
    (jacobian : List (List Expression)) (n : Nat)
    (hJ : jacobian.length = n) (hrows : ∀ row ∈ jacobian, row.length = n)
    (vs : List Nat) (hvs : ∀ v ∈ vs, v < n) :
    ∃ dependencies, dependencyTree ops jacobian n vs = some dependencies
      ∧ List.Forall₂ (fun v column => ∀ e, e ∈ column ↔
          e < n ∧ ∃ x, jacobianAt jacobian e v = some x ∧ ops.eq x ops.zero = false)
        vs dependencies := by
  induction vs with
  | nil => exact ⟨[], rfl, List.Forall₂.nil⟩
  | cons v vs ih =>
    obtain ⟨dependencies, hd, hall⟩ := ih (fun v1 h1 => hvs v1 (List.mem_cons_of_mem _ h1))
    have hv : v < n := hvs v (List.mem_cons_self _ _)
    obtain ⟨column, hc, hmem⟩ := dependencyColumn_spec ops jacobian v (List.range n)
      (fun e he => by
        obtain ⟨_, x, _, _, hx⟩ := jacobianAt_in_range jacobian n e v hrows
          (by rw [hJ]; exact List.mem_range.mp he) hv
        exact ⟨x, hx⟩)
    refine ⟨column :: dependencies, by simp only [dependencyTree, hc, hd], ?_⟩
    refine List.Forall₂.cons ?_ hall
    intro e
    rw [hmem e, List.mem_range]

/-- The list sorted by `order` holds at every position the element of the old
list that `order` names there, and it is built whenever `order` names positions
of the old list only. -/
theorem SymHop.sortedBy_spec {β : Type} (list : List β) (order : List Nat)
    (horder : ∀ k ∈ order, k < list.length) :
    ∃ sorted, sortedBy list order = some sorted
      ∧ sorted.map some = order.map (fun k => list[k]?) := by
  induction order with
  | nil => exact ⟨[], rfl, rfl⟩
  | cons k ks ih =>
    obtain ⟨sorted, hs, hmap⟩ := ih (fun k1 h1 => horder k1 (List.mem_cons_of_mem _ h1))
    have hk : k < list.length := horder k (List.mem_cons_self _ _)
    refine ⟨list[k] :: sorted, ?_, ?_⟩
    · simp only [sortedBy, List.getElem?_eq_getElem hk, hs]
    · simp only [List.map_cons, hmap, List.getElem?_eq_getElem hk]

/-- A list without repetition of `n` numbers below `n` is a permutation of
`0, ..., n-1`. -/
theorem SymHop.perm_range_of_nodup (order : List Nat) (n : Nat) (hnd : order.Nodup)
    (hlt : ∀ k ∈ order, k < n) (hlen : order.length = n) : order.Perm (List.range n) := by
  apply List.Subperm.perm_of_length_le
  · exact List.subperm_of_subset hnd (fun k hk => List.mem_range.mpr (hlt k hk))
  · rw [List.length_range, hlen]

/-- A list sorted by a permutation of its positions is a permutation of the
list. -/
theorem SymHop.sorted_perm {β : Type} (list sorted : List β) (order : List Nat)
    (hperm : order.Perm (List.range list.length))
    (hmap : sorted.map some = order.map (fun k => list[k]?)) : sorted.Perm list := by
  have h1 : (List.range list.length).map (fun k => list[k]?) = list.map some := by
    apply List.ext_getElem?
    intro i
    by_cases hi : i < list.length
    · simp [List.getElem?_map, List.getElem?_range, hi, List.getElem?_eq_getElem hi]
    · have hi2 : list.length ≤ i := Nat.le_of_not_lt hi
      simp [List.getElem?_map, List.getElem?_eq_none, hi2]
  have h2 : (sorted.map some).Perm (list.map some) := by
    rw [hmap, ← h1]
    exact List.Perm.map _ hperm
  have h3 := List.Perm.filterMap id h2
  simpa [List.filterMap_map] using h3


/-- The debug loop at the head of `sortEquationSystem` returns when the Jacobian
has `n` rows of `n` elements and `toString()` returns for each of them. -/
theorem SymHop.printJacobianReturns_of_square {Expression : Type}
    (ops : ExpressionOps Expression) (jacobian : List (List Expression)) (n : Nat)
    (hJ : jacobian.length = n) (hrows : ∀ row ∈ jacobian, row.length = n)
    (hstr : ∀ row ∈ jacobian, ∀ x ∈ row, ops.toStringReturns x = true) :
    printJacobianReturns ops jacobian = true := by
  unfold printJacobianReturns
  rw [List.all_eq_true]
  intro i hi
  rw [List.all_eq_true]
  intro j hj
  rw [hJ] at hi hj
  obtain ⟨row, x, hrow, hx, hat⟩ := jacobianAt_in_range jacobian n i j hrows
    (by rw [hJ]; exact List.mem_range.mp hi) (List.mem_range.mp hj)
  rw [hat]
  exact hstr row hrow x hx

/-- What `sortEquationSystem` returns for a Jacobian of `n` rows of `n`
elements, `n` equations and `n` state variables, once its debug loop has
returned: either false with the system as it was, or true with the equations
and the rows of the Jacobian sorted by one permutation `order` of the positions,
each row `i` of the new Jacobian being an old row whose element `i` is not the
zero expression. -/
theorem SymHop.sortEquationSystem_spec {Expression : Type} (ops : ExpressionOps Expression)
    (s : EquationSystem Expression) (stateVars : List Expression) (n : Nat)
    (hE : s.equations.length = n) (hJ : s.jacobian.length = n)
    (hrows : ∀ row ∈ s.jacobian, row.length = n) (hV : stateVars.length = n)
    (hprint : printJacobianReturns ops s.jacobian = true) :
    sortEquationSystem ops s stateVars = some (false, s)
    ∨ ∃ order sortedEquations sortedJacobian,
        sortEquationSystem ops s stateVars
          = some (true, ⟨sortedEquations, sortedJacobian,
              sortLimited order 0 s.limitedVariableEquations,
              sortLimited order 0 s.limitedDerivativeEquations⟩)
        ∧ order.Perm (List.range n)
        ∧ sortedEquations.map some = order.map (fun k => s.equations[k]?)
        ∧ sortedJacobian.map some = order.map (fun k => s.jacobian[k]?)
        ∧ List.Forall₂ (fun k v => ∃ x, jacobianAt s.jacobian k v = some x
            ∧ ops.eq x ops.zero = false) order (List.range n) := by
  subst hV
  obtain ⟨dependencies, hd, hall⟩ := dependencyTree_spec ops s.jacobian _ hJ hrows
    (List.range stateVars.length) (fun v hv => List.mem_range.mp hv)
  have hfp : findPath [] dependencies 0 = findPathLevels dependencies [] := by
    simp [findPath]
  obtain ⟨ht, _⟩ := findPathLevels_spec dependencies [] List.nodup_nil
  cases hr : (findPathLevels dependencies ([] : List Nat)).1 with
  | false =>
    left
    simp only [sortEquationSystem, hprint, hd, hfp, hr, if_true, Bool.false_eq_true, if_false]
  | true =>
    right
    obtain ⟨order, ho, hpath, hnd, _⟩ := ht hr
    rw [List.nil_append] at ho hnd
    have hdiag : List.Forall₂ (fun k v => k < stateVars.length
        ∧ ∃ x, jacobianAt s.jacobian k v = some x ∧ ops.eq x ops.zero = false)
        order (List.range stateVars.length) := by
      rw [List.forall₂_iff_get]
      have h1 := List.forall₂_iff_get.mp hpath
      have h2 := List.forall₂_iff_get.mp hall
      refine ⟨h1.1.trans h2.1.symm, ?_⟩
      intro i hi1 hi2
      have hi3 : i < dependencies.length := by rw [← h1.1]; exact hi1
      exact (h2.2 i hi2 hi3 _).mp (h1.2 i hi1 hi3)
    have hlen : order.length = stateVars.length := by
      rw [hdiag.length_eq, List.length_range]
    have hlt : ∀ k ∈ order, k < stateVars.length := by
      intro k hk
      obtain ⟨i, hi, rfl⟩ := List.getElem_of_mem hk
      have hi2 : i < (List.range stateVars.length).length := by
        rw [List.length_range, ← hlen]; exact hi
      exact ((List.forall₂_iff_get.mp hdiag).2 i hi hi2).1
    obtain ⟨sortedEquations, hsE, hmE⟩ := sortedBy_spec s.equations order
      (fun k hk => by rw [hE]; exact hlt k hk)
    obtain ⟨sortedJacobian, hsJ, hmJ⟩ := sortedBy_spec s.jacobian order
      (fun k hk => by rw [hJ]; exact hlt k hk)
    refine ⟨order, sortedEquations, sortedJacobian, ?_,
      perm_range_of_nodup order _ hnd hlt hlen, hmE, hmJ, ?_⟩
    · simp only [sortEquationSystem, hprint, hd, hfp, hr, ho, hsE, hsJ, if_true]
    · exact hdiag.imp (fun _ _ h => h.2)

/-- Row `i` of a list of rows sorted by `order` is the old row that `order`
names at position `i`. -/
theorem SymHop.jacobianAt_sorted {Expression : Type}
    (jacobian sortedJacobian : List (List Expression)) (order : List Nat)
    (hmap : sortedJacobian.map some = order.map (fun k => jacobian[k]?))
    (i k : Nat) (hk : order[i]? = some k) (v : Nat) :
    jacobianAt sortedJacobian i v = jacobianAt jacobian k v := by
  have h1 : (sortedJacobian.map some)[i]? = (order.map (fun k => jacobian[k]?))[i]? := by
    rw [hmap]
  rw [List.getElem?_map, List.getElem?_map, hk] at h1
  unfold jacobianAt
  cases hrow : sortedJacobian[i]? with
  | none => rw [hrow] at h1; cases h1
  | some row =>
    rw [hrow] at h1
    simp only [Option.map_some'] at h1
    injection h1 with h1
    rw [← h1]


/-- C18: `sortEquationSystem` makes the diagonal of the Jacobian non-zero.  For
a Jacobian of `n` rows of `n` elements, `n` equations and `n` state variables:
if it returns true, then afterwards `jacobian[i][i]` exists and is not equal to
the zero expression for every `i < n`, the new equations are a permutation of
the old ones and the new rows a permutation of the old rows, and it is the same
permutation `order` of the positions for both (position `i` holds the old
element number `order[i]`); if it returns false, the equations, the Jacobian
and both lists of limited equations are unchanged; and it does return when
`toString()` returns for every element of the Jacobian, which its debug loop
prints. -/
theorem sortEquationSystem_diagonal_nonzero {Expression : Type}
    (ops : SymHop.ExpressionOps Expression) (s : SymHop.EquationSystem Expression)
    (stateVars : List Expression) (n : Nat)
    (hE : s.equations.length = n) (hJ : s.jacobian.length = n)
    (hrows : ∀ row ∈ s.jacobian, row.length = n) (hV : stateVars.length = n) :
    (∀ sorted, SymHop.sortEquationSystem ops s stateVars = some (true, sorted) →
      (∀ i, i < n →
        ∃ x, SymHop.jacobianAt sorted.jacobian i i = some x ∧ ops.eq x ops.zero = false)
      ∧ sorted.equations.Perm s.equations
      ∧ sorted.jacobian.Perm s.jacobian
      ∧ ∃ order : List Nat, order.Perm (List.range n)
          ∧ sorted.equations.map some = order.map (fun k => s.equations[k]?)
          ∧ sorted.jacobian.map some = order.map (fun k => s.jacobian[k]?))
    ∧ (∀ unsorted, SymHop.sortEquationSystem ops s stateVars = some (false, unsorted) →
        unsorted = s)
    ∧ ((∀ row ∈ s.jacobian, ∀ x ∈ row, ops.toStringReturns x = true) →
        (SymHop.sortEquationSystem ops s stateVars).isSome = true) := by
  have hnone : SymHop.printJacobianReturns ops s.jacobian = false →
      SymHop.sortEquationSystem ops s stateVars = none := by
    intro h
    simp only [SymHop.sortEquationSystem, h, Bool.false_eq_true, if_false]
  refine ⟨?_, ?_, ?_⟩
  · intro sorted hs
    cases hprint : SymHop.printJacobianReturns ops s.jacobian with
    | false => rw [hnone hprint] at hs; cases hs
    | true =>
      rcases SymHop.sortEquationSystem_spec ops s stateVars n hE hJ hrows hV hprint with
        h | ⟨order, sortedEquations, sortedJacobian, h, hperm, hmE, hmJ, hdiag⟩
      · rw [h] at hs
        injection hs with hs
        injection hs with hs _
        cases hs
      · rw [h] at hs
        injection hs with hs
        injection hs with _ hs
        subst hs
        refine ⟨?_, ?_, ?_, order, hperm, hmE, hmJ⟩
        · intro i hi
          have hl := List.forall₂_iff_get.mp hdiag
          have hi1 : i < order.length := by
            rw [hl.1, List.length_range]; exact hi
          have hi2 : i < (List.range n).length := by rw [List.length_range]; exact hi
          have := hl.2 i hi1 hi2
          rw [List.get_eq_getElem, List.get_eq_getElem, List.getElem_range] at this
          rw [SymHop.jacobianAt_sorted s.jacobian sortedJacobian order hmJ i order[i]
            (List.getElem?_eq_getElem hi1) i]
          exact this
        · exact SymHop.sorted_perm s.equations sortedEquations order (by rw [hE]; exact hperm)
            hmE
        · exact SymHop.sorted_perm s.jacobian sortedJacobian order (by rw [hJ]; exact hperm)
            hmJ
  · intro unsorted hs
    cases hprint : SymHop.printJacobianReturns ops s.jacobian with
    | false => rw [hnone hprint] at hs; cases hs
    | true =>
      rcases SymHop.sortEquationSystem_spec ops s stateVars n hE hJ hrows hV hprint with
        h | ⟨order, sortedEquations, sortedJacobian, h, _⟩
      · rw [h] at hs
        injection hs with hs
        injection hs with _ hs
        exact hs.symm
      · rw [h] at hs
        injection hs with hs
        injection hs with hs _
        cases hs
  · intro hstr
    have hprint := SymHop.printJacobianReturns_of_square ops s.jacobian n hJ hrows hstr
    rcases SymHop.sortEquationSystem_spec ops s stateVars n hE hJ hrows hV hprint with
      h | ⟨order, sortedEquations, sortedJacobian, h, _⟩
    · rw [h]; rfl
    · rw [h]; rfl

/-- C18 at a system of three equations whose Jacobian has zeros on the
diagonal: the call returns true with the first two equations and rows swapped,
a permutation of the old equations. -/
theorem sortEquationSystem_diagonal_nonzero_witness :
    SymHop.scenarioEquations.equations.length = 3
    ∧ SymHop.scenarioEquations.jacobian.length = 3
    ∧ SymHop.sortEquationSystem SymHop.scenarioOps SymHop.scenarioEquations [1, 2, 3]
        = some (true, ⟨[20, 10, 30], [[3, 0, 7], [0, 5, 0], [0, 0, 9]], [0], []⟩)
    ∧ List.Perm [20, 10, 30] SymHop.scenarioEquations.equations :=
  ⟨rfl, rfl, rfl,
    ((sortEquationSystem_diagonal_nonzero SymHop.scenarioOps SymHop.scenarioEquations
      [1, 2, 3] 3 rfl rfl (by decide) rfl).1
      ⟨[20, 10, 30], [[3, 0, 7], [0, 5, 0], [0, 0, 9]], [0], []⟩ rfl).2.1⟩


/-! ## SymHop: splitWithRespectToParentheses -/

/-- C22 (evaluation at the failing input): for the system of three equations
10, 20, 30 whose first two equations have to be swapped, with equation 0 in the
list of limited variables and equations 0 and 1 in the list of limited
derivatives, `sortEquationSystem` returns true with the equations 20, 10, 30 and
leaves the entry 0 of the limited variables at 0: round 0 of the loop turns it
into `order[0] = 1`, and round 1 turns that 1 into `order[1] = 0`.  The old
index 0 designated the equation 10; the new index 0 designates the equation
20.  Both limited derivatives end at the index 0. -/
theorem sortEquationSystem_limited_entry_designates_other_equation :
    SymHop.sortEquationSystem SymHop.scenarioOps SymHop.scenarioLimitedEquations [1, 2, 3]
      = some (true, ⟨[20, 10, 30], [[3, 0, 7], [0, 5, 0], [0, 0, 9]], [0], [0, 0]⟩)
    ∧ SymHop.scenarioLimitedEquations.limitedVariableEquations = [0]
    ∧ SymHop.designatedEquation SymHop.scenarioLimitedEquations.equations 0 = some 10
    ∧ SymHop.designatedEquation ([20, 10, 30] : List Int) 0 = some 20
    ∧ SymHop.scenarioLimitedEquations.limitedDerivativeEquations = [0, 1]
    ∧ SymHop.designatedEquation SymHop.scenarioLimitedEquations.equations 1 = some 20 :=
  ⟨rfl, rfl, rfl, rfl, rfl, rfl⟩


/-! ## SymHop: isEquation -/

/-- C23 (evaluation for every input): a call of `isEquation` does not return,
however many nested calls are followed, for every expression, whether it has a
left and a right side or not; and so a call of `isAssignment`, which starts by
calling it, does not return either. -/
theorem isEquation_never_returns {Expression : Type}
    (leftIsSymbol : Expression → Option Bool) (depth : Nat) (this : Expression) :
    SymHop.isEquation depth this = none
    ∧ SymHop.isAssignment leftIsSymbol depth this = none := by
  have h : ∀ depth : Nat, SymHop.isEquation depth this = none := by
    intro depth
    induction depth with
    | zero => rfl
    | succ depth ih => exact ih
  exact ⟨h depth, by simp only [SymHop.isAssignment, h depth]⟩


/-! ## OptimizationWorkerComplexRFM: stored samples -/

/-- The storage that `init` sets up for one parameter: 3 coefficients and room
for 4 samples, with the vector of stored objectives at its full length 4 and
no stored point. -/
theorem OptimizationWorkerComplexRFM.init_scenarioWorker (content : Nat → ℚ) :
    init content scenarioWorker
      = ⟨1, [[1], [2], [3]], [10, 20, 30], 4, [content 0, content 1, content 2],
          [content 0, content 1, content 2, content 3], []⟩ := by
  have h1 : toInt ((1 : ℚ) * 1 / 2 + 3 / 2 * 1 + 1) = 3 := by
    have : ((1 : ℚ) * 1 / 2 + 3 / 2 * 1 + 1) = ((3 : Int) : ℚ) := by norm_num
    rw [this]
    simp [toInt]
  have h2 : toInt (((3 : Int) : ℚ) * (3 / 2)) = 4 := by
    have hpos : (0 : ℚ) ≤ ((3 : Int) : ℚ) * (3 / 2) := by norm_num
    rw [toInt, if_pos hpos, Int.floor_eq_iff]
    constructor <;> norm_num
  simp only [init, scenarioWorker, Nat.cast_one, h1, h2]
  rfl

/-- C24 (evaluation at the failing input): a worker with one parameter, for
which `init` makes room for 4 samples, after three calls of
`storeValuesForMetaModel`, for the points 0, 1, 2 with the objective values 10,
20, 30.  The stored points are the three points in the order of the calls, and
the stored objectives are one value left by `init` followed by 10, 20, 30: at
the index 1 the point of the second call is paired with the objective value 10
of the first call, and at the index 0 the point of the first call is paired
with a value that no call stored. -/
theorem storeValuesForMetaModel_pairs_other_objective (content : Nat → ℚ) :
    (OptimizationWorkerComplexRFM.scenarioStored content).map (fun w => w.mStorageSize)
      = some 4
    ∧ (OptimizationWorkerComplexRFM.scenarioStored content).map
        (fun w => w.mStoredParameters) = some [[1], [2], [3]]
    ∧ (OptimizationWorkerComplexRFM.scenarioStored content).map
        (fun w => w.mStoredObjectives) = some [content 3, 10, 20, 30] := by
  unfold OptimizationWorkerComplexRFM.scenarioStored
  rw [OptimizationWorkerComplexRFM.init_scenarioWorker]
  simp [OptimizationWorkerComplexRFM.storeValuesForMetaModel,
    OptimizationWorkerComplexRFM.shiftLeft, List.range_succ]

end Hopsan
